import Mathlib

/-!
JOS trap core, copy-on-write fork and IPC rendezvous: a shallow embedding of
`lib/fork.c`, `lib/ipc.c` and `kern/trap.c`.

* Machine words are natural numbers; 32-bit wrap-around is written `% 2 ^ 32`
  where the C code can overflow.
* The user-level library of `fork.c` runs against a state `Kern` that holds what the
  library can observe (its page tables through `uvpt`/`uvpd`, the environment table
  `envs`) and what the kernel capabilities act on (page tables of every environment,
  frame contents, the free frames), plus the log of capability calls issued so far.
* The routines of `ipc.c` are embedded over the capabilities they consume (`IpcSys`),
  with a bound on the iterations of their waiting loops; they are run against `Kern`
  and against a kernel that answers from a script.
* The trap core of `trap.c` runs against the kernel state `KState`; a routine's result
  says how control is handed over (`Ctl`).
* The kernel capabilities themselves (`sys_page_alloc`, `sys_page_map`, `env_destroy`,
  ...) live in files that are not among the sources; they are modelled from the
  specification and marked as such.
-/

namespace JOS

/-! ## Constants (inc/mmu.h, inc/memlayout.h, inc/trap.h, inc/error.h) -/

/-- Modelled from the spec: page size of inc/mmu.h (not among the sources), 4096 bytes. -/
def PGSIZE : Nat := 4096

/-- Modelled from the spec: log2 of the page size (inc/mmu.h, not among the sources). -/
def PGSHIFT : Nat := 12

/-- Modelled from the spec: entries per page table (inc/mmu.h); `fork` shifts the
directory index by 10 bits accordingly. -/
def NPTENTRIES : Nat := 1024

/-- Modelled from the spec: bytes mapped by one page-directory slot (inc/mmu.h). -/
def PTSIZE : Nat := PGSIZE * NPTENTRIES

/-- Modelled from the spec: the "present" flag of a page-table entry (inc/mmu.h). -/
def PTE_P : Nat := 0x001

/-- Modelled from the spec: the "writable" flag of a page-table entry (inc/mmu.h). -/
def PTE_W : Nat := 0x002

/-- Modelled from the spec: the "user" flag of a page-table entry (inc/mmu.h). -/
def PTE_U : Nat := 0x004

/-- The software copy-on-write flag, `#define PTE_COW 0x800` in fork.c. -/
def PTE_COW : Nat := 0x800

/-- Modelled from the spec: the write bit of a page-fault error code (inc/mmu.h);
`print_trapframe` decodes the same bit as `tf_err & 2`. -/
def FEC_WR : Nat := 0x2

/-- Modelled from the spec: the "shared system boundary" of inc/memlayout.h (not among
the sources); user mappings live below it. -/
def UTOP : Nat := 0xeec00000

/-- Modelled from the spec: the exception-stack ceiling of inc/memlayout.h, equal to `UTOP`. -/
def UXSTACKTOP : Nat := UTOP

/-- Modelled from the spec: base of the scratch region of inc/memlayout.h. -/
def UTEMP : Nat := 0x00400000

/-- Modelled from the spec: the fixed scratch virtual address used by the fault handler
(inc/memlayout.h: `UTEMP + PTSIZE - PGSIZE`). -/
def PFTEMP : Nat := UTEMP + PTSIZE - PGSIZE

/-- Modelled from the spec: size of the environment table (inc/env.h). -/
def NENV : Nat := 1024

/-- Modelled from the spec: error number "out of memory" of inc/error.h. -/
def E_NO_MEM : Int := 4

/-- Modelled from the spec: error number "invalid parameter" of inc/error.h. -/
def E_INVAL : Int := 3

/-- Modelled from the spec: error number "target not currently receiving" of inc/error.h. -/
def E_IPC_NOT_RECV : Int := 7

/-- Modelled from the spec: environment status "runnable" of inc/env.h. -/
def ENV_RUNNABLE : Nat := 2

/-- Page number of a linear address: `PGNUM(la) = la >> PGSHIFT` (inc/mmu.h). -/
def PGNUM (la : Nat) : Nat := la >>> PGSHIFT

/-- Page-directory index of a linear address: `PDX(la) = (la >> 22) & 0x3FF` (inc/mmu.h). -/
def PDX (la : Nat) : Nat := (la >>> 22) &&& 0x3FF

/-- Round `a` down to a multiple of `n`: `ROUNDDOWN(a, n) = a - a % n` (inc/types.h). -/
def ROUNDDOWN (a n : Nat) : Nat := a - a % n

/-- Physical address in a page-table entry: `PTE_ADDR(pte) = pte & ~0xFFF` (inc/mmu.h),
written arithmetically. -/
def PTE_ADDR (pte : Nat) : Nat := pte / PGSIZE * PGSIZE

/-- The twelve flag bits of a page-table entry: `pte & 0xFFF`. -/
def PTE_FLAGS (pte : Nat) : Nat := pte &&& 0xFFF

/-- Index in the environment table of an identity: `ENVX(envid) = envid & (NENV - 1)`. -/
def ENVX (envid : Int) : Nat := (envid % (NENV : Int)).toNat

/-! ## Trap frames (inc/trap.h) -/

/-- The registers pushed by `pusha`: `struct PushRegs`. -/
structure PushRegs where
  reg_edi : Nat
  reg_esi : Nat
  reg_ebp : Nat
  reg_oesp : Nat
  reg_ebx : Nat
  reg_edx : Nat
  reg_ecx : Nat
  reg_eax : Nat
  deriving DecidableEq, Repr

/-- The saved execution context: `struct Trapframe`. -/
structure Trapframe where
  tf_regs : PushRegs
  tf_es : Nat
  tf_ds : Nat
  tf_trapno : Nat
  tf_err : Nat
  tf_eip : Nat
  tf_cs : Nat
  tf_eflags : Nat
  tf_esp : Nat
  tf_ss : Nat
  deriving DecidableEq, Repr

/-- The fault record delivered to a user fault handler: `struct UTrapframe`. -/
structure UTrapframe where
  utf_fault_va : Nat
  utf_err : Nat
  utf_regs : PushRegs
  utf_eip : Nat
  utf_eflags : Nat
  utf_esp : Nat
  deriving DecidableEq, Repr

/-- The environment control block: the fields of `struct Env` the trap core and the
user library use. -/
structure Env where
  env_tf : Trapframe
  env_id : Int
  env_type : Nat
  env_status : Nat
  env_pgfault_upcall : Nat
  env_ipc_recving : Nat
  env_ipc_dstva : Nat
  env_ipc_value : Nat
  env_ipc_from : Int
  env_ipc_perm : Int
  deriving DecidableEq, Repr

/-! ## The user library's view of the system -/

/-- A capability (system call) issued by the user library, with its arguments. -/
inductive Call where
  | page_alloc (envid : Int) (va perm : Nat)
  | page_map (srcenv : Int) (srcva : Nat) (dstenv : Int) (dstva perm : Nat)
  | exofork
  | getenvid
  | env_set_pgfault_upcall (envid : Int) (upcall : Nat)
  | env_set_status (envid : Int) (status : Nat)
  | yield
  | ipc_try_send (to_env : Int) (val pg perm : Nat)
  | ipc_recv (pg : Nat)
  deriving DecidableEq, Repr

/-- How a library routine ends: it returns a value, it panics (fatal to the calling
environment), or it is still waiting when the schedule it was given runs out. -/
inductive Outcome (α : Type) where
  | ret (v : α)
  | panic (msg : String)
  | blocked
  deriving DecidableEq, Repr

/-- The system as the user library sees and changes it. -/
structure Kern where
  -- identity of the environment running the library code (what `sys_getenvid` returns)
  cur : Int
  -- index in `envs` the library's `thisenv` pointer refers to
  thisenv : Nat
  -- the environment table
  envs : Nat → Env
  -- page-table entries: environment identity, page number, entry (0 when unmapped)
  pt : Int → Nat → Nat
  -- page-directory entries: environment identity, directory index, entry
  pd : Int → Nat → Nat
  -- contents of physical frames: frame number, offset in the frame, byte
  mem : Nat → Nat → Nat
  -- the free physical frames, next to be allocated first
  free : List Nat
  -- what `sys_exofork` returns to this caller
  exofork_ret : Int
  -- address of the library's assembly upcall entry point
  upcall_entry : Nat
  -- error number with which the kernel refuses a call without performing it (argument
  -- validation the specification leaves to the kernel); 0 when it does not refuse
  refuse : Call → Nat
  -- the capability calls issued so far, oldest first
  log : List Call

/-- The read-only page-table window: `uvpt[pn]` is the current environment's entry. -/
def uvpt (k : Kern) (pn : Nat) : Nat := k.pt k.cur pn

/-- The read-only page-directory window: `uvpd[ipd]`. -/
def uvpd (k : Kern) (ipd : Nat) : Nat := k.pd k.cur ipd

/-- Frame number held in a page-table entry. -/
def pte_frame (pte : Nat) : Nat := PGNUM (PTE_ADDR pte)

/-- Identity 0 names the calling environment in every capability. -/
def envid2env (k : Kern) (envid : Int) : Int := if envid = 0 then k.cur else envid

/-- Replace one entry of a two-level table. -/
def setEntry (t : Int → Nat → Nat) (e : Int) (n v : Nat) : Int → Nat → Nat :=
  fun e1 n1 => if e1 = e ∧ n1 = n then v else t e1 n1

/-- Append a call to the log. -/
def record (c : Call) (k : Kern) : Kern := { k with log := k.log ++ [c] }

/-- Install the entry `pte` for page `va / PGSIZE` of environment `e`, creating the
page table (marking the directory slot present) if needed. -/
def install (e : Int) (va pte : Nat) (k : Kern) : Kern :=
  { k with
    pt := setEntry k.pt e (va / PGSIZE) pte
    pd := setEntry k.pd e (va / PTSIZE) (k.pd e (va / PTSIZE) ||| (PTE_P ||| PTE_W ||| PTE_U)) }

/-- Replace the list of free frames. -/
def setFree (rest : List Nat) (k : Kern) : Kern := { k with free := rest }

/-- Modelled from the spec: `sys_page_alloc` of kern/syscall.c (not among the sources),
the capability "allocate-and-map-a-fresh-page(target-process, virtual-address,
permission-bits)". Refused, it answers the negated error number; otherwise it takes the next free frame and maps it at `va` in
the target with exactly the given permission bits; with no free frame it answers
`-E_NO_MEM`. The frame's content is left as it is. -/
def sys_page_alloc (envid : Int) (va perm : Nat) (k : Kern) : Int × Kern :=
  let k1 := record (Call.page_alloc envid va perm) k
  if k.refuse (Call.page_alloc envid va perm) ≠ 0 then
    (-(k.refuse (Call.page_alloc envid va perm) : Int), k1)
  else
    match k.free with
    | [] => (-E_NO_MEM, k1)
    | f :: rest =>
      (0, setFree rest (install (envid2env k envid) va (f * PGSIZE ||| PTE_FLAGS perm) k1))

/-- Modelled from the spec: `sys_page_map` of kern/syscall.c (not among the sources),
the capability "map-existing-page(source-process, source-address, target-process,
target-address, permission-bits)". Refused, it answers the negated error number; otherwise the frame mapped at `srcva` in the
source becomes mapped at `dstva` in the target with exactly the given permission bits;
when the source has no present mapping it answers `-E_INVAL`. -/
def sys_page_map (srcenv : Int) (srcva : Nat) (dstenv : Int) (dstva perm : Nat) (k : Kern) :
    Int × Kern :=
  let k1 := record (Call.page_map srcenv srcva dstenv dstva perm) k
  if k.refuse (Call.page_map srcenv srcva dstenv dstva perm) ≠ 0 then
    (-(k.refuse (Call.page_map srcenv srcva dstenv dstva perm) : Int), k1)
  else
    let spte := k.pt (envid2env k srcenv) (srcva / PGSIZE)
    if spte &&& PTE_P = 0 then (-E_INVAL, k1)
    else (0, install (envid2env k dstenv) dstva (PTE_ADDR spte ||| PTE_FLAGS perm) k1)

/-- Modelled from the spec: `memmove` of lib/string.c (not among the sources) as the
fault handler uses it, "copy the full page-sized content from the faulting page
(rounded down to its page boundary) into the scratch page": for page-aligned `dst`
and `src` the first `n` bytes of the frame mapped at `dst` receive the bytes of the
frame mapped at `src`. -/
def memmove (dst src n : Nat) (k : Kern) : Kern :=
  { k with
    mem := fun f off =>
      if f = pte_frame (uvpt k (PGNUM dst)) ∧ off < n then
        k.mem (pte_frame (uvpt k (PGNUM src))) off
      else k.mem f off }

/-! ## lib/fork.c -/

/-- The custom page-fault handler of fork.c: if the faulting page is copy-on-write, map
in a private writable copy. -/
def pgfault (utf : UTrapframe) (k : Kern) : Outcome Unit × Kern :=
  let addr := utf.utf_fault_va
  let err := utf.utf_err
  if err &&& FEC_WR = 0 ∨ uvpt k (PGNUM addr) &&& PTE_COW = 0 then
    (Outcome.panic "faulting access was not a write", k)
  else
    match sys_page_alloc 0 PFTEMP (PTE_W ||| PTE_U ||| PTE_P) k with
    | (r, k1) =>
      if r ≠ 0 then (Outcome.panic "pgfault: no phys mem", k1)
      else
        let rounding := ROUNDDOWN addr PGSIZE
        let k2 := memmove PFTEMP rounding PGSIZE k1
        match sys_page_map 0 PFTEMP 0 rounding (PTE_W ||| PTE_U ||| PTE_P) k2 with
        | (rv, k3) =>
          if rv ≠ 0 then (Outcome.panic "pgfault: map error", k3)
          else (Outcome.ret (), k3)

/-- Map our virtual page `pn` into the target at the same address (fork.c `duppage`);
writable or copy-on-write pages become copy-on-write in both. -/
def duppage (envid : Int) (pn : Nat) (k : Kern) : Outcome Int × Kern :=
  let pte := uvpt k pn
  let va := (pn <<< PGSHIFT) % 2 ^ 32
  if pte &&& PTE_W ≠ 0 ∨ pte &&& PTE_COW ≠ 0 then
    match sys_page_map 0 va envid va (PTE_COW ||| PTE_U ||| PTE_P) k with
    | (rv, k1) =>
      if rv ≠ 0 then (Outcome.panic "duppage: map cow error", k1)
      else
        match sys_page_map 0 va 0 va (PTE_COW ||| PTE_U ||| PTE_P) k1 with
        | (r2, k2) =>
          if r2 ≠ 0 then (Outcome.panic "duppage: change perm error", k2)
          else (Outcome.ret 0, k2)
  else
    match sys_page_map 0 va envid va (PTE_U ||| PTE_P) k with
    | (r, k1) =>
      if r ≠ 0 then (Outcome.panic "duppage: map ro error", k1)
      else (Outcome.ret 0, k1)

/-! ## Sample states -/

/-- A register snapshot with every register zero. -/
def zeroRegs : PushRegs := ⟨0, 0, 0, 0, 0, 0, 0, 0⟩

/-- A trap frame with every field zero. -/
def zeroTf : Trapframe := ⟨zeroRegs, 0, 0, 0, 0, 0, 0, 0, 0, 0⟩

/-- A control block with identity `id` and nothing else set. -/
def blankEnv (id : Int) : Env := ⟨zeroTf, id, 0, 0, 0, 0, 0, 0, 0, 0⟩

/-- A parent environment 0x1001 with one copy-on-write page (page 0x800, frame 5, first
byte 0xAB), frames 9 and 10 free, and a kernel that refuses nothing. -/
def sampleKern : Kern where
  cur := 0x1001
  thisenv := 1
  envs := fun i => blankEnv (0x1000 + i)
  pt := fun e n => if e = 0x1001 ∧ n = 0x800 then 5 * 4096 + 0x805 else 0
  pd := fun e i => if e = 0x1001 ∧ i = 2 then 7 else 0
  mem := fun f off => if f = 5 ∧ off = 0 then 0xAB else 0
  free := [9, 10]
  exofork_ret := 0x1002
  upcall_entry := 0x800100
  refuse := fun _ => 0
  log := []

/-- A write fault at address 0x800010, inside page 0x800. -/
def sampleUtf : UTrapframe := ⟨0x800010, 7, zeroRegs, 0x800020, 0, 0xeebfdf00⟩

/-- The same environment, but the copy-on-write page is the scratch page itself
(page `PGNUM PFTEMP`, frame 5, first byte 0xAB). -/
def scratchKern : Kern :=
  { sampleKern with
    pt := fun e n => if e = 0x1001 ∧ n = 0x7ff then 5 * 4096 + 0x805 else 0
    pd := fun e i => if e = 0x1001 ∧ i = 1 then 7 else 0 }

/-- A write fault at the scratch address `PFTEMP`. -/
def scratchUtf : UTrapframe := ⟨0x7ff000, 7, zeroRegs, 0x800020, 0, 0xeebfdf00⟩

/-- Number of page allocations among a list of calls. -/
def allocCount (l : List Call) : Nat :=
  (l.filter fun c => match c with
    | Call.page_alloc _ _ _ => true
    | _ => false).length

/-- Number of map-existing-page calls among a list of calls. -/
def mapCount (l : List Call) : Nat :=
  (l.filter fun c => match c with
    | Call.page_map _ _ _ _ _ => true
    | _ => false).length

/-- Modelled from the spec: environment status "not runnable" of inc/env.h, the status of
a freshly created child. -/
def ENV_NOT_RUNNABLE : Nat := 4

/-- Replace one control block of the environment table. -/
def setEnv (t : Nat → Env) (i : Nat) (e : Env) : Nat → Env :=
  fun j => if j = i then e else t j

/-- Modelled from the spec: `set_pgfault_handler` of lib/pgfault.c (not among the sources),
"register a private fault handler as the environment's fault-upcall entry point": the
calling environment's control block receives the library's upcall entry point. -/
def set_pgfault_handler (k : Kern) : Kern :=
  { record (Call.env_set_pgfault_upcall 0 k.upcall_entry) k with
    envs := setEnv k.envs (ENVX k.cur)
      { k.envs (ENVX k.cur) with env_pgfault_upcall := k.upcall_entry } }

/-- Modelled from the spec: `sys_exofork` of kern/syscall.c (not among the sources),
"create-child-process() → identity or negative error, distinguishing 'you are the parent'
from 'you are the child'". The answer is the state's `exofork_ret`; a positive answer is
the identity of "a new, empty environment": not runnable and with no page mapped. -/
def sys_exofork (k : Kern) : Int × Kern :=
  if 0 < k.exofork_ret then
    (k.exofork_ret,
      { record Call.exofork k with
        envs := setEnv k.envs (ENVX k.exofork_ret)
          { k.envs (ENVX k.exofork_ret) with
            env_id := k.exofork_ret, env_status := ENV_NOT_RUNNABLE, env_pgfault_upcall := 0 }
        pt := fun e n => if e = k.exofork_ret then 0 else k.pt e n
        pd := fun e i => if e = k.exofork_ret then 0 else k.pd e i })
  else (k.exofork_ret, record Call.exofork k)

/-- Modelled from the spec: `sys_getenvid` of kern/syscall.c (not among the sources): the
identity of the calling environment. -/
def sys_getenvid (k : Kern) : Int × Kern := (k.cur, record Call.getenvid k)

/-- Modelled from the spec: `sys_env_set_pgfault_upcall` of kern/syscall.c (not among the
sources), the capability "set-fault-upcall(process, entry-point)". -/
def sys_env_set_pgfault_upcall (envid : Int) (upcall : Nat) (k : Kern) : Int × Kern :=
  let k1 := record (Call.env_set_pgfault_upcall envid upcall) k
  if k.refuse (Call.env_set_pgfault_upcall envid upcall) ≠ 0 then
    (-(k.refuse (Call.env_set_pgfault_upcall envid upcall) : Int), k1)
  else
    (0, { k1 with
          envs := setEnv k.envs (ENVX (envid2env k envid))
            { k.envs (ENVX (envid2env k envid)) with env_pgfault_upcall := upcall } })

/-- Modelled from the spec: `sys_env_set_status` of kern/syscall.c (not among the
sources), the capability "set-runnable(process)". -/
def sys_env_set_status (envid : Int) (status : Nat) (k : Kern) : Int × Kern :=
  let k1 := record (Call.env_set_status envid status) k
  if k.refuse (Call.env_set_status envid status) ≠ 0 then
    (-(k.refuse (Call.env_set_status envid status) : Int), k1)
  else
    (0, { k1 with
          envs := setEnv k.envs (ENVX (envid2env k envid))
            { k.envs (ENVX (envid2env k envid)) with env_status := status } })

/-- The inner loop of `fork`: `for (ipt = 0; ipt != NPTENTRIES; ++ipt)`, run over the
list of the indices still to visit. -/
def fork_pages (envid : Int) (ipd : Nat) : List Nat → Kern → Outcome Unit × Kern
  | [], k => (Outcome.ret (), k)
  | ipt :: rest, k =>
    let pn := (ipd <<< 10) ||| ipt
    if pn = PGNUM (UXSTACKTOP - PGSIZE) then
      match sys_page_alloc envid (UXSTACKTOP - PGSIZE) (PTE_W ||| PTE_U ||| PTE_P) k with
      | (r, k1) =>
        if r ≠ 0 then (Outcome.panic "fork: no phys mem for xstk", k1)
        else fork_pages envid ipd rest k1
    else if uvpt k pn &&& PTE_P ≠ 0 then
      match duppage envid pn k with
      | (Outcome.ret _, k1) => fork_pages envid ipd rest k1
      | (Outcome.panic m, k1) => (Outcome.panic m, k1)
      | (Outcome.blocked, k1) => (Outcome.blocked, k1)
    else fork_pages envid ipd rest k

/-- The outer loop of `fork`: `for (ipd = 0; ipd != PDX(UTOP); ++ipd)`, run over the
list of the directory indices still to visit. -/
def fork_dirs (envid : Int) : List Nat → Kern → Outcome Unit × Kern
  | [], k => (Outcome.ret (), k)
  | ipd :: rest, k =>
    if uvpd k ipd &&& PTE_P = 0 then fork_dirs envid rest k
    else
      match fork_pages envid ipd (List.range NPTENTRIES) k with
      | (Outcome.ret _, k1) => fork_dirs envid rest k1
      | (Outcome.panic m, k1) => (Outcome.panic m, k1)
      | (Outcome.blocked, k1) => (Outcome.blocked, k1)

/-- Set the library's `thisenv` pointer. -/
def setThisenv (i : Nat) (k : Kern) : Kern := { k with thisenv := i }

/-- User-level fork with copy-on-write (fork.c `fork`). The console output of `cprintf`
is not part of the state. -/
def fork (k : Kern) : Outcome Int × Kern :=
  match sys_exofork (set_pgfault_handler k) with
  | (envid, k1) =>
    if envid < 0 then (Outcome.panic "failed to create child", k1)
    else if envid = 0 then
      match sys_getenvid k1 with
      | (id, k2) => (Outcome.ret 0, setThisenv (ENVX id) k2)
    else
      match fork_dirs envid (List.range (PDX UTOP)) k1 with
      | (Outcome.ret _, k2) =>
        match sys_env_set_pgfault_upcall envid (k2.envs k2.thisenv).env_pgfault_upcall k2 with
        | (r, k3) =>
          if r ≠ 0 then (Outcome.panic "fork: cannot set pgfault upcall", k3)
          else
            match sys_env_set_status envid ENV_RUNNABLE k3 with
            | (r2, k4) =>
              if r2 ≠ 0 then (Outcome.panic "fork: cannot set env status", k4)
              else (Outcome.ret envid, k4)
      | (Outcome.panic m, k2) => (Outcome.panic m, k2)
      | (Outcome.blocked, k2) => (Outcome.blocked, k2)

/-- A call that maps from or to the exception-stack page. -/
def touchesXstack (c : Call) : Bool :=
  match c with
  | Call.page_map _ sva _ dva _ =>
    PGNUM sva = PGNUM (UXSTACKTOP - PGSIZE) || PGNUM dva = PGNUM (UXSTACKTOP - PGSIZE)
  | _ => false

/-- Whether a call is a page allocation. -/
def isAlloc (c : Call) : Bool :=
  match c with
  | Call.page_alloc _ _ _ => true
  | _ => false

/-- The parent of `sampleKern` with, in addition, its user stack (page 0xeebfd, frame 7)
and its exception stack (page 0xeebff, frame 6) mapped writable. -/
def forkKern : Kern :=
  { sampleKern with
    pt := fun e n =>
      if e = 0x1001 ∧ n = 0x800 then 5 * 4096 + 7
      else if e = 0x1001 ∧ n = 0xeebfd then 7 * 4096 + 7
      else if e = 0x1001 ∧ n = 0xeebff then 6 * 4096 + 7
      else 0
    pd := fun e i => if e = 0x1001 ∧ (i = 2 ∨ i = 954) then 7 else 0 }

/-- A step of the walk that neither allocates nor touches the exception-stack page: it
appends only such calls, and leaves the free frames, every entry of the exception-stack
page, the control blocks and the presence of directory slots as they were. -/
structure Quiet (k k1 : Kern) : Prop where
  log : ∃ l, k1.log = k.log ++ l ∧ ∀ c ∈ l, isAlloc c = false ∧ touchesXstack c = false
  free : k1.free = k.free
  cur : k1.cur = k.cur
  refuse : k1.refuse = k.refuse
  envs : k1.envs = k.envs
  thisenv : k1.thisenv = k.thisenv
  xpte : ∀ e, k1.pt e (PGNUM (UXSTACKTOP - PGSIZE)) = k.pt e (PGNUM (UXSTACKTOP - PGSIZE))
  pd : ∀ e i, k.pd e i &&& PTE_P ≠ 0 → k1.pd e i &&& PTE_P ≠ 0

/-! ## lib/ipc.c -/

/-- The value of a 32-bit word read as `int32_t`. -/
def int32 (v : Nat) : Int :=
  if v % 2 ^ 32 < 2 ^ 31 then ((v % 2 ^ 32 : Nat) : Int) else ((v % 2 ^ 32 : Nat) : Int) - 2 ^ 32

/-- The capabilities ipc.c consumes, over an arbitrary system state `σ`: the two IPC
system calls, the voluntary yield, and the control block `thisenv` points to. -/
structure IpcSys (σ : Type) where
  sys_ipc_try_send : Int → Nat → Nat → Nat → σ → Int × σ
  sys_ipc_recv : Nat → σ → Int × σ
  sys_yield : σ → σ
  thisenv : σ → Env

/-- What `ipc_recv` hands back: its return value and what it stored through
`from_env_store` and `perm_store` (`none` for a NULL pointer). -/
structure RecvOut where
  ret : Int
  from_env_store : Option Int
  perm_store : Option Int
  deriving DecidableEq, Repr

/-- The wait of `ipc_recv`: `while (thisenv->env_ipc_recving != 0) sys_yield();`, with
`fuel` bounding the number of yields. -/
def ipc_recv_wait {σ : Type} (S : IpcSys σ) : Nat → σ → Outcome Unit × σ
  | 0, s =>
    if (S.thisenv s).env_ipc_recving ≠ 0 then (Outcome.blocked, s) else (Outcome.ret (), s)
  | fuel + 1, s =>
    if (S.thisenv s).env_ipc_recving ≠ 0 then ipc_recv_wait S fuel (S.sys_yield s)
    else (Outcome.ret (), s)

/-- Receive a value via IPC and return it (ipc.c `ipc_recv`). A pointer argument is
given by whether it is non-NULL; `pg = 0` is the NULL page address. -/
def ipc_recv {σ : Type} (S : IpcSys σ) (fuel : Nat) (from_env_store : Bool) (pg : Nat)
    (perm_store : Bool) (s : σ) : Outcome RecvOut × σ :=
  match S.sys_ipc_recv (if pg = 0 then UTOP else pg) s with
  | (RV, s1) =>
    if RV < 0 then
      (Outcome.ret ⟨RV, if from_env_store then some 0 else none,
        if perm_store then some 0 else none⟩, s1)
    else
      match ipc_recv_wait S fuel s1 with
      | (Outcome.ret _, s2) =>
        (Outcome.ret ⟨int32 (S.thisenv s2).env_ipc_value,
          if from_env_store then some (S.thisenv s2).env_ipc_from else none,
          if perm_store then some (S.thisenv s2).env_ipc_perm else none⟩, s2)
      | (Outcome.panic m, s2) => (Outcome.panic m, s2)
      | (Outcome.blocked, s2) => (Outcome.blocked, s2)

/-- The retry loop of `ipc_send`: `while (RV == -E_IPC_NOT_RECV) { sys_yield(); RV =
sys_ipc_try_send(...); }` followed by `if (RV < 0) panic(...)`, with `fuel` bounding the
number of iterations. -/
def ipc_send_loop {σ : Type} (S : IpcSys σ) (to_env : Int) (val pg perm : Nat) :
    Nat → Int → σ → Outcome Unit × σ
  | 0, RV, s =>
    if RV = -E_IPC_NOT_RECV then (Outcome.blocked, s)
    else if RV < 0 then (Outcome.panic "ipc_send: Unknown Error", s)
    else (Outcome.ret (), s)
  | fuel + 1, RV, s =>
    if RV = -E_IPC_NOT_RECV then
      match S.sys_ipc_try_send to_env val pg perm (S.sys_yield s) with
      | (rv, s1) => ipc_send_loop S to_env val pg perm fuel rv s1
    else if RV < 0 then (Outcome.panic "ipc_send: Unknown Error", s)
    else (Outcome.ret (), s)

/-- Send `val` (and `pg` with `perm`, if `pg` is non-NULL) to `to_env` (ipc.c
`ipc_send`). -/
def ipc_send {σ : Type} (S : IpcSys σ) (fuel : Nat) (to_env : Int) (val pg perm : Nat)
    (s : σ) : Outcome Unit × σ :=
  match S.sys_ipc_try_send to_env val (if pg = 0 then UTOP else pg) perm s with
  | (RV, s1) => ipc_send_loop S to_env val (if pg = 0 then UTOP else pg) perm fuel RV s1

/-- A kernel that answers the successive try-sends with a given sequence of results
and records what it is asked. -/
structure Script where
  answers : Nat → Int
  tries : Nat
  yields : Nat
  calls : List Call

/-- The capabilities over a scripted kernel: the n-th try-send is answered
`answers n`. -/
def scriptIpc : IpcSys Script where
  sys_ipc_try_send := fun to_env val pg perm s =>
    (s.answers s.tries,
      { s with tries := s.tries + 1, calls := s.calls ++ [Call.ipc_try_send to_env val pg perm] })
  sys_ipc_recv := fun pg s => (0, { s with calls := s.calls ++ [Call.ipc_recv pg] })
  sys_yield := fun s => { s with yields := s.yields + 1, calls := s.calls ++ [Call.yield] }
  thisenv := fun _ => blankEnv 0

/-- The trace of a send that is told "not receiving" `n` times: one attempt, then `n`
times a yield followed by an attempt. -/
def sendTrace (c : Call) (n : Nat) : List Call :=
  c :: (List.replicate n [Call.yield, c]).flatten

/-- A sequence of try-send results: "not receiving" twice, then success. -/
def twiceBusy : Nat → Int := fun i => if i < 2 then -E_IPC_NOT_RECV else 0

/-- Fill the mailbox of the control block at index `i`: the receive-pending flag is
cleared and the sender's identity, the value and the permission are stored. -/
def deliver (i : Nat) (sender : Int) (val : Nat) (perm : Int) (k : Kern) : Kern :=
  { k with
    envs := setEnv k.envs i
      { k.envs i with
        env_ipc_recving := 0, env_ipc_from := sender, env_ipc_value := val,
        env_ipc_perm := perm } }

/-- Modelled from the spec: `sys_ipc_try_send` of kern/syscall.c (not among the sources),
the non-blocking "try send value (and optional page/permissions) to target". Refused, it
answers the negated error number; a target that has no receive posted gives
`-E_IPC_NOT_RECV`; otherwise the value, the sender's identity and the permission are
stored in the target's mailbox and its receive-pending flag is cleared. The permission
stored is 0 unless a page is transferred, which needs both addresses below `UTOP` (the
no-page sentinel is `UTOP`) and a present source page. -/
def sys_ipc_try_send (to_env : Int) (val pg perm : Nat) (k : Kern) : Int × Kern :=
  let k1 := record (Call.ipc_try_send to_env val pg perm) k
  let i := ENVX (envid2env k to_env)
  if k.refuse (Call.ipc_try_send to_env val pg perm) ≠ 0 then
    (-(k.refuse (Call.ipc_try_send to_env val pg perm) : Int), k1)
  else if (k.envs i).env_ipc_recving = 0 then (-E_IPC_NOT_RECV, k1)
  else if pg < UTOP ∧ (k.envs i).env_ipc_dstva < UTOP then
    if k.pt k.cur (pg / PGSIZE) &&& PTE_P = 0 then (-E_INVAL, k1)
    else
      (0, deliver i k.cur val perm
        (install (envid2env k to_env) (k.envs i).env_ipc_dstva
          (PTE_ADDR (k.pt k.cur (pg / PGSIZE)) ||| PTE_FLAGS perm) k1))
  else (0, deliver i k.cur val 0 k1)

/-- Mark the caller's mailbox receive-pending, with the destination address `pg`. -/
def post_recv (pg : Nat) (k : Kern) : Kern :=
  { k with
    envs := setEnv k.envs (ENVX k.cur)
      { k.envs (ENVX k.cur) with env_ipc_recving := 1, env_ipc_dstva := pg } }

/-- The processor given to environment `e`, whose `thisenv` is its own control block. -/
def switchTo (e : Int) (k : Kern) : Kern := { k with cur := e, thisenv := ENVX e }

/-- Modelled from the spec: `sys_ipc_recv` of kern/syscall.c (not among the sources),
"accept next message, optionally mapping an incoming page at a given virtual address":
unless refused, the caller's mailbox is marked receive-pending with the destination
address, and the call answers 0; the mailbox is filled later, by a sender. -/
def sys_ipc_recv (pg : Nat) (k : Kern) : Int × Kern :=
  let k1 := record (Call.ipc_recv pg) k
  if k.refuse (Call.ipc_recv pg) ≠ 0 then (-(k.refuse (Call.ipc_recv pg) : Int), k1)
  else (0, post_recv pg k1)

/-- The system together with what the other environments do each time the running
environment gives up the processor. -/
structure Sched where
  kern : Kern
  others : List (Kern → Kern)

/-- Back in the environment `me` after the others have run: its identity and its
`thisenv` pointer are its own. -/
def resume (me k : Kern) : Kern := { k with cur := me.cur, thisenv := me.thisenv }

/-- Modelled from the spec: `sys_yield`, the capability "voluntary-yield()": the next
step of the other environments runs, then the caller is resumed. -/
def sched_yield_step (s : Sched) : Sched :=
  match s.others with
  | [] => { s with kern := record Call.yield s.kern }
  | w :: ws => ⟨resume s.kern (w (record Call.yield s.kern)), ws⟩

/-- The capabilities of ipc.c over the modelled kernel. -/
def kernIpc : IpcSys Sched where
  sys_ipc_try_send := fun to_env val pg perm s =>
    ((sys_ipc_try_send to_env val pg perm s.kern).1,
      { s with kern := (sys_ipc_try_send to_env val pg perm s.kern).2 })
  sys_ipc_recv := fun pg s =>
    ((sys_ipc_recv pg s.kern).1, { s with kern := (sys_ipc_recv pg s.kern).2 })
  sys_yield := sched_yield_step
  thisenv := fun s => s.kern.envs s.kern.thisenv

/-- One step of the others: environment `sender` runs `ipc_send(to_env, val, pg, perm)`
with nobody else scheduled meanwhile. -/
def senderTurn (sender : Int) (fuel : Nat) (to_env : Int) (val pg perm : Nat) : Kern → Kern :=
  fun k =>
    (ipc_send kernIpc fuel to_env val pg perm ⟨switchTo sender k, []⟩).2.kern

/-- The receiver of the sample rendezvous: environment 0x1001 with `thisenv` on its own
control block. -/
def recvKern : Kern := { sampleKern with thisenv := ENVX 0x1001 }

/-! ## kern/trap.c -/

/-- Modelled from the spec: page-fault vector of inc/trap.h; `trap_init` installs `PGFLT`
at `idt[14]` and `trapname` names vector 14 "Page Fault". -/
def T_PGFLT : Nat := 14

/-- Modelled from the spec: system-call vector of inc/trap.h; `trap_init` installs
`SYSCALL` at `idt[48]`. -/
def T_SYSCALL : Nat := 48

/-- Modelled from the spec: breakpoint vector of inc/trap.h (`idt[3]`, "Breakpoint"). -/
def T_BRKPT : Nat := 3

/-- Modelled from the spec: debug vector of inc/trap.h (`idt[1]`, "Debug"). -/
def T_DEBUG : Nat := 1

/-- Modelled from the spec: first hardware-interrupt vector of inc/trap.h (`idt[32]` is
the timer). -/
def IRQ_OFFSET : Nat := 32

/-- Modelled from the spec: timer interrupt line of inc/trap.h. -/
def IRQ_TIMER : Nat := 0

/-- Modelled from the spec: spurious interrupt line of inc/trap.h ("Spurious interrupt on
irq 7"). -/
def IRQ_SPURIOUS : Nat := 7

/-- Modelled from the spec: kernel code segment selector of inc/memlayout.h, the selector
`0x8` of every gate `trap_init` installs. -/
def GD_KT : Nat := 0x08

/-- Modelled from the spec: interrupt-enable flag of inc/mmu.h. -/
def FL_IF : Nat := 0x200

/-- Modelled from the spec: environment status "free" of inc/env.h. -/
def ENV_FREE : Nat := 0

/-- Modelled from the spec: environment status "dying" of inc/env.h. -/
def ENV_DYING : Nat := 1

/-- Modelled from the spec: environment status "running" of inc/env.h. -/
def ENV_RUNNING : Nat := 3

/-- Modelled from the spec: upper limit of user-accessible addresses of
inc/memlayout.h. -/
def ULIM : Nat := 0xef800000

/-- Modelled from the spec: size in bytes of `struct UTrapframe` (inc/trap.h): thirteen
32-bit words, the fields of the exception stack frame. -/
def sizeof_UTrapframe : Nat := 52

/-- Size in bytes of `uintptr_t` on the 32-bit machine. -/
def sizeof_uintptr : Nat := 4

/-- Subtraction of 32-bit unsigned words, wrapping around. -/
def sub32 (a b : Nat) : Nat := (a % 2 ^ 32 + 2 ^ 32 - b % 2 ^ 32) % 2 ^ 32

/-- How a kernel routine hands over control: it returns to its caller, the kernel
panics, an environment is resumed (`env_run` does not return), the scheduler takes over
(`sched_yield` does not return), the processor halts, or the interactive monitor
takes over. -/
inductive Ctl where
  | returned
  | panic (msg : String)
  | env_run (e : Nat)
  | sched
  | halted
  | monitor
  deriving DecidableEq, Repr

/-- Which trap frame a `struct Trapframe *` points to: the frame on the kernel stack or
the saved frame `env_tf` of the environment at an index. -/
inductive TfRef where
  | stack
  | saved (e : Nat)
  deriving DecidableEq, Repr

/-- The kernel's state as trap.c sees and changes it. -/
structure KState where
  -- the environment table
  envs : Nat → Env
  -- `curenv`: index of the current environment, `none` for NULL
  curenv : Option Nat
  -- the fault-address register read by `rcr2()`
  cr2 : Nat
  -- the processor's flags register read by `read_eflags()`
  eflags : Nat
  -- `panicstr` is non-NULL: another processor has called panic
  panicstr : Bool
  -- this processor was halted in the scheduler when the trap arrived
  cpu_halted : Bool
  -- number of times this processor has taken the big kernel lock
  locks : Nat
  -- the trap frame on the kernel stack
  stack_tf : Trapframe
  -- user memory of each environment: index, byte address, byte
  umem : Nat → Nat → Nat
  -- page tables of each environment: index, page number, entry
  pgdir : Nat → Nat → Nat
  -- environments destroyed so far, oldest first
  destroyed : List Nat
  -- system calls performed so far (call number and five arguments), oldest first
  syscalls : List (List Nat)
  -- the value the system-call operation returns for a call number and arguments
  sysret : List Nat → Nat
  -- number of timer interrupts acknowledged (`lapic_eoi`)
  eois : Nat

/-- Read the trap frame a pointer refers to. -/
def rd (k : KState) : TfRef → Trapframe
  | TfRef.stack => k.stack_tf
  | TfRef.saved e => (k.envs e).env_tf

/-- Write the trap frame a pointer refers to. -/
def wr (k : KState) (r : TfRef) (tf : Trapframe) : KState :=
  match r with
  | TfRef.stack => { k with stack_tf := tf }
  | TfRef.saved e => { k with envs := setEnv k.envs e { k.envs e with env_tf := tf } }

/-- Store a 32-bit word at byte address `a`, little-endian. -/
def store32 (m : Nat → Nat) (a v : Nat) : Nat → Nat :=
  fun b => if a ≤ b ∧ b < a + 4 then v / 256 ^ (b - a) % 256 else m b

/-- Load the 32-bit word at byte address `a`, little-endian. -/
def load32 (m : Nat → Nat) (a : Nat) : Nat :=
  m a + 256 * m (a + 1) + 65536 * m (a + 2) + 16777216 * m (a + 3)

/-- Store the eight registers of a `struct PushRegs` at `a`, in declaration order. -/
def store_regs (m : Nat → Nat) (a : Nat) (r : PushRegs) : Nat → Nat :=
  store32 (store32 (store32 (store32 (store32 (store32 (store32 (store32 m
    a r.reg_edi) (a + 4) r.reg_esi) (a + 8) r.reg_ebp) (a + 12) r.reg_oesp)
    (a + 16) r.reg_ebx) (a + 20) r.reg_edx) (a + 24) r.reg_ecx) (a + 28) r.reg_eax

/-- Load a `struct PushRegs` from `a`. -/
def load_regs (m : Nat → Nat) (a : Nat) : PushRegs :=
  ⟨load32 m a, load32 m (a + 4), load32 m (a + 8), load32 m (a + 12), load32 m (a + 16),
    load32 m (a + 20), load32 m (a + 24), load32 m (a + 28)⟩

/-- The six assignments `u->utf_fault_va = ...` to `u->utf_esp = ...` of
`page_fault_handler`, in source order, for `u` at address `a`. -/
def store_utf (m : Nat → Nat) (a : Nat) (u : UTrapframe) : Nat → Nat :=
  store32 (store32 (store32 (store_regs (store32 (store32 m
    a u.utf_fault_va) (a + 4) u.utf_err) (a + 8) u.utf_regs)
    (a + 40) u.utf_eip) (a + 44) u.utf_eflags) (a + 48) u.utf_esp

/-- Read the `struct UTrapframe` at address `a`. -/
def load_utf (m : Nat → Nat) (a : Nat) : UTrapframe :=
  ⟨load32 m a, load32 m (a + 4), load_regs m (a + 8), load32 m (a + 40), load32 m (a + 44),
    load32 m (a + 48)⟩

/-- Modelled from the spec: `user_mem_check` of kern/pmap.c (not among the sources),
"validate that the target memory is actually mapped and writable in the faulting
environment's address space": the range lies below `ULIM` and every page it touches is
present, user-accessible and has the permission asked for. -/
def user_mem_check (k : KState) (e va len perm : Nat) : Bool :=
  decide (va + len ≤ ULIM) &&
  (List.range (PGNUM (va + len - 1) + 1 - PGNUM va)).all fun i =>
    k.pgdir e (PGNUM va + i) &&& (perm ||| PTE_P ||| PTE_U) = (perm ||| PTE_P ||| PTE_U)

/-- Modelled from the spec: `env_free` of kern/env.c (not among the sources): the
control block is reclaimed, its status becomes free and its address space is torn
down. -/
def env_free (e : Nat) (k : KState) : KState :=
  { k with
    envs := setEnv k.envs e { k.envs e with env_status := ENV_FREE }
    pgdir := fun i pn => if i = e then 0 else k.pgdir i pn }

/-- Modelled from the spec: `env_destroy` of kern/env.c (not among the sources), the
capability "destroy-process(process)": the environment is freed and, if it was the
current one, there is no current environment any more; then the capability returns. -/
def env_destroy (e : Nat) (k : KState) : KState :=
  { env_free e k with
    curenv := if k.curenv = some e then none else k.curenv
    destroyed := k.destroyed ++ [e] }

/-- Modelled from the spec: `env_run` of kern/env.c (not among the sources), "resume it
by loading its frame": the environment becomes the current, running one and the
kernel is left. -/
def env_run (e : Nat) (k : KState) : Ctl × KState :=
  (Ctl.env_run e,
    { k with
      curenv := some e
      envs := setEnv k.envs e { k.envs e with env_status := ENV_RUNNING } })

/-- The address of the new exception stack frame, as `page_fault_handler` computes it in
32-bit arithmetic from the interrupted stack pointer. -/
def uxstk (tf_esp : Nat) : Nat :=
  sub32
    (if tf_esp < UXSTACKTOP ∧ tf_esp ≥ UXSTACKTOP - PGSIZE then sub32 tf_esp sizeof_uintptr
     else UXSTACKTOP)
    sizeof_UTrapframe

/-- The body of the upcall branch of `page_fault_handler` after the check, for the frame
address `UXSTK`: the six stores to `*u`, the two assignments to the resumed frame, and
`env_run(curenv)`. -/
def push_utf (tf : TfRef) (c UXSTK : Nat) (k : KState) : Ctl × KState :=
  let u : UTrapframe :=
    ⟨k.cr2, (rd k tf).tf_err, (rd k tf).tf_regs, (rd k tf).tf_eip,
      (rd k tf).tf_eflags, (rd k tf).tf_esp⟩
  let k1 := { k with umem := fun i => if i = c then store_utf (k.umem c) UXSTK u
                                      else k.umem i }
  let k2 := wr k1 tf { rd k1 tf with tf_esp := UXSTK }
  let k3 := wr k2 tf { rd k2 tf with tf_eip := (k2.envs c).env_pgfault_upcall }
  env_run c k3

/-- The page-fault handler of trap.c; `fault_va = rcr2()` is the state's `cr2`. `cprintf`
and `print_trapframe` only write to the console, which is not part of the state. A
failed `user_mem_assert` terminates the environment and does not come back; a NULL
`curenv` is dereferenced in kernel mode. -/
def page_fault_handler (tf : TfRef) (k : KState) : Ctl × KState :=
  if (rd k tf).tf_cs = GD_KT then (Ctl.panic "Page fault in kernel", k)
  else
    match k.curenv with
    | none => (Ctl.panic "Page fault in kernel", k)
    | some c =>
      if (k.envs c).env_pgfault_upcall ≠ 0 then
        if user_mem_check k c (uxstk (rd k tf).tf_esp) sizeof_UTrapframe PTE_W then
          push_utf tf c (uxstk (rd k tf).tf_esp) k
        else (Ctl.sched, env_destroy c k)
      else (Ctl.returned, env_destroy c k)

/-- The tail of `trap_dispatch`, from the spurious-interrupt test on. -/
def trap_dispatch_rest (tf : TfRef) (k : KState) : Ctl × KState :=
  if (rd k tf).tf_trapno = IRQ_OFFSET + IRQ_SPURIOUS then (Ctl.returned, k)
  else if (rd k tf).tf_trapno = T_BRKPT then (Ctl.monitor, k)
  else if (rd k tf).tf_trapno = T_DEBUG then (Ctl.monitor, k)
  else if (rd k tf).tf_trapno = IRQ_OFFSET + IRQ_TIMER then
    (Ctl.sched, { k with eois := k.eois + 1 })
  else if (rd k tf).tf_cs = GD_KT then (Ctl.panic "unhandled trap in kernel", k)
  else
    match k.curenv with
    | none => (Ctl.panic "Page fault in kernel", k)
    | some c => (Ctl.returned, env_destroy c k)

/-- Modelled from the spec: `syscall` of kern/syscall.c (not among the sources), "invoke
the requested kernel operation": the call is recorded and its result is the state's
`sysret` for the call number and the five arguments. -/
def syscall (no a1 a2 a3 a4 a5 : Nat) (k : KState) : Nat × KState :=
  (k.sysret [no, a1, a2, a3, a4, a5],
    { k with syscalls := k.syscalls ++ [[no, a1, a2, a3, a4, a5]] })

/-- Dispatch on the trap vector (trap.c `trap_dispatch`). After `page_fault_handler`
returns there is no `return`: control falls into the tail. -/
def trap_dispatch (tf : TfRef) (k : KState) : Ctl × KState :=
  if (rd k tf).tf_trapno = T_PGFLT then
    match page_fault_handler tf k with
    | (Ctl.returned, k1) => trap_dispatch_rest tf k1
    | other => other
  else if (rd k tf).tf_trapno = T_SYSCALL then
    let regs := (rd k tf).tf_regs
    match syscall regs.reg_eax regs.reg_edx regs.reg_ecx regs.reg_ebx regs.reg_edi
        regs.reg_esi k with
    | (r, k1) =>
      (Ctl.returned, wr k1 tf { rd k1 tf with tf_regs := { (rd k1 tf).tf_regs with reg_eax := r } })
  else trap_dispatch_rest tf k

/-- Take the big kernel lock (`lock_kernel()`). -/
def lock_kernel (k : KState) : KState := { k with locks := k.locks + 1 }

/-- The start of `trap`: `if (xchg(&thiscpu->cpu_status, CPU_STARTED) == CPU_HALTED)
lock_kernel();`. -/
def wake (k : KState) : KState :=
  if k.cpu_halted then lock_kernel { k with cpu_halted := false } else k

/-- The end of `trap`: `if (curenv && curenv->env_status == ENV_RUNNING)
env_run(curenv); else sched_yield();`. -/
def resume_or_yield (k : KState) : Ctl × KState :=
  match k.curenv with
  | some c => if (k.envs c).env_status = ENV_RUNNING then env_run c k else (Ctl.sched, k)
  | none => (Ctl.sched, k)

/-- The trap entry point (trap.c `trap`), called with the frame on the kernel stack. -/
def trap (k : KState) : Ctl × KState :=
  if k.panicstr then (Ctl.halted, k)
  else if (wake k).eflags &&& FL_IF ≠ 0 then
    (Ctl.panic "assertion failed: !(read_eflags() & FL_IF)", wake k)
  else if (wake k).stack_tf.tf_cs &&& 3 = 3 then
    match (lock_kernel (wake k)).curenv with
    | none => (Ctl.panic "assertion failed: curenv", lock_kernel (wake k))
    | some c =>
      if ((lock_kernel (wake k)).envs c).env_status = ENV_DYING then
        (Ctl.sched, { env_free c (lock_kernel (wake k)) with curenv := none })
      else
        match trap_dispatch (TfRef.saved c)
            (wr (lock_kernel (wake k)) (TfRef.saved c) (lock_kernel (wake k)).stack_tf) with
        | (Ctl.returned, k3) => resume_or_yield k3
        | other => other
  else
    match trap_dispatch TfRef.stack (wake k) with
    | (Ctl.returned, k3) => resume_or_yield k3
    | other => other

/-- The registers are 32-bit words. -/
@[reducible] def PushRegs.word32 (r : PushRegs) : Prop :=
  r.reg_edi < 2 ^ 32 ∧ r.reg_esi < 2 ^ 32 ∧ r.reg_ebp < 2 ^ 32 ∧ r.reg_oesp < 2 ^ 32 ∧
  r.reg_ebx < 2 ^ 32 ∧ r.reg_edx < 2 ^ 32 ∧ r.reg_ecx < 2 ^ 32 ∧ r.reg_eax < 2 ^ 32

/-- The fields of a fault record are 32-bit words. -/
@[reducible] def UTrapframe.word32 (u : UTrapframe) : Prop :=
  u.utf_fault_va < 2 ^ 32 ∧ u.utf_err < 2 ^ 32 ∧ u.utf_regs.word32 ∧ u.utf_eip < 2 ^ 32 ∧
  u.utf_eflags < 2 ^ 32 ∧ u.utf_esp < 2 ^ 32

/-- A user-mode page fault at address 0x800010 of environment 1, which has registered
the upcall 0x800100, has its exception stack mapped writable (page 0xeebff), and was
running on its normal stack. -/
def faultState : KState where
  envs := fun i => { blankEnv (0x1000 + i) with
    env_status := ENV_RUNNING, env_pgfault_upcall := if i = 1 then 0x800100 else 0 }
  curenv := some 1
  cr2 := 0x800010
  eflags := 0
  panicstr := false
  cpu_halted := false
  locks := 0
  stack_tf := ⟨⟨1, 2, 3, 4, 5, 6, 7, 8⟩, 0x23, 0x23, 14, 7, 0x800020, 0x1b, 0x2, 0xeebfdf00, 0x23⟩
  umem := fun _ _ => 0
  pgdir := fun i pn => if i = 1 ∧ pn = 0xeebff then 6 * 4096 + 7 else 0
  destroyed := []
  syscalls := []
  sysret := fun _ => 0
  eois := 0

/-- The same fault taken while the fault handler was running on the exception stack,
with stack pointer 0xeebfff00. -/
def nestedFaultState : KState :=
  { faultState with stack_tf := { faultState.stack_tf with tf_esp := 0xeebfff00 } }

/-- The same fault in an environment that has registered no upcall. -/
def noUpcallState : KState :=
  { faultState with envs := fun i => { blankEnv (0x1000 + i) with env_status := ENV_RUNNING } }

/-- A general-protection fault (vector 13) taken in user mode. -/
def gpfState : KState :=
  { faultState with stack_tf := { faultState.stack_tf with tf_trapno := 13 } }

/-- A general-protection fault (vector 13) taken in kernel mode. -/
def kernelGpfState : KState :=
  { faultState with stack_tf := { faultState.stack_tf with tf_trapno := 13, tf_cs := GD_KT } }

/-- A system call (vector 48) taken in user mode: call number 4 in eax, arguments
10, 11, 12, 13, 14 in edx, ecx, ebx, edi, esi. -/
def syscallState : KState :=
  { faultState with
    stack_tf := { faultState.stack_tf with
      tf_trapno := 48, tf_regs := ⟨13, 14, 3, 0, 12, 10, 11, 4⟩ }
    sysret := fun args => args.sum }

/-- The loop of `ipc_find_env`: `for (i = 0; i < NENV; i++) if (envs[i].env_type == type)
return envs[i].env_id;` with `n` slots still to visit from index `i`, then `return 0`. -/
def ipc_find_env_from (envs : Nat → Env) (type : Nat) : Nat → Nat → Int
  | 0, _ => 0
  | n + 1, i =>
    if (envs i).env_type = type then (envs i).env_id
    else ipc_find_env_from envs type n (i + 1)

/-- Find the first environment of the given type (ipc.c `ipc_find_env`). -/
def ipc_find_env (k : Kern) (type : Nat) : Int := ipc_find_env_from k.envs type NENV 0

/-- An environment table whose slots 5 and 9 have type 1 (identities 0x1005 and 0x1009)
and whose other slots have type 0. -/
def typedKern : Kern :=
  { sampleKern with
    envs := fun i => { blankEnv (0x1000 + i) with env_type := if i = 5 ∨ i = 9 then 1 else 0 } }

/-! ## kern/trap.c: the gate table -/

/-- The entry points declared in kern/trap.h, the targets of the gates. -/
inductive Handler where
  | DIVIDE | DEBUG | NMI | BRKPT | OFLOW | BOUND | ILLOP | DEVICE | DBLFLT | TSS | SEGNP
  | STACK | GPFLT | PGFLT | FPERR | ALIGN | MCHK | SIMDERR | IRQTIMER | IRQKBD | IRQ2 | IRQ3
  | IRQSERIAL | IRQ5 | IRQ6 | IRQSPURIOUS | IRQ8 | IRQ9 | IRQ10 | IRQ11 | IRQ12 | IRQ13
  | IRQIDE | IRQ15 | SYSCALL | IRQERROR | DEFAULT
  deriving DecidableEq, Repr

/-- Modelled from the spec: `struct Gatedesc` of inc/mmu.h (not among the sources), one
entry of the "vector table ... mapping each interrupt/exception/syscall number to an entry
point and minimum privilege level": where the gate leads, through which selector, whether
it is a trap gate, the privilege level required to invoke it by software, and whether it
is present. -/
structure Gatedesc where
  gd_off : Handler
  gd_sel : Nat
  gd_istrap : Nat
  gd_dpl : Nat
  gd_p : Nat
  deriving DecidableEq, Repr

/-- Number of entries of the interrupt descriptor table: `struct Gatedesc idt[256]`. -/
def IDT_SIZE : Nat := 256

/-- The interrupt descriptor table `idt[256] = { { 0 } }` and, next to it, the writes
made through `idt[i]` with `i` outside the array (index and descriptor, oldest first).
An entry never set is `none`, the all-zero descriptor. -/
structure Idt where
  gates : Nat → Option Gatedesc
  outside : List (Nat × Gatedesc)

/-- The table before `trap_init`: every entry zero, nothing written outside. -/
def idt_zero : Idt := ⟨fun _ => none, []⟩

/-- One statement `SETGATE(idt[index], istrap, sel, off, dpl)` of `trap_init`. -/
structure SetGate where
  index : Nat
  istrap : Nat
  sel : Nat
  off : Handler
  dpl : Nat
  deriving DecidableEq, Repr

/-- Modelled from the spec: the macro `SETGATE` of inc/mmu.h (not among the sources): the
descriptor it builds holds the "target entry-point address, required privilege level,
selector" and is present. -/
def gate_of (s : SetGate) : Gatedesc := ⟨s.off, s.sel, s.istrap, s.dpl, 1⟩

/-- The assignment to `idt[index]`: inside the array it replaces the entry, at an index
of `IDT_SIZE` or more it lands outside the array. -/
def SETGATE (t : Idt) (s : SetGate) : Idt :=
  if s.index < IDT_SIZE then
    { t with gates := fun i => if i = s.index then some (gate_of s) else t.gates i }
  else { t with outside := t.outside ++ [(s.index, gate_of s)] }

/-- The `SETGATE` statements of `trap_init`, in source order. -/
def trap_init_gates : List SetGate :=
  [⟨0, 0, 0x8, Handler.DIVIDE, 3⟩, ⟨1, 0, 0x8, Handler.DEBUG, 3⟩, ⟨2, 0, 0x8, Handler.NMI, 3⟩,
   ⟨3, 0, 0x8, Handler.BRKPT, 3⟩, ⟨4, 0, 0x8, Handler.OFLOW, 3⟩, ⟨5, 0, 0x8, Handler.BOUND, 3⟩,
   ⟨6, 0, 0x8, Handler.ILLOP, 3⟩, ⟨7, 0, 0x8, Handler.DEVICE, 3⟩,
   ⟨8, 0, 0x8, Handler.DBLFLT, 3⟩, ⟨10, 0, 0x8, Handler.TSS, 3⟩,
   ⟨11, 0, 0x8, Handler.SEGNP, 3⟩, ⟨12, 0, 0x8, Handler.STACK, 3⟩,
   ⟨13, 0, 0x8, Handler.GPFLT, 3⟩, ⟨14, 0, 0x8, Handler.PGFLT, 1⟩,
   ⟨16, 0, 0x8, Handler.FPERR, 3⟩, ⟨17, 0, 0x8, Handler.ALIGN, 3⟩,
   ⟨18, 0, 0x8, Handler.MCHK, 3⟩, ⟨19, 0, 0x8, Handler.SIMDERR, 3⟩,
   ⟨32, 0, 0x8, Handler.IRQTIMER, 3⟩, ⟨33, 0, 0x8, Handler.IRQKBD, 3⟩,
   ⟨34, 0, 0x8, Handler.IRQ2, 3⟩, ⟨35, 0, 0x8, Handler.IRQ3, 3⟩,
   ⟨36, 0, 0x8, Handler.IRQSERIAL, 3⟩, ⟨37, 0, 0x8, Handler.IRQ5, 3⟩,
   ⟨38, 0, 0x8, Handler.IRQ6, 3⟩, ⟨39, 0, 0x8, Handler.IRQSPURIOUS, 3⟩,
   ⟨40, 0, 0x8, Handler.IRQ8, 3⟩, ⟨41, 0, 0x8, Handler.IRQ9, 3⟩,
   ⟨42, 0, 0x8, Handler.IRQ10, 3⟩, ⟨43, 0, 0x8, Handler.IRQ11, 3⟩,
   ⟨44, 0, 0x8, Handler.IRQ12, 3⟩, ⟨45, 0, 0x8, Handler.IRQ13, 3⟩,
   ⟨46, 0, 0x8, Handler.IRQIDE, 3⟩, ⟨47, 0, 0x8, Handler.IRQ15, 3⟩,
   ⟨48, 0, 0x8, Handler.SYSCALL, 3⟩, ⟨51, 0, 0x8, Handler.IRQERROR, 3⟩,
   ⟨500, 0, 0x8, Handler.DEFAULT, 3⟩]

/-- The gate table part of `trap_init` (trap.c): the `SETGATE` statements run in order.
The per-CPU setup `trap_init_percpu()` that follows does not write the table. -/
def trap_init (t : Idt) : Idt := trap_init_gates.foldl SETGATE t

/-- The privilege level of user code. -/
def USER_CPL : Nat := 3

/-- Whether code running at privilege level `cpl` may enter a gate with the `int`
instruction. This is the processor's rule, not code of the kernel: the gate has to be
present and `cpl` numerically at most its descriptor privilege level. -/
def may_int (cpl : Nat) (g : Gatedesc) : Bool := decide (g.gd_p = 1) && decide (cpl ≤ g.gd_dpl)

/-- A call that maps a page: a page allocation or a map-existing-page. -/
def isMapping (c : Call) : Bool :=
  match c with
  | Call.page_alloc _ _ _ => true
  | Call.page_map _ _ _ _ _ => true
  | _ => false

/-- A stretch of the walk of `fork`: it appends mapping calls only, each of them accepted
by the kernel when the stretch ran to its end (`done`), and it leaves the control blocks,
the library's pointers and the kernel's refusals as they were. -/
structure Calm (k k1 : Kern) (done : Prop) : Prop where
  log : ∃ l, k1.log = k.log ++ l ∧ ∀ c ∈ l, isMapping c = true ∧ (done → k.refuse c = 0)
  cur : k1.cur = k.cur
  refuse : k1.refuse = k.refuse
  envs : k1.envs = k.envs
  thisenv : k1.thisenv = k.thisenv

/-- A stretch of `fork` that appends to the log only calls that do not map from or to the
exception-stack page. -/
def NoXmap (k k1 : Kern) : Prop :=
  ∃ l, k1.log = k.log ++ l ∧ ∀ c ∈ l, touchesXstack c = false

/-! ## Page-table entry arithmetic -/

theorem PTE_FLAGS_eq_mod (x : Nat) : PTE_FLAGS x = x % 4096 := by
  have h := Nat.and_pow_two_sub_one_eq_mod x 12
  simpa [PTE_FLAGS] using h

theorem PTE_FLAGS_lt (x : Nat) : PTE_FLAGS x < 4096 := by
  rw [PTE_FLAGS_eq_mod]; omega

theorem mk_pte_eq_add (a q : Nat) (hq : q < 4096) : a * PGSIZE ||| q = a * 4096 + q := by
  have h := Nat.mul_add_lt_is_or (i := 12) (b := q) (by simpa using hq) a
  simp only [PGSIZE]
  rw [Nat.mul_comm a 4096]
  simpa using h.symm

theorem PTE_FLAGS_mk (a p : Nat) : PTE_FLAGS (a * PGSIZE ||| PTE_FLAGS p) = PTE_FLAGS p := by
  rw [mk_pte_eq_add a _ (PTE_FLAGS_lt p), PTE_FLAGS_eq_mod (a * 4096 + _)]
  have := PTE_FLAGS_lt p
  omega

theorem PTE_ADDR_mk (a p : Nat) : PTE_ADDR (a * PGSIZE ||| PTE_FLAGS p) = a * PGSIZE := by
  rw [mk_pte_eq_add a _ (PTE_FLAGS_lt p)]
  have := PTE_FLAGS_lt p
  simp only [PTE_ADDR, PGSIZE]
  omega

theorem PTE_FLAGS_remap (x p : Nat) : PTE_FLAGS (PTE_ADDR x ||| PTE_FLAGS p) = PTE_FLAGS p := by
  unfold PTE_ADDR; exact PTE_FLAGS_mk _ p

theorem PTE_ADDR_remap (x p : Nat) : PTE_ADDR (PTE_ADDR x ||| PTE_FLAGS p) = PTE_ADDR x := by
  unfold PTE_ADDR; exact PTE_ADDR_mk _ p

/-- A flag test only looks at the flag bits. -/
theorem and_flag_eq (x b : Nat) (hb : 0xFFF &&& b = b) : x &&& b = PTE_FLAGS x &&& b := by
  unfold PTE_FLAGS
  rw [Nat.and_assoc, hb]

theorem pn_of_va (pn : Nat) (hpn : pn < 2 ^ 20) : (pn <<< PGSHIFT) % 2 ^ 32 / PGSIZE = pn := by
  simp only [Nat.shiftLeft_eq, PGSHIFT, PGSIZE]
  omega

/-! ## Capability lemmas -/

theorem sys_page_map_ok (k : Kern) (se : Int) (sva : Nat) (de : Int) (dva perm : Nat)
    (hr : k.refuse (Call.page_map se sva de dva perm) = 0)
    (hp : k.pt (envid2env k se) (sva / PGSIZE) &&& PTE_P ≠ 0) :
    sys_page_map se sva de dva perm k =
      (0, install (envid2env k de) dva
            (PTE_ADDR (k.pt (envid2env k se) (sva / PGSIZE)) ||| PTE_FLAGS perm)
            (record (Call.page_map se sva de dva perm) k)) := by
  simp [sys_page_map, hr, hp]

@[simp] theorem record_cur (c : Call) (k : Kern) : (record c k).cur = k.cur := rfl
@[simp] theorem record_pt (c : Call) (k : Kern) : (record c k).pt = k.pt := rfl
@[simp] theorem record_pd (c : Call) (k : Kern) : (record c k).pd = k.pd := rfl
@[simp] theorem record_mem (c : Call) (k : Kern) : (record c k).mem = k.mem := rfl
@[simp] theorem record_free (c : Call) (k : Kern) : (record c k).free = k.free := rfl
@[simp] theorem record_refuse (c : Call) (k : Kern) : (record c k).refuse = k.refuse := rfl
@[simp] theorem record_envs (c : Call) (k : Kern) : (record c k).envs = k.envs := rfl
@[simp] theorem record_thisenv (c : Call) (k : Kern) : (record c k).thisenv = k.thisenv := rfl
@[simp] theorem record_log (c : Call) (k : Kern) : (record c k).log = k.log ++ [c] := rfl

@[simp] theorem install_cur (e : Int) (va pte : Nat) (k : Kern) :
    (install e va pte k).cur = k.cur := rfl
@[simp] theorem install_mem (e : Int) (va pte : Nat) (k : Kern) :
    (install e va pte k).mem = k.mem := rfl
@[simp] theorem install_free (e : Int) (va pte : Nat) (k : Kern) :
    (install e va pte k).free = k.free := rfl
@[simp] theorem install_refuse (e : Int) (va pte : Nat) (k : Kern) :
    (install e va pte k).refuse = k.refuse := rfl
@[simp] theorem install_envs (e : Int) (va pte : Nat) (k : Kern) :
    (install e va pte k).envs = k.envs := rfl
@[simp] theorem install_thisenv (e : Int) (va pte : Nat) (k : Kern) :
    (install e va pte k).thisenv = k.thisenv := rfl
@[simp] theorem install_log (e : Int) (va pte : Nat) (k : Kern) :
    (install e va pte k).log = k.log := rfl
@[simp] theorem install_pt_fn (e : Int) (va pte : Nat) (k : Kern) :
    (install e va pte k).pt = setEntry k.pt e (va / PGSIZE) pte := rfl
@[simp] theorem install_pd_fn (e : Int) (va pte : Nat) (k : Kern) :
    (install e va pte k).pd =
      setEntry k.pd e (va / PTSIZE) (k.pd e (va / PTSIZE) ||| (PTE_P ||| PTE_W ||| PTE_U)) := rfl

@[simp] theorem setFree_cur (r : List Nat) (k : Kern) : (setFree r k).cur = k.cur := rfl
@[simp] theorem setFree_pt (r : List Nat) (k : Kern) : (setFree r k).pt = k.pt := rfl
@[simp] theorem setFree_pd (r : List Nat) (k : Kern) : (setFree r k).pd = k.pd := rfl
@[simp] theorem setFree_mem (r : List Nat) (k : Kern) : (setFree r k).mem = k.mem := rfl
@[simp] theorem setFree_free (r : List Nat) (k : Kern) : (setFree r k).free = r := rfl
@[simp] theorem setFree_refuse (r : List Nat) (k : Kern) : (setFree r k).refuse = k.refuse := rfl
@[simp] theorem setFree_envs (r : List Nat) (k : Kern) : (setFree r k).envs = k.envs := rfl
@[simp] theorem setFree_thisenv (r : List Nat) (k : Kern) :
    (setFree r k).thisenv = k.thisenv := rfl
@[simp] theorem setFree_log (r : List Nat) (k : Kern) : (setFree r k).log = k.log := rfl

@[simp] theorem memmove_cur (d s n : Nat) (k : Kern) : (memmove d s n k).cur = k.cur := rfl
@[simp] theorem memmove_pt (d s n : Nat) (k : Kern) : (memmove d s n k).pt = k.pt := rfl
@[simp] theorem memmove_pd (d s n : Nat) (k : Kern) : (memmove d s n k).pd = k.pd := rfl
@[simp] theorem memmove_free (d s n : Nat) (k : Kern) : (memmove d s n k).free = k.free := rfl
@[simp] theorem memmove_refuse (d s n : Nat) (k : Kern) :
    (memmove d s n k).refuse = k.refuse := rfl
@[simp] theorem memmove_envs (d s n : Nat) (k : Kern) : (memmove d s n k).envs = k.envs := rfl
@[simp] theorem memmove_thisenv (d s n : Nat) (k : Kern) :
    (memmove d s n k).thisenv = k.thisenv := rfl
@[simp] theorem memmove_log (d s n : Nat) (k : Kern) : (memmove d s n k).log = k.log := rfl

theorem install_pt (e : Int) (va pte : Nat) (k : Kern) (e1 : Int) (n1 : Nat) :
    (install e va pte k).pt e1 n1 = if e1 = e ∧ n1 = va / PGSIZE then pte else k.pt e1 n1 := by
  simp [setEntry]

theorem present_of_flags (x : Nat) (h : PTE_FLAGS x &&& PTE_P ≠ 0) : x &&& PTE_P ≠ 0 := by
  rw [and_flag_eq x PTE_P (by decide)]; exact h

/-! ## fork.c: duppage -/

/-- C1: for a present page number `pn` whose entry is writable or copy-on-write, and a
kernel that does not refuse the two map-existing-page calls, `duppage envid pn` returns 0
and leaves the child's and the parent's entries for `pn` with flags exactly
present | user | copy-on-write (copy-on-write set, writable clear), both on the frame the
parent mapped before the call. -/
theorem duppage_cow_both (k : Kern) (envid : Int) (pn : Nat)
    (hpn : pn < 2 ^ 20)
    (hP : uvpt k pn &&& PTE_P ≠ 0)
    (hW : uvpt k pn &&& PTE_W ≠ 0 ∨ uvpt k pn &&& PTE_COW ≠ 0)
    (h1 : k.refuse (Call.page_map 0 ((pn <<< PGSHIFT) % 2 ^ 32) envid
            ((pn <<< PGSHIFT) % 2 ^ 32) (PTE_COW ||| PTE_U ||| PTE_P)) = 0)
    (h2 : k.refuse (Call.page_map 0 ((pn <<< PGSHIFT) % 2 ^ 32) 0
            ((pn <<< PGSHIFT) % 2 ^ 32) (PTE_COW ||| PTE_U ||| PTE_P)) = 0) :
    (duppage envid pn k).1 = Outcome.ret 0 ∧
    PTE_FLAGS ((duppage envid pn k).2.pt (envid2env k envid) pn) = PTE_P ||| PTE_U ||| PTE_COW ∧
    PTE_FLAGS (uvpt (duppage envid pn k).2 pn) = PTE_P ||| PTE_U ||| PTE_COW ∧
    (duppage envid pn k).2.pt (envid2env k envid) pn &&& PTE_COW ≠ 0 ∧
    (duppage envid pn k).2.pt (envid2env k envid) pn &&& PTE_W = 0 ∧
    uvpt (duppage envid pn k).2 pn &&& PTE_COW ≠ 0 ∧
    uvpt (duppage envid pn k).2 pn &&& PTE_W = 0 ∧
    PTE_ADDR ((duppage envid pn k).2.pt (envid2env k envid) pn) = PTE_ADDR (uvpt k pn) ∧
    PTE_ADDR (uvpt (duppage envid pn k).2 pn) = PTE_ADDR (uvpt k pn) := by
  have hva := pn_of_va pn hpn
  have hflag : PTE_FLAGS (PTE_COW ||| PTE_U ||| PTE_P) = PTE_P ||| PTE_U ||| PTE_COW := by decide
  -- the first call: parent's page into the child
  have hsrc1 : k.pt (envid2env k 0) ((pn <<< PGSHIFT) % 2 ^ 32 / PGSIZE) &&& PTE_P ≠ 0 := by
    rw [hva]; simpa [envid2env, uvpt] using hP
  have e1 := sys_page_map_ok k 0 _ envid _ _ h1 hsrc1
  rw [hva] at e1
  have hcur0 : envid2env k 0 = k.cur := by simp [envid2env]
  rw [hcur0] at e1
  -- the state after the first call and the parent's entry in it
  obtain ⟨k1, hk1⟩ : ∃ k1, k1 = install (envid2env k envid) ((pn <<< PGSHIFT) % 2 ^ 32)
      (PTE_ADDR (k.pt k.cur pn) ||| PTE_FLAGS (PTE_COW ||| PTE_U ||| PTE_P))
      (record (Call.page_map 0 ((pn <<< PGSHIFT) % 2 ^ 32) envid
        ((pn <<< PGSHIFT) % 2 ^ 32) (PTE_COW ||| PTE_U ||| PTE_P)) k) := ⟨_, rfl⟩
  rw [← hk1] at e1
  have hk1cur : k1.cur = k.cur := by rw [hk1]; rfl
  have hk1ref : k1.refuse = k.refuse := by rw [hk1]; rfl
  have hk1pt : ∀ e n, k1.pt e n =
      if e = envid2env k envid ∧ n = pn then
        PTE_ADDR (k.pt k.cur pn) ||| PTE_FLAGS (PTE_COW ||| PTE_U ||| PTE_P)
      else k.pt e n := by
    intro e n; rw [hk1, install_pt, hva]; rfl
  have hk1addr : PTE_ADDR (k1.pt k.cur pn) = PTE_ADDR (k.pt k.cur pn) := by
    rw [hk1pt]; split
    · exact PTE_ADDR_remap _ _
    · rfl
  have hk1P : k1.pt k.cur pn &&& PTE_P ≠ 0 := by
    rw [hk1pt]; split
    · apply present_of_flags; rw [PTE_FLAGS_remap]; decide
    · simpa [uvpt] using hP
  have hsrc2 : k1.pt (envid2env k1 0) ((pn <<< PGSHIFT) % 2 ^ 32 / PGSIZE) &&& PTE_P ≠ 0 := by
    rw [hva]; simpa [envid2env, hk1cur] using hk1P
  have e2 := sys_page_map_ok k1 0 _ 0 _ _ (by rw [hk1ref]; exact h2) hsrc2
  rw [hva] at e2
  have hcur1 : envid2env k1 0 = k.cur := by simp [envid2env, hk1cur]
  rw [hcur1] at e2
  have hd : duppage envid pn k = (Outcome.ret 0,
      install k.cur ((pn <<< PGSHIFT) % 2 ^ 32)
        (PTE_ADDR (k1.pt k.cur pn) ||| PTE_FLAGS (PTE_COW ||| PTE_U ||| PTE_P))
        (record (Call.page_map 0 ((pn <<< PGSHIFT) % 2 ^ 32) 0
          ((pn <<< PGSHIFT) % 2 ^ 32) (PTE_COW ||| PTE_U ||| PTE_P)) k1)) := by
    unfold duppage
    simp only [hW, if_true, e1, e2]
    simp
  -- the two final entries
  have hchild : (duppage envid pn k).2.pt (envid2env k envid) pn =
      PTE_ADDR (k.pt k.cur pn) ||| PTE_FLAGS (PTE_COW ||| PTE_U ||| PTE_P) := by
    rw [hd]; simp only [install_pt, hva]
    split
    · rw [hk1addr]
    · simp [record, hk1pt]
  have hparent : uvpt (duppage envid pn k).2 pn =
      PTE_ADDR (k.pt k.cur pn) ||| PTE_FLAGS (PTE_COW ||| PTE_U ||| PTE_P) := by
    rw [hd]; unfold uvpt
    simp only [install_cur, record_cur, hk1cur, install_pt, hva, and_self, if_true, hk1addr]
  have hfl : PTE_FLAGS (PTE_ADDR (k.pt k.cur pn) ||| PTE_FLAGS (PTE_COW ||| PTE_U ||| PTE_P))
      = PTE_P ||| PTE_U ||| PTE_COW := by rw [PTE_FLAGS_remap, hflag]
  have hcow : (PTE_ADDR (k.pt k.cur pn) ||| PTE_FLAGS (PTE_COW ||| PTE_U ||| PTE_P)) &&& PTE_COW ≠ 0 := by
    rw [and_flag_eq _ PTE_COW (by decide), hfl]; decide
  have hnw : (PTE_ADDR (k.pt k.cur pn) ||| PTE_FLAGS (PTE_COW ||| PTE_U ||| PTE_P)) &&& PTE_W = 0 := by
    rw [and_flag_eq _ PTE_W (by decide), hfl]; decide
  rw [hchild, hparent]
  refine ⟨by rw [hd], hfl, hfl, hcow, hnw, hcow, hnw, ?_, ?_⟩ <;>
    exact PTE_ADDR_remap _ _

theorem sys_page_alloc_ok (k : Kern) (e : Int) (va perm f : Nat) (rest : List Nat)
    (hr : k.refuse (Call.page_alloc e va perm) = 0) (hf : k.free = f :: rest) :
    sys_page_alloc e va perm k =
      (0, setFree rest (install (envid2env k e) va (f * PGSIZE ||| PTE_FLAGS perm)
              (record (Call.page_alloc e va perm) k))) := by
  simp [sys_page_alloc, hr, hf]

/-- A capability answers 0 only when it was not refused. -/
theorem sys_page_alloc_zero (k : Kern) (e : Int) (va perm : Nat)
    (h : (sys_page_alloc e va perm k).1 = 0) :
    k.refuse (Call.page_alloc e va perm) = 0 ∧ ∃ f rest, k.free = f :: rest := by
  unfold sys_page_alloc at h
  by_cases hr : k.refuse (Call.page_alloc e va perm) = 0
  · refine ⟨hr, ?_⟩
    cases hf : k.free with
    | nil => simp [hr, hf, E_NO_MEM] at h
    | cons f rest => exact ⟨f, rest, rfl⟩
  · simp only [hr, ne_eq, not_false_eq_true, if_true] at h
    omega

theorem sys_page_map_zero (k : Kern) (se : Int) (sva : Nat) (de : Int) (dva perm : Nat)
    (h : (sys_page_map se sva de dva perm k).1 = 0) :
    k.refuse (Call.page_map se sva de dva perm) = 0 ∧
      k.pt (envid2env k se) (sva / PGSIZE) &&& PTE_P ≠ 0 := by
  unfold sys_page_map at h
  by_cases hr : k.refuse (Call.page_map se sva de dva perm) = 0
  · refine ⟨hr, ?_⟩
    intro hp
    simp [hr, hp, E_INVAL] at h
  · simp only [hr, ne_eq, not_false_eq_true, if_true] at h
    omega

/-! ## fork.c: pgfault -/

theorem PGNUM_eq_div (la : Nat) : PGNUM la = la / PGSIZE := by
  simp [PGNUM, PGSHIFT, PGSIZE, Nat.shiftRight_eq_div_pow]

theorem ROUNDDOWN_div (addr : Nat) : ROUNDDOWN addr PGSIZE / PGSIZE = PGNUM addr := by
  rw [PGNUM_eq_div]; simp only [ROUNDDOWN, PGSIZE]; omega

theorem pte_frame_mk (f p : Nat) : pte_frame (f * PGSIZE ||| PTE_FLAGS p) = f := by
  unfold pte_frame
  rw [PTE_ADDR_mk, PGNUM_eq_div]
  simp [PGSIZE]

/-- The state a successful copy-on-write resolution ends in. -/
theorem pgfault_ok (k : Kern) (utf : UTrapframe) (f : Nat) (rest : List Nat)
    (hwr : utf.utf_err &&& FEC_WR ≠ 0)
    (hcow : uvpt k (PGNUM utf.utf_fault_va) &&& PTE_COW ≠ 0)
    (ha : k.refuse (Call.page_alloc 0 PFTEMP (PTE_W ||| PTE_U ||| PTE_P)) = 0)
    (hf : k.free = f :: rest)
    (hm : k.refuse (Call.page_map 0 PFTEMP 0 (ROUNDDOWN utf.utf_fault_va PGSIZE)
            (PTE_W ||| PTE_U ||| PTE_P)) = 0) :
    pgfault utf k = (Outcome.ret (),
      install k.cur (ROUNDDOWN utf.utf_fault_va PGSIZE)
        (f * PGSIZE ||| PTE_FLAGS (PTE_W ||| PTE_U ||| PTE_P))
        (record (Call.page_map 0 PFTEMP 0 (ROUNDDOWN utf.utf_fault_va PGSIZE)
            (PTE_W ||| PTE_U ||| PTE_P))
          (memmove PFTEMP (ROUNDDOWN utf.utf_fault_va PGSIZE) PGSIZE
            (setFree rest
              (install k.cur PFTEMP (f * PGSIZE ||| PTE_FLAGS (PTE_W ||| PTE_U ||| PTE_P))
                (record (Call.page_alloc 0 PFTEMP (PTE_W ||| PTE_U ||| PTE_P)) k)))))) := by
  have hcur0 : envid2env k 0 = k.cur := by simp [envid2env]
  have ea := sys_page_alloc_ok k 0 PFTEMP (PTE_W ||| PTE_U ||| PTE_P) f rest ha hf
  rw [hcur0] at ea
  obtain ⟨k2, hk2⟩ : ∃ k2, k2 = memmove PFTEMP (ROUNDDOWN utf.utf_fault_va PGSIZE) PGSIZE
      (setFree rest
        (install k.cur PFTEMP (f * PGSIZE ||| PTE_FLAGS (PTE_W ||| PTE_U ||| PTE_P))
          (record (Call.page_alloc 0 PFTEMP (PTE_W ||| PTE_U ||| PTE_P)) k))) := ⟨_, rfl⟩
  have hk2cur : envid2env k2 0 = k.cur := by rw [hk2]; simp [envid2env]
  have hk2pt : k2.pt k.cur (PFTEMP / PGSIZE) =
      f * PGSIZE ||| PTE_FLAGS (PTE_W ||| PTE_U ||| PTE_P) := by
    rw [hk2]; simp [setEntry]
  have hk2P : k2.pt (envid2env k2 0) (PFTEMP / PGSIZE) &&& PTE_P ≠ 0 := by
    rw [hk2cur, hk2pt]
    apply present_of_flags
    rw [PTE_FLAGS_mk]; decide
  have em := sys_page_map_ok k2 0 PFTEMP 0 (ROUNDDOWN utf.utf_fault_va PGSIZE)
    (PTE_W ||| PTE_U ||| PTE_P) (by rw [hk2]; exact hm) hk2P
  rw [hk2cur, hk2pt, PTE_ADDR_mk] at em
  unfold pgfault
  simp only [hwr, hcow, or_self, if_false, ea, ← hk2, em]
  simp

/-- A resolution that returns went through both capability calls unrefused. -/
theorem pgfault_ret_inv (k : Kern) (utf : UTrapframe) (h : (pgfault utf k).1 = Outcome.ret ()) :
    utf.utf_err &&& FEC_WR ≠ 0 ∧ uvpt k (PGNUM utf.utf_fault_va) &&& PTE_COW ≠ 0 ∧
    k.refuse (Call.page_alloc 0 PFTEMP (PTE_W ||| PTE_U ||| PTE_P)) = 0 ∧
    (∃ f rest, k.free = f :: rest) ∧
    k.refuse (Call.page_map 0 PFTEMP 0 (ROUNDDOWN utf.utf_fault_va PGSIZE)
      (PTE_W ||| PTE_U ||| PTE_P)) = 0 := by
  unfold pgfault at h
  by_cases hc : utf.utf_err &&& FEC_WR = 0 ∨ uvpt k (PGNUM utf.utf_fault_va) &&& PTE_COW = 0
  · simp [hc] at h
  · simp only [hc, if_false] at h
    push_neg at hc
    by_cases ha : (sys_page_alloc 0 PFTEMP (PTE_W ||| PTE_U ||| PTE_P) k).1 = 0
    · obtain ⟨har, f, rest, hf⟩ := sys_page_alloc_zero _ _ _ _ ha
      refine ⟨hc.1, hc.2, har, ⟨f, rest, hf⟩, ?_⟩
      simp only [ha, ne_eq, not_true_eq_false, if_false] at h
      by_cases hm : (sys_page_map 0 PFTEMP 0 (ROUNDDOWN utf.utf_fault_va PGSIZE)
          (PTE_W ||| PTE_U ||| PTE_P)
          (memmove PFTEMP (ROUNDDOWN utf.utf_fault_va PGSIZE) PGSIZE
            (sys_page_alloc 0 PFTEMP (PTE_W ||| PTE_U ||| PTE_P) k).2)).1 = 0
      · have hr := (sys_page_map_zero _ _ _ _ _ _ hm).1
        have hsame : (memmove PFTEMP (ROUNDDOWN utf.utf_fault_va PGSIZE) PGSIZE
            (sys_page_alloc 0 PFTEMP (PTE_W ||| PTE_U ||| PTE_P) k).2).refuse = k.refuse := by
          rw [sys_page_alloc_ok k 0 _ _ f rest har hf]; simp
        rw [hsame] at hr; exact hr
      · simp [hm] at h
    · simp [ha] at h

/-- C2 (as stated) fails on the scratch page: a write fault on `PFTEMP` itself, on a
copy-on-write page, with allocation and mapping succeeding and the allocated frame 9
mapped nowhere, is resolved to a page whose first byte (0) is not the original page's
first byte (0xAB): the allocation at `PFTEMP` replaced the original mapping before the
copy was made. -/
theorem pgfault_scratch_page_loses_content :
    scratchUtf.utf_err &&& FEC_WR ≠ 0 ∧
    uvpt scratchKern (PGNUM scratchUtf.utf_fault_va) &&& PTE_COW ≠ 0 ∧
    uvpt scratchKern (PGNUM scratchUtf.utf_fault_va) &&& PTE_P ≠ 0 ∧
    scratchKern.free = [9, 10] ∧
    (∀ e n, pte_frame (scratchKern.pt e n) ≠ 9) ∧
    (pgfault scratchUtf scratchKern).1 = Outcome.ret () ∧
    scratchKern.mem (pte_frame (uvpt scratchKern (PGNUM scratchUtf.utf_fault_va))) 0 = 0xAB ∧
    (pgfault scratchUtf scratchKern).2.mem
      (pte_frame (uvpt (pgfault scratchUtf scratchKern).2 (PGNUM scratchUtf.utf_fault_va))) 0
      = 0 := by
  refine ⟨by decide, by decide, by decide, rfl, ?_, by decide, by decide, by decide⟩
  intro e n
  simp only [scratchKern]
  split <;> decide

/-- C2 (amended): for a write fault on a copy-on-write page other than the scratch page,
with the kernel refusing neither the allocation at `PFTEMP` nor the final mapping and the
allocated frame `f` different from the frame backing the page, `pgfault` returns; the page
is then backed by a different frame (`f`), its flags are exactly
present | user | writable (copy-on-write clear), its bytes equal the original page's bytes,
and no entry of any other environment has changed. -/
theorem pgfault_private_copy (k : Kern) (utf : UTrapframe) (f : Nat) (rest : List Nat)
    (hwr : utf.utf_err &&& FEC_WR ≠ 0)
    (hcow : uvpt k (PGNUM utf.utf_fault_va) &&& PTE_COW ≠ 0)
    (hne : PGNUM utf.utf_fault_va ≠ PGNUM PFTEMP)
    (ha : k.refuse (Call.page_alloc 0 PFTEMP (PTE_W ||| PTE_U ||| PTE_P)) = 0)
    (hf : k.free = f :: rest)
    (hfresh : f ≠ pte_frame (uvpt k (PGNUM utf.utf_fault_va)))
    (hm : k.refuse (Call.page_map 0 PFTEMP 0 (ROUNDDOWN utf.utf_fault_va PGSIZE)
            (PTE_W ||| PTE_U ||| PTE_P)) = 0) :
    (pgfault utf k).1 = Outcome.ret () ∧
    pte_frame (uvpt (pgfault utf k).2 (PGNUM utf.utf_fault_va)) = f ∧
    pte_frame (uvpt (pgfault utf k).2 (PGNUM utf.utf_fault_va))
      ≠ pte_frame (uvpt k (PGNUM utf.utf_fault_va)) ∧
    PTE_FLAGS (uvpt (pgfault utf k).2 (PGNUM utf.utf_fault_va)) = PTE_P ||| PTE_U ||| PTE_W ∧
    uvpt (pgfault utf k).2 (PGNUM utf.utf_fault_va) &&& PTE_W ≠ 0 ∧
    uvpt (pgfault utf k).2 (PGNUM utf.utf_fault_va) &&& PTE_COW = 0 ∧
    (∀ off, off < PGSIZE →
      (pgfault utf k).2.mem (pte_frame (uvpt (pgfault utf k).2 (PGNUM utf.utf_fault_va))) off
        = k.mem (pte_frame (uvpt k (PGNUM utf.utf_fault_va))) off) ∧
    (∀ e n, e ≠ k.cur → (pgfault utf k).2.pt e n = k.pt e n) := by
  have hrun := pgfault_ok k utf f rest hwr hcow ha hf hm
  have hnew : uvpt (pgfault utf k).2 (PGNUM utf.utf_fault_va) =
      f * PGSIZE ||| PTE_FLAGS (PTE_W ||| PTE_U ||| PTE_P) := by
    rw [hrun]; unfold uvpt
    simp [setEntry, ROUNDDOWN_div]
  have hfl : PTE_FLAGS (f * PGSIZE ||| PTE_FLAGS (PTE_W ||| PTE_U ||| PTE_P)) =
      PTE_P ||| PTE_U ||| PTE_W := by rw [PTE_FLAGS_mk]; decide
  have hpf : PFTEMP / PGSIZE = PGNUM PFTEMP := (PGNUM_eq_div PFTEMP).symm
  rw [hnew, pte_frame_mk]
  refine ⟨by rw [hrun], rfl, hfresh, hfl, ?_, ?_, ?_, ?_⟩
  · rw [and_flag_eq _ PTE_W (by decide), hfl]; decide
  · rw [and_flag_eq _ PTE_COW (by decide), hfl]; decide
  · intro off hoff
    rw [hrun]
    simp [memmove, uvpt, setEntry, hpf, pte_frame_mk, hoff, PGNUM_eq_div (ROUNDDOWN _ _),
      ROUNDDOWN_div, hne]
  · intro e n he
    rw [hrun]
    simp [setEntry, he]

/-! ## fork.c: the walk of fork -/

theorem xstack_pn : PGNUM (UXSTACKTOP - PGSIZE) = 954 * 1024 + 1023 := by decide

theorem mk_pn (ipd ipt : Nat) (h : ipt < 1024) : (ipd <<< 10) ||| ipt = ipd * 1024 + ipt := by
  have h1 := Nat.mul_add_lt_is_or (i := 10) (b := ipt) (by simpa using h) ipd
  rw [Nat.shiftLeft_eq, Nat.mul_comm ipd (2 ^ 10), ← h1]

theorem or_present (x : Nat) : (x ||| (PTE_P ||| PTE_W ||| PTE_U)) &&& PTE_P ≠ 0 := by
  intro h
  have h0 : ((x ||| (PTE_P ||| PTE_W ||| PTE_U)) &&& PTE_P).testBit 0 = false := by
    rw [h]; simp
  rw [Nat.testBit_and, Nat.testBit_or] at h0
  have h7 : (PTE_P ||| PTE_W ||| PTE_U).testBit 0 = true := by decide
  have h1 : PTE_P.testBit 0 = true := by decide
  rw [h7, h1] at h0
  simp at h0

theorem Quiet.refl (k : Kern) : Quiet k k :=
  ⟨⟨[], by simp⟩, rfl, rfl, rfl, rfl, rfl, fun _ => rfl, fun _ _ h => h⟩

theorem Quiet.trans {a b c : Kern} (h1 : Quiet a b) (h2 : Quiet b c) : Quiet a c := by
  obtain ⟨l1, e1, p1⟩ := h1.log
  obtain ⟨l2, e2, p2⟩ := h2.log
  refine ⟨⟨l1 ++ l2, by rw [e2, e1, List.append_assoc], ?_⟩, h2.free.trans h1.free,
    h2.cur.trans h1.cur, h2.refuse.trans h1.refuse, h2.envs.trans h1.envs,
    h2.thisenv.trans h1.thisenv, fun e => (h2.xpte e).trans (h1.xpte e),
    fun e i h => h2.pd e i (h1.pd e i h)⟩
  intro c hc
  rcases List.mem_append.mp hc with h | h
  · exact p1 c h
  · exact p2 c h

theorem install_quiet_pd (e : Int) (va pte : Nat) (k : Kern) (e1 : Int) (i : Nat)
    (h : k.pd e1 i &&& PTE_P ≠ 0) : (install e va pte k).pd e1 i &&& PTE_P ≠ 0 := by
  simp only [install_pd_fn, setEntry]
  split
  · exact or_present _
  · exact h

/-- A map-existing-page call away from the exception-stack page is a quiet step. -/
theorem sys_page_map_quiet (k : Kern) (se : Int) (sva : Nat) (de : Int) (dva perm : Nat)
    (hs : PGNUM sva ≠ PGNUM (UXSTACKTOP - PGSIZE))
    (hd : PGNUM dva ≠ PGNUM (UXSTACKTOP - PGSIZE)) :
    Quiet k (sys_page_map se sva de dva perm k).2 := by
  have hl : ∀ c ∈ [Call.page_map se sva de dva perm],
      isAlloc c = false ∧ touchesXstack c = false := by
    intro c hc
    rw [List.mem_singleton] at hc
    subst hc
    simp [isAlloc, touchesXstack, hs, hd]
  unfold sys_page_map
  by_cases hr : k.refuse (Call.page_map se sva de dva perm) = 0
  · by_cases hp : k.pt (envid2env k se) (sva / PGSIZE) &&& PTE_P = 0
    · simp only [hr, hp, ne_eq, not_true_eq_false, if_false, if_true]
      exact ⟨⟨_, rfl, hl⟩, rfl, rfl, rfl, rfl, rfl, fun _ => rfl, fun _ _ h => h⟩
    · simp only [hr, hp, ne_eq, not_true_eq_false, if_false]
      refine ⟨⟨_, rfl, hl⟩, rfl, rfl, rfl, rfl, rfl, ?_, ?_⟩
      · intro e
        have hd1 : ¬ (PGNUM (UXSTACKTOP - PGSIZE) = dva / PGSIZE) := by
          rw [← PGNUM_eq_div]; exact fun h => hd h.symm
        simp [setEntry, hd1]
      · intro e i h
        exact install_quiet_pd _ _ _ _ _ _ (by simpa using h)
  · simp only [hr, ne_eq, not_false_eq_true, if_true]
    exact ⟨⟨_, rfl, hl⟩, rfl, rfl, rfl, rfl, rfl, fun _ => rfl, fun _ _ h => h⟩

theorem PGNUM_va (pn : Nat) (hpn : pn < 2 ^ 20) : PGNUM ((pn <<< PGSHIFT) % 2 ^ 32) = pn := by
  rw [PGNUM_eq_div]; exact pn_of_va pn hpn

/-- Duplicating any page other than the exception-stack page is a quiet step. -/
theorem duppage_quiet (k : Kern) (envid : Int) (pn : Nat) (hpn : pn < 2 ^ 20)
    (hx : pn ≠ PGNUM (UXSTACKTOP - PGSIZE)) : Quiet k (duppage envid pn k).2 := by
  have hv : PGNUM ((pn <<< PGSHIFT) % 2 ^ 32) ≠ PGNUM (UXSTACKTOP - PGSIZE) := by
    rw [PGNUM_va pn hpn]; exact hx
  have q1 := fun perm => sys_page_map_quiet k 0 ((pn <<< PGSHIFT) % 2 ^ 32) envid
    ((pn <<< PGSHIFT) % 2 ^ 32) perm hv hv
  unfold duppage
  by_cases hW : uvpt k pn &&& PTE_W ≠ 0 ∨ uvpt k pn &&& PTE_COW ≠ 0
  · simp only [hW, if_true]
    by_cases h1 : (sys_page_map 0 ((pn <<< PGSHIFT) % 2 ^ 32) envid
        ((pn <<< PGSHIFT) % 2 ^ 32) (PTE_COW ||| PTE_U ||| PTE_P) k).1 = 0
    · simp only [h1, ne_eq, not_true_eq_false, if_false]
      have q2 := sys_page_map_quiet (sys_page_map 0 ((pn <<< PGSHIFT) % 2 ^ 32) envid
        ((pn <<< PGSHIFT) % 2 ^ 32) (PTE_COW ||| PTE_U ||| PTE_P) k).2 0
        ((pn <<< PGSHIFT) % 2 ^ 32) 0 ((pn <<< PGSHIFT) % 2 ^ 32)
        (PTE_COW ||| PTE_U ||| PTE_P) hv hv
      have q := (q1 _).trans q2
      split <;> exact q
    · simp only [h1, ne_eq, not_false_eq_true, if_true]
      exact q1 _
  · simp only [hW, if_false]
    split <;> exact q1 _

theorem fork_pages_quiet (envid : Int) (ipd : Nat) (hipd : ipd < 1024) :
    ∀ (l : List Nat) (k : Kern),
      (∀ ipt ∈ l, ipt < 1024 ∧ ipd * 1024 + ipt ≠ PGNUM (UXSTACKTOP - PGSIZE)) →
      Quiet k (fork_pages envid ipd l k).2 := by
  intro l
  induction l with
  | nil => intro k _; exact Quiet.refl k
  | cons ipt rest ih =>
    intro k hl
    have hi := hl ipt (List.mem_cons_self _ _)
    have hrest : ∀ i ∈ rest, i < 1024 ∧ ipd * 1024 + i ≠ PGNUM (UXSTACKTOP - PGSIZE) :=
      fun i h => hl i (List.mem_cons_of_mem _ h)
    have hpn : (ipd <<< 10) ||| ipt = ipd * 1024 + ipt := mk_pn ipd ipt hi.1
    have hlt : ipd * 1024 + ipt < 2 ^ 20 := by omega
    unfold fork_pages
    simp only [hpn, hi.2, if_false]
    by_cases hp : uvpt k (ipd * 1024 + ipt) &&& PTE_P ≠ 0
    · rw [if_pos hp]
      have qd := duppage_quiet k envid (ipd * 1024 + ipt) hlt hi.2
      rcases hdp : duppage envid (ipd * 1024 + ipt) k with ⟨o, k1⟩
      rw [hdp] at qd
      cases o with
      | ret v => exact qd.trans (ih k1 hrest)
      | panic m => exact qd
      | blocked => exact qd
    · rw [if_neg hp]
      exact ih k hrest

theorem fork_pages_append (envid : Int) (ipd : Nat) (l2 : List Nat) :
    ∀ (l1 : List Nat) (k : Kern),
      fork_pages envid ipd (l1 ++ l2) k =
        match fork_pages envid ipd l1 k with
        | (Outcome.ret _, k1) => fork_pages envid ipd l2 k1
        | (Outcome.panic m, k1) => (Outcome.panic m, k1)
        | (Outcome.blocked, k1) => (Outcome.blocked, k1) := by
  intro l1
  induction l1 with
  | nil => intro k; simp [fork_pages]
  | cons ipt rest ih =>
    intro k
    simp only [List.cons_append, fork_pages]
    split
    · split
      · rfl
      · exact ih _
    · split
      · rcases duppage envid (ipd <<< 10 ||| ipt) k with ⟨o, k1⟩
        cases o with
        | ret v => exact ih k1
        | panic m => rfl
        | blocked => rfl
      · exact ih k

theorem fork_dirs_append (envid : Int) (l2 : List Nat) :
    ∀ (l1 : List Nat) (k : Kern),
      fork_dirs envid (l1 ++ l2) k =
        match fork_dirs envid l1 k with
        | (Outcome.ret _, k1) => fork_dirs envid l2 k1
        | (Outcome.panic m, k1) => (Outcome.panic m, k1)
        | (Outcome.blocked, k1) => (Outcome.blocked, k1) := by
  intro l1
  induction l1 with
  | nil => intro k; simp [fork_dirs]
  | cons ipd rest ih =>
    intro k
    simp only [List.cons_append, fork_dirs]
    split
    · exact ih k
    · rcases fork_pages envid ipd (List.range NPTENTRIES) k with ⟨o, k1⟩
      cases o with
      | ret v => exact ih k1
      | panic m => rfl
      | blocked => rfl

theorem fork_dirs_quiet (envid : Int) :
    ∀ (l : List Nat) (k : Kern), (∀ ipd ∈ l, ipd < 954) →
      Quiet k (fork_dirs envid l k).2 := by
  intro l
  induction l with
  | nil => intro k _; exact Quiet.refl k
  | cons ipd rest ih =>
    intro k hl
    have hi := hl ipd (List.mem_cons_self _ _)
    have hrest : ∀ i ∈ rest, i < 954 := fun i h => hl i (List.mem_cons_of_mem _ h)
    unfold fork_dirs
    by_cases hp : uvpd k ipd &&& PTE_P = 0
    · simp only [hp, if_true]
      exact ih k hrest
    · simp only [hp, if_false]
      have qp := fork_pages_quiet envid ipd (by omega) (List.range NPTENTRIES) k (by
        intro ipt hipt
        have : ipt < 1024 := by simpa [NPTENTRIES] using List.mem_range.mp hipt
        refine ⟨this, ?_⟩
        rw [xstack_pn]; omega)
      rcases hfp : fork_pages envid ipd (List.range NPTENTRIES) k with ⟨o, k1⟩
      rw [hfp] at qp
      cases o with
      | ret v => exact qp.trans (ih k1 hrest)
      | panic m => exact qp
      | blocked => exact qp

theorem fork_dirs_one (envid : Int) (ipd : Nat) (k : Kern) (hp : ¬ (uvpd k ipd &&& PTE_P = 0)) :
    fork_dirs envid [ipd] k =
      match fork_pages envid ipd (List.range NPTENTRIES) k with
      | (Outcome.ret _, k1) => (Outcome.ret (), k1)
      | (Outcome.panic m, k1) => (Outcome.panic m, k1)
      | (Outcome.blocked, k1) => (Outcome.blocked, k1) := by
  rw [fork_dirs, if_neg hp]
  rcases fork_pages envid ipd (List.range NPTENTRIES) k with ⟨o, k1⟩
  cases o <;> rfl

theorem range_NPTENTRIES : List.range NPTENTRIES = List.range 1023 ++ [1023] :=
  List.range_succ 1023

theorem range_PDX_UTOP : List.range (PDX UTOP) = List.range 954 ++ [954] := by
  have hn : PDX UTOP = 954 + 1 := by decide
  rw [hn, List.range_succ]

theorem fork_pages_xstack (envid : Int) (ipd ipt : Nat) (k : Kern)
    (hx : (ipd <<< 10 ||| ipt) = PGNUM (UXSTACKTOP - PGSIZE)) :
    fork_pages envid ipd [ipt] k =
      if (sys_page_alloc envid (UXSTACKTOP - PGSIZE) (PTE_W ||| PTE_U ||| PTE_P) k).1 ≠ 0 then
        (Outcome.panic "fork: no phys mem for xstk",
          (sys_page_alloc envid (UXSTACKTOP - PGSIZE) (PTE_W ||| PTE_U ||| PTE_P) k).2)
      else
        (Outcome.ret (),
          (sys_page_alloc envid (UXSTACKTOP - PGSIZE) (PTE_W ||| PTE_U ||| PTE_P) k).2) := by
  unfold fork_pages
  rw [if_pos hx]
  unfold fork_pages
  rfl

/-- A completed walk of a parent whose directory slot 954 is present ends with the
allocation of the child's exception stack, after quiet steps only. -/
theorem fork_walk_ret (envid : Int) (henv : envid ≠ 0) (k1 : Kern)
    (hpd : uvpd k1 954 &&& PTE_P ≠ 0)
    (h : (fork_dirs envid (List.range (PDX UTOP)) k1).1 = Outcome.ret ()) :
    ∃ kc f rest, Quiet k1 kc ∧ kc.free = f :: rest ∧
      fork_dirs envid (List.range (PDX UTOP)) k1 =
        (Outcome.ret (),
          setFree rest (install envid (UXSTACKTOP - PGSIZE)
            (f * PGSIZE ||| PTE_FLAGS (PTE_W ||| PTE_U ||| PTE_P))
            (record (Call.page_alloc envid (UXSTACKTOP - PGSIZE) (PTE_W ||| PTE_U ||| PTE_P))
              kc))) := by
  rw [range_PDX_UTOP, fork_dirs_append] at h ⊢
  have qa := fork_dirs_quiet envid (List.range 954) k1 (fun i hi => List.mem_range.mp hi)
  rcases hA : fork_dirs envid (List.range 954) k1 with ⟨oa, ka⟩
  rw [hA] at h qa
  cases oa with
  | panic m => simp at h
  | blocked => simp at h
  | ret va =>
    have hpa : ¬ (uvpd ka 954 &&& PTE_P = 0) := by
      have := qa.pd k1.cur 954 hpd
      unfold uvpd; rw [qa.cur]; exact this
    simp only [] at h ⊢
    rw [fork_dirs_one envid 954 ka hpa, range_NPTENTRIES, fork_pages_append] at h ⊢
    have qc := fork_pages_quiet envid 954 (by omega) (List.range 1023) ka (by
      intro ipt hipt
      have : ipt < 1023 := List.mem_range.mp hipt
      rw [xstack_pn]; omega)
    rcases hC : fork_pages envid 954 (List.range 1023) ka with ⟨oc, kc⟩
    rw [hC] at h qc
    cases oc with
    | panic m => simp at h
    | blocked => simp at h
    | ret vc =>
      have hx : (954 <<< 10 ||| 1023) = PGNUM (UXSTACKTOP - PGSIZE) :=
        (mk_pn 954 1023 (by omega)).trans xstack_pn.symm
      simp only [] at h ⊢
      rw [fork_pages_xstack envid 954 1023 kc hx] at h ⊢
      by_cases hr : (sys_page_alloc envid (UXSTACKTOP - PGSIZE) (PTE_W ||| PTE_U ||| PTE_P)
          kc).1 = 0
      · obtain ⟨hre, f, rest, hf⟩ := sys_page_alloc_zero _ _ _ _ hr
        have e := sys_page_alloc_ok kc envid _ _ f rest hre hf
        have he : envid2env kc envid = envid := by simp [envid2env, henv]
        rw [he] at e
        refine ⟨kc, f, rest, qa.trans qc, hf, ?_⟩
        simp [e]
      · simp [hr] at h

theorem sys_env_set_pgfault_upcall_frame (envid : Int) (u : Nat) (k : Kern) :
    (sys_env_set_pgfault_upcall envid u k).2.log = k.log ++ [Call.env_set_pgfault_upcall envid u] ∧
    (sys_env_set_pgfault_upcall envid u k).2.pt = k.pt ∧
    (sys_env_set_pgfault_upcall envid u k).2.free = k.free ∧
    (sys_env_set_pgfault_upcall envid u k).2.cur = k.cur := by
  unfold sys_env_set_pgfault_upcall
  split <;> exact ⟨rfl, rfl, rfl, rfl⟩

theorem sys_env_set_status_frame (envid : Int) (st : Nat) (k : Kern) :
    (sys_env_set_status envid st k).2.log = k.log ++ [Call.env_set_status envid st] ∧
    (sys_env_set_status envid st k).2.pt = k.pt ∧
    (sys_env_set_status envid st k).2.free = k.free ∧
    (sys_env_set_status envid st k).2.cur = k.cur := by
  unfold sys_env_set_status
  split <;> exact ⟨rfl, rfl, rfl, rfl⟩

/-- What the parent branch of `fork` does before the walk. -/
theorem fork_prelude (k : Kern) (hparent : 0 < k.exofork_ret) :
    (sys_exofork (set_pgfault_handler k)).1 = k.exofork_ret ∧
    (sys_exofork (set_pgfault_handler k)).2.log =
      k.log ++ [Call.env_set_pgfault_upcall 0 k.upcall_entry, Call.exofork] ∧
    (sys_exofork (set_pgfault_handler k)).2.free = k.free ∧
    (sys_exofork (set_pgfault_handler k)).2.cur = k.cur ∧
    (∀ e n, e ≠ k.exofork_ret → (sys_exofork (set_pgfault_handler k)).2.pt e n = k.pt e n) ∧
    (∀ e i, e ≠ k.exofork_ret → (sys_exofork (set_pgfault_handler k)).2.pd e i = k.pd e i) := by
  have h : 0 < (set_pgfault_handler k).exofork_ret := hparent
  unfold sys_exofork
  rw [if_pos h]
  refine ⟨rfl, ?_, rfl, rfl, ?_, ?_⟩
  · simp [set_pgfault_handler]
  · intro e n he
    have he1 : ¬ (e = (set_pgfault_handler k).exofork_ret) := he
    simp only [he1, if_false]; rfl
  · intro e i he
    have he1 : ¬ (e = (set_pgfault_handler k).exofork_ret) := he
    simp only [he1, if_false]; rfl

/-- A returning parent branch of `fork`: the walk completed, then exactly the two
control-block calls were issued. -/
theorem fork_parent_ret (k : Kern) (v : Int) (hparent : 0 < k.exofork_ret)
    (hret : (fork k).1 = Outcome.ret v) :
    v = k.exofork_ret ∧
    ∃ k2 u, fork_dirs k.exofork_ret (List.range (PDX UTOP))
        (sys_exofork (set_pgfault_handler k)).2 = (Outcome.ret (), k2) ∧
      (fork k).2.log = k2.log ++ [Call.env_set_pgfault_upcall k.exofork_ret u,
        Call.env_set_status k.exofork_ret ENV_RUNNABLE] ∧
      (fork k).2.pt = k2.pt ∧ (fork k).2.free = k2.free ∧ (fork k).2.cur = k2.cur := by
  have hp := (fork_prelude k hparent).1
  rcases hE : sys_exofork (set_pgfault_handler k) with ⟨envid, k1⟩
  rw [hE] at hp
  simp only at hp
  subst hp
  unfold fork at hret ⊢
  rw [hE] at hret ⊢
  have h1 : ¬ (k.exofork_ret < 0) := by omega
  have h2 : ¬ (k.exofork_ret = 0) := by omega
  dsimp only at hret ⊢
  rw [if_neg h1, if_neg h2] at hret ⊢
  rcases hW : fork_dirs k.exofork_ret (List.range (PDX UTOP)) k1 with ⟨o, k2⟩
  rw [hW] at hret
  cases o with
  | panic m => simp at hret
  | blocked => simp at hret
  | ret w =>
    dsimp only at hret ⊢
    have fu := sys_env_set_pgfault_upcall_frame k.exofork_ret
      (k2.envs k2.thisenv).env_pgfault_upcall k2
    by_cases hr : (sys_env_set_pgfault_upcall k.exofork_ret
        (k2.envs k2.thisenv).env_pgfault_upcall k2).1 = 0
    · rw [if_neg (not_not.mpr hr)] at hret ⊢
      have fs := sys_env_set_status_frame k.exofork_ret ENV_RUNNABLE
        (sys_env_set_pgfault_upcall k.exofork_ret (k2.envs k2.thisenv).env_pgfault_upcall k2).2
      by_cases hr2 : (sys_env_set_status k.exofork_ret ENV_RUNNABLE
          (sys_env_set_pgfault_upcall k.exofork_ret
            (k2.envs k2.thisenv).env_pgfault_upcall k2).2).1 = 0
      · rw [if_neg (not_not.mpr hr2)] at hret ⊢
        refine ⟨by simpa using hret.symm, k2, (k2.envs k2.thisenv).env_pgfault_upcall, rfl, ?_,
          ?_, ?_, ?_⟩
        · rw [fs.1, fu.1, List.append_assoc]; rfl
        · rw [fs.2.1, fu.2.1]
        · rw [fs.2.2.1, fu.2.2.1]
        · rw [fs.2.2.2, fu.2.2.2]
      · rw [if_pos hr2] at hret
        simp at hret
    · rw [if_pos hr] at hret
      simp at hret

set_option maxRecDepth 100000 in
/-- A parent with no page table covering the exception stack (directory slot 954 absent:
it has neither an exception stack nor a user stack): the walk skips the slot as a whole,
so `fork` returns without any page allocation. Such a parent has no exception stack to
replicate. -/
theorem fork_skips_xstack_in_absent_slot :
    0 < sampleKern.exofork_ret ∧
    uvpd sampleKern (PDX (UXSTACKTOP - PGSIZE)) &&& PTE_P = 0 ∧
    (fork sampleKern).1 = Outcome.ret 0x1002 ∧
    (fork sampleKern).2.log.filter isAlloc = [] ∧
    (fork sampleKern).2.pt 0x1002 (PGNUM (UXSTACKTOP - PGSIZE)) = 0 ∧
    ((fork sampleKern).2.envs (ENVX 0x1002)).env_status = ENV_RUNNABLE := by
  decide

theorem filter_isAlloc_quiet (l : List Call)
    (h : ∀ c ∈ l, isAlloc c = false ∧ touchesXstack c = false) : l.filter isAlloc = [] := by
  rw [List.filter_eq_nil_iff]
  intro c hc
  simp [(h c hc).1]

/-- A returning parent branch of `fork` whose page-directory slot covering the exception
stack is present: exactly one page allocation is issued, for the child at
`UXSTACKTOP - PGSIZE`, and the child's entry for that page is the first free frame,
present | user | writable, while the parent's own entry is untouched. -/
theorem fork_xstack_alloc (k : Kern) (v : Int)
    (hparent : 0 < k.exofork_ret) (hnew : k.exofork_ret ≠ k.cur)
    (hpd : uvpd k (PDX (UXSTACKTOP - PGSIZE)) &&& PTE_P ≠ 0)
    (hret : (fork k).1 = Outcome.ret v) :
    v = k.exofork_ret ∧
    (∀ c ∈ (fork k).2.log.drop k.log.length, touchesXstack c = false) ∧
    ((fork k).2.log.drop k.log.length).filter isAlloc =
      [Call.page_alloc k.exofork_ret (UXSTACKTOP - PGSIZE) (PTE_W ||| PTE_U ||| PTE_P)] ∧
    (∃ f rest, k.free = f :: rest ∧ (fork k).2.free = rest ∧
      pte_frame ((fork k).2.pt k.exofork_ret (PGNUM (UXSTACKTOP - PGSIZE))) = f ∧
      (f ≠ pte_frame (uvpt k (PGNUM (UXSTACKTOP - PGSIZE))) →
        pte_frame ((fork k).2.pt k.exofork_ret (PGNUM (UXSTACKTOP - PGSIZE))) ≠
          pte_frame (uvpt (fork k).2 (PGNUM (UXSTACKTOP - PGSIZE))))) ∧
    PTE_FLAGS ((fork k).2.pt k.exofork_ret (PGNUM (UXSTACKTOP - PGSIZE))) =
      PTE_P ||| PTE_U ||| PTE_W ∧
    (fork k).2.pt k.exofork_ret (PGNUM (UXSTACKTOP - PGSIZE)) &&& PTE_COW = 0 ∧
    uvpt (fork k).2 (PGNUM (UXSTACKTOP - PGSIZE)) = uvpt k (PGNUM (UXSTACKTOP - PGSIZE)) := by
  obtain ⟨hv, k2, u, hW, hlog, hpt, hfree, hcur⟩ := fork_parent_ret k v hparent hret
  obtain ⟨-, plog, pfree, pcur, ppt, ppd⟩ := fork_prelude k hparent
  have henv : k.exofork_ret ≠ 0 := by omega
  have hslot : PDX (UXSTACKTOP - PGSIZE) = 954 := by decide
  have hpd1 : uvpd (sys_exofork (set_pgfault_handler k)).2 954 &&& PTE_P ≠ 0 := by
    unfold uvpd
    rw [pcur, ppd _ _ (Ne.symm hnew)]
    rw [hslot] at hpd
    exact hpd
  obtain ⟨kc, f, rest, q, hf, hW2⟩ := fork_walk_ret k.exofork_ret henv _ hpd1 (by rw [hW])
  rw [hW] at hW2
  have hk2 : k2 = setFree rest (install k.exofork_ret (UXSTACKTOP - PGSIZE)
      (f * PGSIZE ||| PTE_FLAGS (PTE_W ||| PTE_U ||| PTE_P))
      (record (Call.page_alloc k.exofork_ret (UXSTACKTOP - PGSIZE)
        (PTE_W ||| PTE_U ||| PTE_P)) kc)) := by
    simpa using congrArg Prod.snd hW2
  obtain ⟨l, hl, hlq⟩ := q.log
  have hxdiv : (UXSTACKTOP - PGSIZE) / PGSIZE = PGNUM (UXSTACKTOP - PGSIZE) :=
    (PGNUM_eq_div _).symm
  -- the calls issued by fork
  have hsuffix : (fork k).2.log = k.log ++
      ([Call.env_set_pgfault_upcall 0 k.upcall_entry, Call.exofork] ++ l ++
        [Call.page_alloc k.exofork_ret (UXSTACKTOP - PGSIZE) (PTE_W ||| PTE_U ||| PTE_P),
         Call.env_set_pgfault_upcall k.exofork_ret u,
         Call.env_set_status k.exofork_ret ENV_RUNNABLE]) := by
    rw [hlog, hk2]
    simp [hl, plog]
  have hdrop : (fork k).2.log.drop k.log.length =
      [Call.env_set_pgfault_upcall 0 k.upcall_entry, Call.exofork] ++ l ++
        [Call.page_alloc k.exofork_ret (UXSTACKTOP - PGSIZE) (PTE_W ||| PTE_U ||| PTE_P),
         Call.env_set_pgfault_upcall k.exofork_ret u,
         Call.env_set_status k.exofork_ret ENV_RUNNABLE] := by
    rw [hsuffix, List.drop_left]
  -- the child's entry for the exception-stack page
  have hchild : (fork k).2.pt k.exofork_ret (PGNUM (UXSTACKTOP - PGSIZE)) =
      f * PGSIZE ||| PTE_FLAGS (PTE_W ||| PTE_U ||| PTE_P) := by
    rw [hpt, hk2]
    simp [setEntry, hxdiv]
  have hfl : PTE_FLAGS (f * PGSIZE ||| PTE_FLAGS (PTE_W ||| PTE_U ||| PTE_P)) =
      PTE_P ||| PTE_U ||| PTE_W := by rw [PTE_FLAGS_mk]; decide
  -- the parent's entry for the exception-stack page
  have hparentpte : uvpt (fork k).2 (PGNUM (UXSTACKTOP - PGSIZE)) =
      uvpt k (PGNUM (UXSTACKTOP - PGSIZE)) := by
    unfold uvpt
    have hc2 : k2.cur = k.cur := by rw [hk2]; simp [q.cur, pcur]
    rw [hpt, hcur, hc2, hk2]
    simp only [setFree_pt, install_pt_fn, record_pt, setEntry]
    rw [if_neg (fun h => hnew h.1.symm), q.xpte, ppt _ _ (Ne.symm hnew)]
  have hfree0 : k.free = f :: rest := by rw [← pfree, ← q.free]; exact hf
  refine ⟨hv, ?_, ?_, ⟨f, rest, hfree0, ?_, ?_, ?_⟩, ?_, ?_, hparentpte⟩
  · rw [hdrop]
    intro c hc
    simp only [List.mem_append, List.mem_cons, List.mem_singleton, List.not_mem_nil,
      or_false] at hc
    rcases hc with ((h | h) | h) | (h | h | h)
    · subst h; rfl
    · subst h; rfl
    · exact (hlq c h).2
    · subst h; rfl
    · subst h; rfl
    · subst h; rfl
  · rw [hdrop, List.filter_append, List.filter_append, filter_isAlloc_quiet l hlq]
    simp [isAlloc]
  · rw [hfree, hk2]; rfl
  · rw [hchild, pte_frame_mk]
  · intro hne
    rw [hchild, pte_frame_mk, hparentpte]
    exact hne
  · rw [hchild, hfl]
  · rw [hchild, and_flag_eq _ PTE_COW (by decide), hfl]; decide

/-- C9: `pgfault` validates before it acts. A fault whose error code lacks the write bit,
or whose page is not marked copy-on-write, makes `pgfault` panic with the state (and
the call log) exactly as it was. Hence after a resolution that returned, the page is
writable and not copy-on-write, and running `pgfault` again on the same fault record
panics without issuing any call: the two runs together issue exactly one page allocation
and one mapping call and take exactly one frame from the free frames. -/
theorem pgfault_checks_before_acting (k : Kern) (utf : UTrapframe) :
    ((utf.utf_err &&& FEC_WR = 0 ∨ uvpt k (PGNUM utf.utf_fault_va) &&& PTE_COW = 0) →
      (∃ msg, (pgfault utf k).1 = Outcome.panic msg) ∧ (pgfault utf k).2 = k) ∧
    ((pgfault utf k).1 = Outcome.ret () →
      uvpt (pgfault utf k).2 (PGNUM utf.utf_fault_va) &&& PTE_W ≠ 0 ∧
      uvpt (pgfault utf k).2 (PGNUM utf.utf_fault_va) &&& PTE_COW = 0 ∧
      (∃ msg, (pgfault utf (pgfault utf k).2).1 = Outcome.panic msg) ∧
      (pgfault utf (pgfault utf k).2).2 = (pgfault utf k).2 ∧
      allocCount ((pgfault utf (pgfault utf k).2).2.log.drop k.log.length) = 1 ∧
      mapCount ((pgfault utf (pgfault utf k).2).2.log.drop k.log.length) = 1 ∧
      (pgfault utf (pgfault utf k).2).2.free = k.free.tail) := by
  have hpanic : ∀ (k0 : Kern),
      (utf.utf_err &&& FEC_WR = 0 ∨ uvpt k0 (PGNUM utf.utf_fault_va) &&& PTE_COW = 0) →
      (∃ msg, (pgfault utf k0).1 = Outcome.panic msg) ∧ (pgfault utf k0).2 = k0 := by
    intro k0 h
    unfold pgfault
    rw [if_pos h]
    exact ⟨⟨_, rfl⟩, rfl⟩
  refine ⟨hpanic k, ?_⟩
  intro hret
  obtain ⟨hwr, hcow, ha, ⟨f, rest, hf⟩, hm⟩ := pgfault_ret_inv k utf hret
  have hrun := pgfault_ok k utf f rest hwr hcow ha hf hm
  have hnew : uvpt (pgfault utf k).2 (PGNUM utf.utf_fault_va) =
      f * PGSIZE ||| PTE_FLAGS (PTE_W ||| PTE_U ||| PTE_P) := by
    rw [hrun]; unfold uvpt
    simp [setEntry, ROUNDDOWN_div]
  have hfl : PTE_FLAGS (f * PGSIZE ||| PTE_FLAGS (PTE_W ||| PTE_U ||| PTE_P)) =
      PTE_P ||| PTE_U ||| PTE_W := by rw [PTE_FLAGS_mk]; decide
  have hw : uvpt (pgfault utf k).2 (PGNUM utf.utf_fault_va) &&& PTE_W ≠ 0 := by
    rw [hnew, and_flag_eq _ PTE_W (by decide), hfl]; decide
  have hc : uvpt (pgfault utf k).2 (PGNUM utf.utf_fault_va) &&& PTE_COW = 0 := by
    rw [hnew, and_flag_eq _ PTE_COW (by decide), hfl]; decide
  obtain ⟨hp1, hp2⟩ := hpanic (pgfault utf k).2 (Or.inr hc)
  refine ⟨hw, hc, hp1, hp2, ?_, ?_, ?_⟩
  · rw [hp2, hrun]
    simp [allocCount]
  · rw [hp2, hrun]
    simp [mapCount]
  · rw [hp2, hrun, hf]
    simp

/-- Witness of C9: the write fault of `sampleUtf` on the copy-on-write page of
`sampleKern` is resolved, and a second run on the same record panics after one
allocation in total; the same fault reported as a read panics at once. -/
theorem pgfault_checks_before_acting_witness :
    (pgfault sampleUtf sampleKern).1 = Outcome.ret () ∧
    allocCount ((pgfault sampleUtf (pgfault sampleUtf sampleKern).2).2.log.drop
      sampleKern.log.length) = 1 ∧
    ({ sampleUtf with utf_err := 5 } : UTrapframe).utf_err &&& FEC_WR = 0 ∧
    (pgfault { sampleUtf with utf_err := 5 } sampleKern).2 = sampleKern :=
  ⟨by decide,
   ((pgfault_checks_before_acting sampleKern sampleUtf).2 (by decide)).2.2.2.2.1,
   by decide,
   ((pgfault_checks_before_acting sampleKern { sampleUtf with utf_err := 5 }).1
      (Or.inl (by decide))).2⟩

/-- Witness of C1: page 0x800 of `sampleKern` is present and copy-on-write, and
`duppage` into child 0x1002 leaves it copy-on-write in both. -/
theorem duppage_cow_both_witness :
    uvpt sampleKern 0x800 &&& PTE_P ≠ 0 ∧
    uvpt sampleKern 0x800 &&& PTE_COW ≠ 0 ∧
    (duppage 0x1002 0x800 sampleKern).1 = Outcome.ret 0 ∧
    PTE_FLAGS ((duppage 0x1002 0x800 sampleKern).2.pt (envid2env sampleKern 0x1002) 0x800)
      = PTE_P ||| PTE_U ||| PTE_COW ∧
    PTE_FLAGS (uvpt (duppage 0x1002 0x800 sampleKern).2 0x800) = PTE_P ||| PTE_U ||| PTE_COW :=
  ⟨by decide, by decide,
   (duppage_cow_both sampleKern 0x1002 0x800 (by decide) (by decide) (Or.inr (by decide))
      rfl rfl).1,
   (duppage_cow_both sampleKern 0x1002 0x800 (by decide) (by decide) (Or.inr (by decide))
      rfl rfl).2.1,
   (duppage_cow_both sampleKern 0x1002 0x800 (by decide) (by decide) (Or.inr (by decide))
      rfl rfl).2.2.1⟩

/-- Witness of C2 (amended): the write fault of `sampleUtf` on page 0x800 of `sampleKern`
(frame 5) is resolved onto the free frame 9. -/
theorem pgfault_private_copy_witness :
    sampleUtf.utf_err &&& FEC_WR ≠ 0 ∧
    uvpt sampleKern (PGNUM sampleUtf.utf_fault_va) &&& PTE_COW ≠ 0 ∧
    PGNUM sampleUtf.utf_fault_va ≠ PGNUM PFTEMP ∧
    sampleKern.free = 9 :: [10] ∧
    (pgfault sampleUtf sampleKern).1 = Outcome.ret () ∧
    pte_frame (uvpt (pgfault sampleUtf sampleKern).2 (PGNUM sampleUtf.utf_fault_va)) = 9 :=
  ⟨by decide, by decide, by decide, rfl,
   (pgfault_private_copy sampleKern sampleUtf 9 [10] (by decide) (by decide) (by decide)
      rfl rfl (by decide) rfl).1,
   (pgfault_private_copy sampleKern sampleUtf 9 [10] (by decide) (by decide) (by decide)
      rfl rfl (by decide) rfl).2.1⟩

/-! ## ipc.c: ipc_send -/

theorem join_replicate_succ (c : Call) (n : Nat) (l : List Call) :
    l ++ [Call.yield] ++ [c] ++ (List.replicate n [Call.yield, c]).flatten =
      l ++ (List.replicate (n + 1) [Call.yield, c]).flatten := by
  simp [List.replicate_succ]

theorem ipc_send_loop_script (rs : Nat → Int) (to_env : Int) (val pg perm : Nat) :
    ∀ (n fuel t y : Nat) (calls : List Call),
      (∀ i, i < n → rs (t + i) = -E_IPC_NOT_RECV) → rs (t + n) ≠ -E_IPC_NOT_RECV → n ≤ fuel →
      ipc_send_loop scriptIpc to_env val pg perm fuel (rs t) ⟨rs, t + 1, y, calls⟩ =
        (if rs (t + n) < 0 then Outcome.panic "ipc_send: Unknown Error" else Outcome.ret (),
          ⟨rs, t + n + 1, y + n,
            calls ++ (List.replicate n [Call.yield, Call.ipc_try_send to_env val pg perm]).flatten⟩) := by
  intro n
  induction n with
  | zero =>
    intro fuel t y calls _ hstop _
    simp only [Nat.add_zero] at hstop ⊢
    cases fuel with
    | zero =>
      unfold ipc_send_loop
      by_cases hneg : rs t < 0 <;> simp [hstop, hneg]
    | succ f =>
      unfold ipc_send_loop
      by_cases hneg : rs t < 0 <;> simp [hstop, hneg]
  | succ n ih =>
    intro fuel t y calls hpre hstop hfuel
    have h0 : rs t = -E_IPC_NOT_RECV := by simpa using hpre 0 (Nat.succ_pos n)
    cases fuel with
    | zero => omega
    | succ f =>
      unfold ipc_send_loop
      rw [if_pos h0]
      have hpre1 : ∀ i, i < n → rs (t + 1 + i) = -E_IPC_NOT_RECV := by
        intro i hi
        have := hpre (i + 1) (by omega)
        rwa [show t + (i + 1) = t + 1 + i by omega] at this
      have hstop1 : rs (t + 1 + n) ≠ -E_IPC_NOT_RECV := by
        rwa [show t + 1 + n = t + (n + 1) by omega]
      have := ih f (t + 1) (y + 1)
        (calls ++ [Call.yield] ++ [Call.ipc_try_send to_env val pg perm]) hpre1 hstop1 (by omega)
      simp only [scriptIpc]
      simp only [scriptIpc] at this
      rw [this, join_replicate_succ]
      rw [show t + 1 + n = t + (n + 1) by omega, show y + 1 + n = y + (n + 1) by omega]

theorem ipc_send_loop_script_blocked (rs : Nat → Int) (to_env : Int) (val pg perm : Nat)
    (hall : ∀ i, rs i = -E_IPC_NOT_RECV) :
    ∀ (fuel t y : Nat) (calls : List Call),
      (ipc_send_loop scriptIpc to_env val pg perm fuel (rs t) ⟨rs, t + 1, y, calls⟩).1 =
        Outcome.blocked := by
  intro fuel
  induction fuel with
  | zero =>
    intro t y calls
    unfold ipc_send_loop
    rw [if_pos (hall t)]
  | succ f ih =>
    intro t y calls
    unfold ipc_send_loop
    rw [if_pos (hall t)]
    exact ih (t + 1) (y + 1) _

/-- C6: against a kernel that answers the successive try-sends with an arbitrary sequence
`rs`, `ipc_send` makes one attempt and then one yield and one more attempt for each
"not receiving" result, and stops at the first other result `rs n`: it has then made
`n + 1` attempts and `n` yields (for any bound `fuel ≥ n` on the iterations), returns
normally iff `rs n` is non-negative and panics iff it is negative; and against a sequence
of "not receiving" results only it never returns. -/
theorem ipc_send_retries (rs : Nat → Int) (to_env : Int) (val pg perm : Nat) :
    (∀ n fuel, (∀ i, i < n → rs i = -E_IPC_NOT_RECV) → rs n ≠ -E_IPC_NOT_RECV → n ≤ fuel →
      (ipc_send scriptIpc fuel to_env val pg perm ⟨rs, 0, 0, []⟩).1 =
        (if rs n < 0 then Outcome.panic "ipc_send: Unknown Error" else Outcome.ret ()) ∧
      (ipc_send scriptIpc fuel to_env val pg perm ⟨rs, 0, 0, []⟩).2.tries = n + 1 ∧
      (ipc_send scriptIpc fuel to_env val pg perm ⟨rs, 0, 0, []⟩).2.yields = n ∧
      (ipc_send scriptIpc fuel to_env val pg perm ⟨rs, 0, 0, []⟩).2.calls =
        sendTrace (Call.ipc_try_send to_env val (if pg = 0 then UTOP else pg) perm) n) ∧
    ((∀ i, rs i = -E_IPC_NOT_RECV) → ∀ fuel,
      (ipc_send scriptIpc fuel to_env val pg perm ⟨rs, 0, 0, []⟩).1 = Outcome.blocked) := by
  constructor
  · intro n fuel hpre hstop hfuel
    have h := ipc_send_loop_script rs to_env val (if pg = 0 then UTOP else pg) perm n fuel 0 0
      [Call.ipc_try_send to_env val (if pg = 0 then UTOP else pg) perm]
      (by intro i hi; simpa using hpre i hi) (by simpa using hstop) hfuel
    simp only [Nat.zero_add] at h
    have e : ipc_send scriptIpc fuel to_env val pg perm ⟨rs, 0, 0, []⟩ =
        ipc_send_loop scriptIpc to_env val (if pg = 0 then UTOP else pg) perm fuel (rs 0)
          ⟨rs, 1, 0, [Call.ipc_try_send to_env val (if pg = 0 then UTOP else pg) perm]⟩ := rfl
    rw [e, h]
    exact ⟨rfl, rfl, rfl, rfl⟩
  · intro hall fuel
    exact ipc_send_loop_script_blocked rs to_env val (if pg = 0 then UTOP else pg) perm hall
      fuel 0 0 _

/-- Witness of C6: told "not receiving" twice and then 0, `ipc_send` returns after three
attempts and two yields. -/
theorem ipc_send_retries_witness :
    twiceBusy 0 = -E_IPC_NOT_RECV ∧ twiceBusy 1 = -E_IPC_NOT_RECV ∧ twiceBusy 2 = 0 ∧
    (ipc_send scriptIpc 5 0x1002 42 0 0 ⟨twiceBusy, 0, 0, []⟩).1 = Outcome.ret () ∧
    (ipc_send scriptIpc 5 0x1002 42 0 0 ⟨twiceBusy, 0, 0, []⟩).2.tries = 3 ∧
    (ipc_send scriptIpc 5 0x1002 42 0 0 ⟨twiceBusy, 0, 0, []⟩).2.yields = 2 :=
  ⟨by decide, by decide, by decide,
   ((ipc_send_retries twiceBusy 0x1002 42 0 0).1 2 5 (by decide) (by decide) (by decide)).1,
   ((ipc_send_retries twiceBusy 0x1002 42 0 0).1 2 5 (by decide) (by decide) (by decide)).2.1,
   ((ipc_send_retries twiceBusy 0x1002 42 0 0).1 2 5 (by decide) (by decide) (by decide)).2.2.1⟩

/-! ## ipc.c: the rendezvous -/

theorem ipc_send_loop_done {σ : Type} (S : IpcSys σ) (to_env : Int) (val pg perm : Nat)
    (fuel : Nat) (RV : Int) (s : σ) (h1 : RV ≠ -E_IPC_NOT_RECV) (h2 : ¬ RV < 0) :
    ipc_send_loop S to_env val pg perm fuel RV s = (Outcome.ret (), s) := by
  cases fuel <;> simp [ipc_send_loop, h1, h2]

theorem ipc_recv_wait_done {σ : Type} (S : IpcSys σ) (fuel : Nat) (s : σ)
    (h : (S.thisenv s).env_ipc_recving = 0) :
    ipc_recv_wait S fuel s = (Outcome.ret (), s) := by
  cases fuel <;> simp [ipc_recv_wait, h]

/-- The wait only ends, other than by running out of fuel, in a state whose
receive-pending flag is clear. -/
theorem ipc_recv_wait_clear {σ : Type} (S : IpcSys σ) :
    ∀ (fuel : Nat) (s s2 : σ), ipc_recv_wait S fuel s = (Outcome.ret (), s2) →
      (S.thisenv s2).env_ipc_recving = 0 := by
  intro fuel
  induction fuel with
  | zero =>
    intro s s2 h
    unfold ipc_recv_wait at h
    by_cases hr : (S.thisenv s).env_ipc_recving = 0
    · simp [hr] at h; rw [← h]; exact hr
    · simp [hr] at h
  | succ f ih =>
    intro s s2 h
    unfold ipc_recv_wait at h
    by_cases hr : (S.thisenv s).env_ipc_recving = 0
    · simp [hr] at h; rw [← h]; exact hr
    · simp only [ne_eq, hr, not_false_eq_true, if_true] at h
      exact ih _ _ h

theorem int32_word (v : Nat) (hv : v < 2 ^ 32) : int32 v % 2 ^ 32 = (v : Int) := by
  unfold int32
  have hm : v % 2 ^ 32 = v := Nat.mod_eq_of_lt hv
  rw [hm]
  split
  · omega
  · omega

theorem int32_small (v : Nat) (hv : v < 2 ^ 31) : int32 v = (v : Int) := by
  unfold int32
  have hm : v % 2 ^ 32 = v := Nat.mod_eq_of_lt (by omega)
  rw [hm, if_pos hv]

theorem int32_high (v : Nat) (hv : v < 2 ^ 32) (h : 2 ^ 31 ≤ v) :
    int32 v = (v : Int) - 2 ^ 32 := by
  unfold int32
  have hm : v % 2 ^ 32 = v := Nat.mod_eq_of_lt hv
  rw [hm, if_neg (by omega)]

/-- The receiver's run of the rendezvous, step by step. -/
theorem ipc_recv_run (k : Kern) (sender : Int) (v perm fuelS fuelR : Nat)
    (hthis : k.thisenv = ENVX k.cur) (hcur : k.cur ≠ 0)
    (hr1 : k.refuse (Call.ipc_recv UTOP) = 0)
    (hr2 : k.refuse (Call.ipc_try_send k.cur v UTOP perm) = 0) :
    ipc_recv kernIpc (fuelR + 1) true 0 true
        ⟨k, [senderTurn sender fuelS k.cur v 0 perm]⟩ =
      (Outcome.ret ⟨int32 v, some sender, some 0⟩,
        ⟨resume (post_recv UTOP (record (Call.ipc_recv UTOP) k))
          (deliver (ENVX k.cur) sender v 0
            (record (Call.ipc_try_send k.cur v UTOP perm)
              (switchTo sender
                (record Call.yield (post_recv UTOP (record (Call.ipc_recv UTOP) k)))))), []⟩) := by
  have hpost : sys_ipc_recv UTOP k = (0, post_recv UTOP (record (Call.ipc_recv UTOP) k)) := by
    simp [sys_ipc_recv, hr1]
  obtain ⟨k1, hk1⟩ : ∃ k1, k1 = post_recv UTOP (record (Call.ipc_recv UTOP) k) := ⟨_, rfl⟩
  rw [← hk1] at hpost ⊢
  have hk1cur : k1.cur = k.cur := by rw [hk1]; rfl
  have hk1this : k1.thisenv = ENVX k.cur := by rw [hk1]; exact hthis
  have hk1ref : k1.refuse = k.refuse := by rw [hk1]; rfl
  have hk1flag : (k1.envs (ENVX k.cur)).env_ipc_recving = 1 := by
    rw [hk1]; simp [post_recv, setEnv]
  -- the sender's single attempt succeeds
  have htry : sys_ipc_try_send k.cur v UTOP perm (switchTo sender (record Call.yield k1)) =
      (0, deliver (ENVX k.cur) sender v 0
        (record (Call.ipc_try_send k.cur v UTOP perm)
          (switchTo sender (record Call.yield k1)))) := by
    simp [sys_ipc_try_send, switchTo, envid2env, hcur, hk1ref, hr2, hk1flag]
  have hsend : senderTurn sender fuelS k.cur v 0 perm (record Call.yield k1) =
      deliver (ENVX k.cur) sender v 0
        (record (Call.ipc_try_send k.cur v UTOP perm)
          (switchTo sender (record Call.yield k1))) := by
    unfold senderTurn ipc_send
    simp only [kernIpc, if_true, htry]
    rw [ipc_send_loop_done _ _ _ _ _ _ _ _ (by decide) (by decide)]
  unfold ipc_recv
  simp only [kernIpc, if_true, hpost]
  rw [if_neg (by decide)]
  unfold ipc_recv_wait
  have hflag : ¬ ((k1.envs k1.thisenv).env_ipc_recving = 0) := by
    rw [hk1this, hk1flag]; decide
  simp only [ne_eq, hflag, not_false_eq_true, if_true, sched_yield_step, hsend]
  rw [ipc_recv_wait_done]
  · simp [resume, deliver, setEnv, hk1this]
  · simp [resume, deliver, setEnv, hk1this]

/-- The return value of the rendezvous for a value with the top bit set: sent 2^32 - 7,
`ipc_recv` returns -7, a negative number as after a refused receive, not the value. -/
theorem ipc_recv_run_high :
    (ipc_recv kernIpc 1 true 0 true
      ⟨recvKern, [senderTurn 0x1002 0 recvKern.cur 4294967289 0 7]⟩).1 =
        Outcome.ret ⟨-7, some 0x1002, some 0⟩ := by
  have h := congrArg Prod.fst
    (ipc_recv_run recvKern 0x1002 4294967289 7 0 0 (by decide) (by decide) rfl rfl)
  have hv : int32 4294967289 = -7 := by decide
  rw [hv] at h
  exact h

/-- C7 (the code against the claim): the receiver `recvKern` posts its receive with no
page, the sender 0x1002 then sends the value 2^32 - 7 with no page, and the kernel
refuses nothing; `ipc_recv` returns -7, not the value sent, because its result is an
`int32_t`. -/
theorem ipc_rendezvous_high_value_negative :
    recvKern.thisenv = ENVX recvKern.cur ∧ recvKern.cur ≠ 0 ∧ (4294967289 : Nat) < 2 ^ 32 ∧
    recvKern.refuse (Call.ipc_recv UTOP) = 0 ∧
    recvKern.refuse (Call.ipc_try_send recvKern.cur 4294967289 UTOP 7) = 0 ∧
    (ipc_recv kernIpc 1 true 0 true
      ⟨recvKern, [senderTurn 0x1002 0 recvKern.cur 4294967289 0 7]⟩).1 =
        Outcome.ret ⟨-7, some 0x1002, some 0⟩ ∧
    ((-7 : Int) ≠ ((4294967289 : Nat) : Int)) :=
  ⟨by decide, by decide, by decide, rfl, rfl, ipc_recv_run_high, by decide⟩

/-- C7 (amended): a receiver (a non-zero identity, `thisenv` on its own control block)
calls `ipc_recv` with no destination page and both store pointers non-NULL; while it
yields, a sender runs `ipc_send(receiver, v, NULL, perm)` with a 32-bit value `v`; the
kernel refuses neither call. Then `ipc_recv` returns `v` read as an `int32_t`: exactly `v`
when `v < 2^31`, and `v - 2^32` (a negative number) when `2^31 ≤ v`; it stores the
sender's identity through `from_env_store` and 0 through `perm_store`; the calls issued
are the receive with `UTOP`, one yield, and one try-send with `UTOP` (not address zero);
the values read are the mailbox fields of the final state, which hold `v` itself and whose
receive-pending flag is clear, as it is whenever the wait of `ipc_recv` ends. -/
theorem ipc_rendezvous_delivers (k : Kern) (sender : Int) (v perm fuelS fuelR : Nat)
    (hthis : k.thisenv = ENVX k.cur) (hcur : k.cur ≠ 0) (hv : v < 2 ^ 32)
    (hr1 : k.refuse (Call.ipc_recv UTOP) = 0)
    (hr2 : k.refuse (Call.ipc_try_send k.cur v UTOP perm) = 0) :
    (ipc_recv kernIpc (fuelR + 1) true 0 true
      ⟨k, [senderTurn sender fuelS k.cur v 0 perm]⟩).1 =
        Outcome.ret ⟨int32 v, some sender, some 0⟩ ∧
    (v < 2 ^ 31 → int32 v = (v : Int)) ∧
    (2 ^ 31 ≤ v → int32 v = (v : Int) - 2 ^ 32) ∧
    int32 v % 2 ^ 32 = (v : Int) ∧
    (ipc_recv kernIpc (fuelR + 1) true 0 true
      ⟨k, [senderTurn sender fuelS k.cur v 0 perm]⟩).2.kern.log =
        k.log ++ [Call.ipc_recv UTOP, Call.yield, Call.ipc_try_send k.cur v UTOP perm] ∧
    UTOP ≠ 0 ∧
    (kernIpc.thisenv (ipc_recv kernIpc (fuelR + 1) true 0 true
      ⟨k, [senderTurn sender fuelS k.cur v 0 perm]⟩).2).env_ipc_recving = 0 ∧
    (kernIpc.thisenv (ipc_recv kernIpc (fuelR + 1) true 0 true
      ⟨k, [senderTurn sender fuelS k.cur v 0 perm]⟩).2).env_ipc_value = v ∧
    (kernIpc.thisenv (ipc_recv kernIpc (fuelR + 1) true 0 true
      ⟨k, [senderTurn sender fuelS k.cur v 0 perm]⟩).2).env_ipc_from = sender ∧
    (kernIpc.thisenv (ipc_recv kernIpc (fuelR + 1) true 0 true
      ⟨k, [senderTurn sender fuelS k.cur v 0 perm]⟩).2).env_ipc_perm = 0 ∧
    (∀ (fuel : Nat) (s s2 : Sched), ipc_recv_wait kernIpc fuel s = (Outcome.ret (), s2) →
      (kernIpc.thisenv s2).env_ipc_recving = 0) := by
  rw [ipc_recv_run k sender v perm fuelS fuelR hthis hcur hr1 hr2]
  refine ⟨rfl, int32_small v, int32_high v hv, int32_word v hv, ?_, by decide, ?_, ?_, ?_, ?_,
    ipc_recv_wait_clear kernIpc⟩
  · simp [resume, deliver, switchTo, post_recv]
  · simp [kernIpc, resume, deliver, switchTo, post_recv, setEnv, hthis]
  · simp [kernIpc, resume, deliver, switchTo, post_recv, setEnv, hthis]
  · simp [kernIpc, resume, deliver, switchTo, post_recv, setEnv, hthis]
  · simp [kernIpc, resume, deliver, switchTo, post_recv, setEnv, hthis]

/-- Witness of C7 (amended): environment 0x1001 receives 42 from environment 0x1002. -/
theorem ipc_rendezvous_delivers_witness :
    recvKern.thisenv = ENVX recvKern.cur ∧ recvKern.cur ≠ 0 ∧
    (ipc_recv kernIpc 1 true 0 true
      ⟨recvKern, [senderTurn 0x1002 0 recvKern.cur 42 0 7]⟩).1 =
        Outcome.ret ⟨int32 42, some 0x1002, some 0⟩ ∧
    int32 42 = 42 :=
  ⟨by decide, by decide,
   (ipc_rendezvous_delivers recvKern 0x1002 42 7 0 0 (by decide) (by decide) (by decide)
      rfl rfl).1,
   (ipc_rendezvous_delivers recvKern 0x1002 42 7 0 0 (by decide) (by decide) (by decide)
      rfl rfl).2.1 (by decide)⟩

/-! ## trap.c: stores to the exception stack -/

theorem store32_outside (m : Nat → Nat) (a v b : Nat) (h : b < a ∨ a + 4 ≤ b) :
    store32 m a v b = m b := by
  unfold store32
  rw [if_neg (by omega)]

theorem load32_store32_same (m : Nat → Nat) (a v : Nat) (hv : v < 2 ^ 32) :
    load32 (store32 m a v) a = v := by
  unfold load32 store32
  rw [if_pos (by omega), if_pos (by omega), if_pos (by omega), if_pos (by omega)]
  have e0 : a - a = 0 := by omega
  have e1 : a + 1 - a = 1 := by omega
  have e2 : a + 2 - a = 2 := by omega
  have e3 : a + 3 - a = 3 := by omega
  rw [e0, e1, e2, e3]
  norm_num
  omega

theorem load32_store32_other (m : Nat → Nat) (a v b : Nat) (h : b + 4 ≤ a ∨ a + 4 ≤ b) :
    load32 (store32 m a v) b = load32 m b := by
  unfold load32
  rw [store32_outside m a v b (by omega), store32_outside m a v (b + 1) (by omega),
    store32_outside m a v (b + 2) (by omega), store32_outside m a v (b + 3) (by omega)]

/-- The stores of the fault record touch only its 52 bytes. -/
theorem store_utf_outside (m : Nat → Nat) (a : Nat) (u : UTrapframe) (b : Nat)
    (h : b < a ∨ a + sizeof_UTrapframe ≤ b) : store_utf m a u b = m b := by
  unfold sizeof_UTrapframe at h
  unfold store_utf store_regs
  repeat rw [store32_outside _ _ _ b (by omega)]

/-- Reading back the fault record just stored gives its fields. -/
theorem load_utf_store_utf (m : Nat → Nat) (a : Nat) (u : UTrapframe) (hu : u.word32) :
    load_utf (store_utf m a u) a = u := by
  obtain ⟨va, err, ⟨edi, esi, ebp, oesp, ebx, edx, ecx, eax⟩, eip, eflags, esp⟩ := u
  obtain ⟨h1, h2, ⟨r1, r2, r3, r4, r5, r6, r7, r8⟩, h3, h4, h5⟩ := hu
  simp only at h1 h2 r1 r2 r3 r4 r5 r6 r7 r8 h3 h4 h5
  unfold load_utf load_regs store_utf store_regs
  simp (disch := omega) only [load32_store32_other, load32_store32_same]

/-! ## trap.c: page_fault_handler -/

theorem uxstk_nested (esp : Nat) (h1 : UXSTACKTOP - PGSIZE ≤ esp) (h2 : esp < UXSTACKTOP) :
    sizeof_uintptr + sizeof_UTrapframe ≤ esp ∧
    uxstk esp = esp - sizeof_uintptr - sizeof_UTrapframe := by
  simp only [UXSTACKTOP, UTOP, PGSIZE] at h1 h2
  have hc : esp < UXSTACKTOP ∧ esp ≥ UXSTACKTOP - PGSIZE := by
    simp only [UXSTACKTOP, UTOP, PGSIZE]; omega
  unfold uxstk
  rw [if_pos hc]
  simp only [sub32, sizeof_uintptr, sizeof_UTrapframe]
  omega

theorem uxstk_fresh (esp : Nat) (h : ¬ (UXSTACKTOP - PGSIZE ≤ esp ∧ esp < UXSTACKTOP)) :
    sizeof_UTrapframe ≤ UXSTACKTOP ∧ uxstk esp = UXSTACKTOP - sizeof_UTrapframe := by
  have hc : ¬ (esp < UXSTACKTOP ∧ esp ≥ UXSTACKTOP - PGSIZE) := fun h' => h ⟨h'.2, h'.1⟩
  unfold uxstk
  rw [if_neg hc]
  simp only [sub32, sizeof_UTrapframe, UXSTACKTOP, UTOP]
  omega

theorem rd_wr (k : KState) (r : TfRef) (tf : Trapframe) : rd (wr k r tf) r = tf := by
  cases r <;> simp [rd, wr, setEnv]

theorem page_fault_handler_eq_push (k : KState) (tf : TfRef) (c : Nat)
    (hu : (rd k tf).tf_cs ≠ GD_KT) (hc : k.curenv = some c)
    (hup : (k.envs c).env_pgfault_upcall ≠ 0)
    (hchk : user_mem_check k c (uxstk (rd k tf).tf_esp) sizeof_UTrapframe PTE_W = true) :
    page_fault_handler tf k = push_utf tf c (uxstk (rd k tf).tf_esp) k := by
  unfold page_fault_handler
  rw [if_neg hu, hc]
  dsimp only
  rw [if_pos hup, if_pos hchk]

theorem push_utf_spec (k : KState) (tf : TfRef) (c a : Nat) :
    (push_utf tf c a k).1 = Ctl.env_run c ∧
    (push_utf tf c a k).2.umem c =
      store_utf (k.umem c) a
        ⟨k.cr2, (rd k tf).tf_err, (rd k tf).tf_regs, (rd k tf).tf_eip, (rd k tf).tf_eflags,
          (rd k tf).tf_esp⟩ ∧
    (∀ i, i ≠ c → (push_utf tf c a k).2.umem i = k.umem i) ∧
    rd (push_utf tf c a k).2 tf =
      { rd k tf with tf_esp := a, tf_eip := (k.envs c).env_pgfault_upcall } := by
  refine ⟨rfl, ?_, ?_, ?_⟩
  · cases tf <;> simp [push_utf, env_run, wr, rd]
  · intro i hi
    cases tf <;> simp [push_utf, env_run, wr, rd, hi]
  · cases tf with
    | stack => simp [push_utf, env_run, wr, rd]
    | saved e =>
      by_cases he : e = c
      · subst he
        simp [push_utf, env_run, wr, rd, setEnv]
      · have hce : ¬ (c = e) := fun h => he h.symm
        simp [push_utf, env_run, wr, rd, setEnv, he, hce]

/-- The state `page_fault_handler` resumes the environment in, when an upcall is
registered and the exception stack passes the check. -/
theorem page_fault_handler_upcall (k : KState) (tf : TfRef) (c : Nat)
    (hu : (rd k tf).tf_cs ≠ GD_KT) (hc : k.curenv = some c)
    (hup : (k.envs c).env_pgfault_upcall ≠ 0)
    (hchk : user_mem_check k c (uxstk (rd k tf).tf_esp) sizeof_UTrapframe PTE_W = true) :
    (page_fault_handler tf k).1 = Ctl.env_run c ∧
    (page_fault_handler tf k).2.umem c =
      store_utf (k.umem c) (uxstk (rd k tf).tf_esp)
        ⟨k.cr2, (rd k tf).tf_err, (rd k tf).tf_regs, (rd k tf).tf_eip, (rd k tf).tf_eflags,
          (rd k tf).tf_esp⟩ ∧
    (∀ i, i ≠ c → (page_fault_handler tf k).2.umem i = k.umem i) ∧
    rd (page_fault_handler tf k).2 tf =
      { rd k tf with tf_esp := uxstk (rd k tf).tf_esp,
                     tf_eip := (k.envs c).env_pgfault_upcall } := by
  rw [page_fault_handler_eq_push k tf c hu hc hup hchk]
  exact push_utf_spec k tf c _

/-- When the check fails nothing is written to user memory. -/
theorem page_fault_handler_umem_other (k : KState) (tf : TfRef) (c : Nat)
    (hu : (rd k tf).tf_cs ≠ GD_KT) (hc : k.curenv = some c)
    (hchk : ¬ (user_mem_check k c (uxstk (rd k tf).tf_esp) sizeof_UTrapframe PTE_W = true)) :
    (page_fault_handler tf k).2.umem = k.umem := by
  unfold page_fault_handler
  rw [if_neg hu, hc]
  dsimp only
  rw [if_neg hchk]
  split <;> rfl

/-- C3: for a user-mode page fault in an environment with a registered upcall and
interrupted stack pointer `esp`: if `UXSTACKTOP - PGSIZE ≤ esp < UXSTACKTOP` the
frame address computed in 32-bit arithmetic is exactly `esp - 4 - sizeof(UTrapframe)`
(no wrap, as `4 + sizeof(UTrapframe) ≤ esp`), the frame ends at `esp - 4`, and no byte
at or above `esp - 4` is written; otherwise the address is exactly
`UXSTACKTOP - sizeof(UTrapframe)`. In both cases only the 52 bytes of the frame, in the
current environment's memory, can change, and when the exception stack passes the
check the frame is stored there and the resumed stack pointer is its address. -/
theorem page_fault_frame_placement (k : KState) (tf : TfRef) (c : Nat)
    (hu : (rd k tf).tf_cs ≠ GD_KT) (hc : k.curenv = some c)
    (hup : (k.envs c).env_pgfault_upcall ≠ 0) :
    ((UXSTACKTOP - PGSIZE ≤ (rd k tf).tf_esp ∧ (rd k tf).tf_esp < UXSTACKTOP) →
      sizeof_uintptr + sizeof_UTrapframe ≤ (rd k tf).tf_esp ∧
      uxstk (rd k tf).tf_esp = (rd k tf).tf_esp - sizeof_uintptr - sizeof_UTrapframe ∧
      uxstk (rd k tf).tf_esp + sizeof_UTrapframe = (rd k tf).tf_esp - sizeof_uintptr ∧
      ∀ b, (rd k tf).tf_esp - sizeof_uintptr ≤ b →
        (page_fault_handler tf k).2.umem c b = k.umem c b) ∧
    (¬ (UXSTACKTOP - PGSIZE ≤ (rd k tf).tf_esp ∧ (rd k tf).tf_esp < UXSTACKTOP) →
      sizeof_UTrapframe ≤ UXSTACKTOP ∧
      uxstk (rd k tf).tf_esp = UXSTACKTOP - sizeof_UTrapframe) ∧
    (∀ i b, (i ≠ c ∨ b < uxstk (rd k tf).tf_esp ∨
        uxstk (rd k tf).tf_esp + sizeof_UTrapframe ≤ b) →
      (page_fault_handler tf k).2.umem i b = k.umem i b) ∧
    (user_mem_check k c (uxstk (rd k tf).tf_esp) sizeof_UTrapframe PTE_W = true →
      (page_fault_handler tf k).1 = Ctl.env_run c ∧
      (page_fault_handler tf k).2.umem c =
        store_utf (k.umem c) (uxstk (rd k tf).tf_esp)
          ⟨k.cr2, (rd k tf).tf_err, (rd k tf).tf_regs, (rd k tf).tf_eip,
            (rd k tf).tf_eflags, (rd k tf).tf_esp⟩ ∧
      (rd (page_fault_handler tf k).2 tf).tf_esp = uxstk (rd k tf).tf_esp) := by
  have hconf : ∀ i b, (i ≠ c ∨ b < uxstk (rd k tf).tf_esp ∨
      uxstk (rd k tf).tf_esp + sizeof_UTrapframe ≤ b) →
      (page_fault_handler tf k).2.umem i b = k.umem i b := by
    intro i b h
    by_cases hchk : user_mem_check k c (uxstk (rd k tf).tf_esp) sizeof_UTrapframe PTE_W = true
    · obtain ⟨-, hm, ho, -⟩ := page_fault_handler_upcall k tf c hu hc hup hchk
      by_cases hi : i = c
      · subst hi
        rw [hm]
        exact store_utf_outside _ _ _ _ (by
          rcases h with h | h | h
          · exact absurd rfl h
          · exact Or.inl h
          · exact Or.inr h)
      · rw [ho i hi]
    · rw [page_fault_handler_umem_other k tf c hu hc hchk]
  refine ⟨?_, fun h => uxstk_fresh _ h, hconf, ?_⟩
  · intro h
    obtain ⟨hb, he⟩ := uxstk_nested _ h.1 h.2
    refine ⟨hb, he, ?_, ?_⟩
    · rw [he]; simp only [sizeof_uintptr, sizeof_UTrapframe] at hb ⊢; omega
    · intro b hb2
      apply hconf
      right; right
      rw [he]; simp only [sizeof_uintptr, sizeof_UTrapframe] at hb hb2 ⊢; omega
  · intro hchk
    obtain ⟨h1, h2, -, h4⟩ := page_fault_handler_upcall k tf c hu hc hup hchk
    exact ⟨h1, h2, by rw [h4]⟩

/-- Witness of C3: a fault taken with the stack pointer 0xeebfff00 inside the exception
stack places the frame at 0xeebfff00 - 4 - 52. -/
theorem page_fault_frame_placement_witness :
    (rd nestedFaultState TfRef.stack).tf_cs ≠ GD_KT ∧
    nestedFaultState.curenv = some 1 ∧
    (nestedFaultState.envs 1).env_pgfault_upcall ≠ 0 ∧
    (UXSTACKTOP - PGSIZE ≤ (rd nestedFaultState TfRef.stack).tf_esp ∧
      (rd nestedFaultState TfRef.stack).tf_esp < UXSTACKTOP) ∧
    uxstk (rd nestedFaultState TfRef.stack).tf_esp =
      (rd nestedFaultState TfRef.stack).tf_esp - sizeof_uintptr - sizeof_UTrapframe :=
  ⟨by decide, by decide, by decide, by decide,
   ((page_fault_frame_placement nestedFaultState TfRef.stack 1 (by decide) (by decide)
      (by decide)).1 (by decide)).2.1⟩

/-! ## trap.c: trap and trap_dispatch -/

theorem wake_fields (k : KState) :
    (wake k).stack_tf = k.stack_tf ∧ (wake k).eflags = k.eflags ∧ (wake k).curenv = k.curenv ∧
    (wake k).envs = k.envs ∧ (wake k).cr2 = k.cr2 ∧ (wake k).umem = k.umem ∧
    (wake k).pgdir = k.pgdir ∧ (wake k).destroyed = k.destroyed ∧
    (wake k).syscalls = k.syscalls := by
  unfold wake
  split <;> exact ⟨rfl, rfl, rfl, rfl, rfl, rfl, rfl, rfl, rfl⟩

theorem user_mem_check_congr (k k1 : KState) (h : k1.pgdir = k.pgdir) (e va len perm : Nat) :
    user_mem_check k1 e va len perm = user_mem_check k e va len perm := by
  unfold user_mem_check
  rw [h]

theorem user_cs_ne_GD_KT (cs : Nat) (h : cs &&& 3 = 3) : cs ≠ GD_KT := by
  intro h8
  rw [h8] at h
  exact absurd h (by decide)

/-- A user-mode page-fault trap of a live environment is handled by
`page_fault_handler` on the saved copy of the frame. -/
theorem trap_user_page_fault (k : KState) (c : Nat)
    (hp : k.panicstr = false) (hif : k.eflags &&& FL_IF = 0)
    (hcs : k.stack_tf.tf_cs &&& 3 = 3) (hno : k.stack_tf.tf_trapno = T_PGFLT)
    (hc : k.curenv = some c) (hst : (k.envs c).env_status ≠ ENV_DYING) :
    rd (wr (lock_kernel (wake k)) (TfRef.saved c) (lock_kernel (wake k)).stack_tf)
      (TfRef.saved c) = k.stack_tf ∧
    trap k =
      match page_fault_handler (TfRef.saved c)
          (wr (lock_kernel (wake k)) (TfRef.saved c) (lock_kernel (wake k)).stack_tf) with
      | (Ctl.returned, k1) =>
        (match trap_dispatch_rest (TfRef.saved c) k1 with
          | (Ctl.returned, k3) => resume_or_yield k3
          | other => other)
      | other => other := by
  obtain ⟨wtf, wfl, wcur, wenvs, -⟩ := wake_fields k
  have hrd : rd (wr (lock_kernel (wake k)) (TfRef.saved c) (lock_kernel (wake k)).stack_tf)
      (TfRef.saved c) = k.stack_tf := by
    rw [rd_wr]; exact wtf
  refine ⟨hrd, ?_⟩
  have h1 : ¬ ((wake k).eflags &&& FL_IF ≠ 0) := by rw [wfl]; exact not_not.mpr hif
  have h2 : (wake k).stack_tf.tf_cs &&& 3 = 3 := by rw [wtf]; exact hcs
  have h3 : (lock_kernel (wake k)).curenv = some c := by
    show (wake k).curenv = some c
    rw [wcur]; exact hc
  have h4 : ¬ (((lock_kernel (wake k)).envs c).env_status = ENV_DYING) := by
    show ¬ (((wake k).envs c).env_status = ENV_DYING)
    rw [wenvs]; exact hst
  unfold trap
  rw [hp]
  simp only [Bool.false_eq_true, if_false]
  rw [if_neg h1, if_pos h2, h3]
  dsimp only
  rw [if_neg h4]
  unfold trap_dispatch
  rw [hrd, if_pos hno]
  rcases page_fault_handler (TfRef.saved c)
      (wr (lock_kernel (wake k)) (TfRef.saved c) (lock_kernel (wake k)).stack_tf) with ⟨o, k1⟩
  cases o <;> rfl

/-- C4: a page fault taken in user mode (`tf_cs & 3 == 3`) by a live environment with a
registered upcall whose exception-stack target passes the check (the machine not
panicking, interrupts disabled, all frame fields 32-bit words): `trap` resumes that
environment; the exception stack frame at the new stack pointer holds the faulting
address and the interrupted frame's error code, registers, instruction pointer, flags
and stack pointer; and the environment's saved trap frame is the interrupted frame with
exactly the stack pointer (now the frame's address) and the instruction pointer (now
the upcall entry point) replaced. -/
theorem trap_page_fault_upcall (k : KState) (c : Nat)
    (hp : k.panicstr = false) (hif : k.eflags &&& FL_IF = 0)
    (hcs : k.stack_tf.tf_cs &&& 3 = 3) (hno : k.stack_tf.tf_trapno = T_PGFLT)
    (hc : k.curenv = some c) (hst : (k.envs c).env_status ≠ ENV_DYING)
    (hup : (k.envs c).env_pgfault_upcall ≠ 0)
    (hchk : user_mem_check k c (uxstk k.stack_tf.tf_esp) sizeof_UTrapframe PTE_W = true)
    (hw : UTrapframe.word32 ⟨k.cr2, k.stack_tf.tf_err, k.stack_tf.tf_regs, k.stack_tf.tf_eip,
      k.stack_tf.tf_eflags, k.stack_tf.tf_esp⟩) :
    (trap k).1 = Ctl.env_run c ∧
    load_utf ((trap k).2.umem c) (uxstk k.stack_tf.tf_esp) =
      ⟨k.cr2, k.stack_tf.tf_err, k.stack_tf.tf_regs, k.stack_tf.tf_eip,
        k.stack_tf.tf_eflags, k.stack_tf.tf_esp⟩ ∧
    ((trap k).2.envs c).env_tf =
      { k.stack_tf with tf_esp := uxstk k.stack_tf.tf_esp,
                        tf_eip := (k.envs c).env_pgfault_upcall } ∧
    ((trap k).2.envs c).env_tf.tf_esp = uxstk k.stack_tf.tf_esp ∧
    ((trap k).2.envs c).env_tf.tf_eip = (k.envs c).env_pgfault_upcall := by
  obtain ⟨hrd, htrap⟩ := trap_user_page_fault k c hp hif hcs hno hc hst
  obtain ⟨-, -, wcur, wenvs, wcr2, wumem, wpg, -⟩ := wake_fields k
  obtain ⟨k2, hk2⟩ : ∃ k2, k2 =
      wr (lock_kernel (wake k)) (TfRef.saved c) (lock_kernel (wake k)).stack_tf := ⟨_, rfl⟩
  rw [← hk2] at hrd htrap
  have c2 : k2.curenv = some c := by
    rw [hk2]; show (wake k).curenv = some c; rw [wcur]; exact hc
  have u2 : (k2.envs c).env_pgfault_upcall = (k.envs c).env_pgfault_upcall := by
    rw [hk2]; simp [wr, setEnv, lock_kernel, wenvs]
  have p2 : k2.pgdir = k.pgdir := by rw [hk2]; exact wpg
  have r2 : k2.cr2 = k.cr2 := by rw [hk2]; exact wcr2
  have m2 : k2.umem = k.umem := by rw [hk2]; exact wumem
  have hu2 : (rd k2 (TfRef.saved c)).tf_cs ≠ GD_KT := by
    rw [hrd]; exact user_cs_ne_GD_KT _ hcs
  have hup2 : (k2.envs c).env_pgfault_upcall ≠ 0 := by rw [u2]; exact hup
  have hchk2 : user_mem_check k2 c (uxstk (rd k2 (TfRef.saved c)).tf_esp) sizeof_UTrapframe
      PTE_W = true := by
    rw [hrd, user_mem_check_congr k k2 p2]; exact hchk
  obtain ⟨f1, f2, -, f4⟩ := page_fault_handler_upcall k2 (TfRef.saved c) c hu2 c2 hup2 hchk2
  rw [hrd, r2, m2] at f2
  rw [hrd, u2] at f4
  have htrap2 : trap k = page_fault_handler (TfRef.saved c) k2 := by
    rw [htrap]
    rcases hpf : page_fault_handler (TfRef.saved c) k2 with ⟨o, k1⟩
    rw [hpf] at f1
    simp only at f1
    subst f1
    rfl
  rw [htrap2]
  have f5 : ((page_fault_handler (TfRef.saved c) k2).2.envs c).env_tf =
      { k.stack_tf with tf_esp := uxstk k.stack_tf.tf_esp,
                        tf_eip := (k.envs c).env_pgfault_upcall } := f4
  refine ⟨f1, ?_, f5, ?_, ?_⟩
  · rw [f2]
    exact load_utf_store_utf _ _ _ hw
  · rw [f5]
  · rw [f5]

/-- Witness of C4: the user-mode page fault of `faultState` is delivered to the upcall
0x800100 of environment 1. -/
theorem trap_page_fault_upcall_witness :
    faultState.stack_tf.tf_cs &&& 3 = 3 ∧ faultState.stack_tf.tf_trapno = T_PGFLT ∧
    faultState.curenv = some 1 ∧ (faultState.envs 1).env_pgfault_upcall ≠ 0 ∧
    user_mem_check faultState 1 (uxstk faultState.stack_tf.tf_esp) sizeof_UTrapframe PTE_W
      = true ∧
    (trap faultState).1 = Ctl.env_run 1 ∧
    ((trap faultState).2.envs 1).env_tf.tf_eip = (faultState.envs 1).env_pgfault_upcall :=
  ⟨by decide, by decide, by decide, by decide, by decide,
   (trap_page_fault_upcall faultState 1 rfl (by decide) (by decide) (by decide) (by decide)
      (by decide) (by decide) (by decide) (by decide)).1,
   (trap_page_fault_upcall faultState 1 rfl (by decide) (by decide) (by decide) (by decide)
      (by decide) (by decide) (by decide) (by decide)).2.2.2.2⟩

/-- C5: for a page fault not taken in kernel mode while the current environment `c` has
no registered upcall, `page_fault_handler` returns after destroying exactly `c`: user
memory is untouched (no exception stack frame is written), the frame's stack pointer and
instruction pointer are unchanged, `c` is the one environment added to the destroyed
ones, and the control block and mappings of every other environment are as before. -/
theorem page_fault_no_upcall (k : KState) (tf : TfRef) (c : Nat)
    (hu : (rd k tf).tf_cs ≠ GD_KT) (hc : k.curenv = some c)
    (hup : (k.envs c).env_pgfault_upcall = 0) :
    (page_fault_handler tf k).1 = Ctl.returned ∧
    (page_fault_handler tf k).2.umem = k.umem ∧
    (rd (page_fault_handler tf k).2 tf).tf_esp = (rd k tf).tf_esp ∧
    (rd (page_fault_handler tf k).2 tf).tf_eip = (rd k tf).tf_eip ∧
    (page_fault_handler tf k).2.destroyed = k.destroyed ++ [c] ∧
    ((page_fault_handler tf k).2.envs c).env_status = ENV_FREE ∧
    (∀ i, i ≠ c → (page_fault_handler tf k).2.envs i = k.envs i ∧
      (page_fault_handler tf k).2.pgdir i = k.pgdir i) := by
  have e : page_fault_handler tf k = (Ctl.returned, env_destroy c k) := by
    unfold page_fault_handler
    rw [if_neg hu, hc]
    dsimp only
    rw [if_neg (not_not.mpr hup)]
  rw [e]
  refine ⟨rfl, rfl, ?_, ?_, rfl, ?_, ?_⟩
  · cases tf with
    | stack => rfl
    | saved i => by_cases hi : i = c <;> simp [rd, env_destroy, env_free, setEnv, hi]
  · cases tf with
    | stack => rfl
    | saved i => by_cases hi : i = c <;> simp [rd, env_destroy, env_free, setEnv, hi]
  · simp [env_destroy, env_free, setEnv]
  · intro i hi
    constructor
    · simp [env_destroy, env_free, setEnv, hi]
    · funext pn
      simp [env_destroy, env_free, hi]

/-- Witness of C5: the user-mode page fault of `noUpcallState`, whose environment 1 has
no upcall, destroys environment 1. -/
theorem page_fault_no_upcall_witness :
    (rd noUpcallState TfRef.stack).tf_cs ≠ GD_KT ∧ noUpcallState.curenv = some 1 ∧
    (noUpcallState.envs 1).env_pgfault_upcall = 0 ∧
    (page_fault_handler TfRef.stack noUpcallState).1 = Ctl.returned ∧
    (page_fault_handler TfRef.stack noUpcallState).2.destroyed = noUpcallState.destroyed ++ [1] :=
  ⟨by decide, by decide, by decide,
   (page_fault_no_upcall noUpcallState TfRef.stack 1 (by decide) (by decide) (by decide)).1,
   (page_fault_no_upcall noUpcallState TfRef.stack 1 (by decide) (by decide)
      (by decide)).2.2.2.2.1⟩

/-- C10: for a trap frame whose vector is none of page fault, system call, spurious IRQ,
breakpoint, debug or timer: taken with code segment `GD_KT`, `trap_dispatch` panics and
leaves the state (no environment destroyed) as it was; taken with any other code
segment, with current environment `c`, it returns after destroying exactly `c`, with no
system call performed and every other environment's control block and mappings as
before (the monitor is not entered: control returns). -/
theorem trap_dispatch_unhandled (k : KState) (tf : TfRef)
    (h1 : (rd k tf).tf_trapno ≠ T_PGFLT) (h2 : (rd k tf).tf_trapno ≠ T_SYSCALL)
    (h3 : (rd k tf).tf_trapno ≠ IRQ_OFFSET + IRQ_SPURIOUS)
    (h4 : (rd k tf).tf_trapno ≠ T_BRKPT) (h5 : (rd k tf).tf_trapno ≠ T_DEBUG)
    (h6 : (rd k tf).tf_trapno ≠ IRQ_OFFSET + IRQ_TIMER) :
    ((rd k tf).tf_cs = GD_KT →
      trap_dispatch tf k = (Ctl.panic "unhandled trap in kernel", k)) ∧
    ((rd k tf).tf_cs ≠ GD_KT → ∀ c, k.curenv = some c →
      (trap_dispatch tf k).1 = Ctl.returned ∧
      (trap_dispatch tf k).2.destroyed = k.destroyed ++ [c] ∧
      ((trap_dispatch tf k).2.envs c).env_status = ENV_FREE ∧
      (trap_dispatch tf k).2.syscalls = k.syscalls ∧
      (∀ i, i ≠ c → (trap_dispatch tf k).2.envs i = k.envs i ∧
        (trap_dispatch tf k).2.pgdir i = k.pgdir i)) := by
  have e : trap_dispatch tf k =
      if (rd k tf).tf_cs = GD_KT then (Ctl.panic "unhandled trap in kernel", k)
      else
        match k.curenv with
        | none => (Ctl.panic "Page fault in kernel", k)
        | some c => (Ctl.returned, env_destroy c k) := by
    unfold trap_dispatch
    rw [if_neg h1, if_neg h2]
    unfold trap_dispatch_rest
    rw [if_neg h3, if_neg h4, if_neg h5, if_neg h6]
  constructor
  · intro hk
    rw [e, if_pos hk]
  · intro hu c hc
    rw [e, if_neg hu, hc]
    refine ⟨rfl, rfl, ?_, rfl, ?_⟩
    · simp [env_destroy, env_free, setEnv]
    · intro i hi
      constructor
      · simp [env_destroy, env_free, setEnv, hi]
      · funext pn
        simp [env_destroy, env_free, hi]

/-- Witness of C10: a general-protection fault taken in kernel mode panics; taken in
user mode it destroys the current environment 1 and returns. -/
theorem trap_dispatch_unhandled_witness :
    (rd kernelGpfState TfRef.stack).tf_trapno = 13 ∧
    (rd kernelGpfState TfRef.stack).tf_cs = GD_KT ∧
    trap_dispatch TfRef.stack kernelGpfState =
      (Ctl.panic "unhandled trap in kernel", kernelGpfState) ∧
    (rd gpfState TfRef.stack).tf_cs ≠ GD_KT ∧ gpfState.curenv = some 1 ∧
    (trap_dispatch TfRef.stack gpfState).1 = Ctl.returned ∧
    (trap_dispatch TfRef.stack gpfState).2.destroyed = gpfState.destroyed ++ [1] :=
  ⟨by decide, by decide,
   (trap_dispatch_unhandled kernelGpfState TfRef.stack (by decide) (by decide) (by decide)
      (by decide) (by decide) (by decide)).1 (by decide),
   by decide, by decide,
   ((trap_dispatch_unhandled gpfState TfRef.stack (by decide) (by decide) (by decide)
      (by decide) (by decide) (by decide)).2 (by decide) 1 (by decide)).1,
   ((trap_dispatch_unhandled gpfState TfRef.stack (by decide) (by decide) (by decide)
      (by decide) (by decide) (by decide)).2 (by decide) 1 (by decide)).2.1⟩

/-! ## trap.c: the system-call vector -/

theorem T_SYSCALL_ne_T_PGFLT : T_SYSCALL ≠ T_PGFLT := by decide

/-- C11: for a trap frame whose vector is the system-call vector, `trap_dispatch` returns
to its caller having performed exactly one system call, with the call number from eax
and the arguments from edx, ecx, ebx, edi, esi in that order; the frame afterwards is the
frame before with eax replaced by the result and nothing else changed; no environment
is destroyed, no timer interrupt is acknowledged (no yield), and the current
environment, user memory and every environment's status are as before. -/
theorem trap_dispatch_syscall (k : KState) (tf : TfRef)
    (hno : (rd k tf).tf_trapno = T_SYSCALL) :
    (trap_dispatch tf k).1 = Ctl.returned ∧
    (trap_dispatch tf k).2.syscalls = k.syscalls ++
      [[(rd k tf).tf_regs.reg_eax, (rd k tf).tf_regs.reg_edx, (rd k tf).tf_regs.reg_ecx,
        (rd k tf).tf_regs.reg_ebx, (rd k tf).tf_regs.reg_edi, (rd k tf).tf_regs.reg_esi]] ∧
    rd (trap_dispatch tf k).2 tf =
      { rd k tf with
        tf_regs := { (rd k tf).tf_regs with
          reg_eax := k.sysret [(rd k tf).tf_regs.reg_eax, (rd k tf).tf_regs.reg_edx,
            (rd k tf).tf_regs.reg_ecx, (rd k tf).tf_regs.reg_ebx, (rd k tf).tf_regs.reg_edi,
            (rd k tf).tf_regs.reg_esi] } } ∧
    (trap_dispatch tf k).2.destroyed = k.destroyed ∧
    (trap_dispatch tf k).2.eois = k.eois ∧
    (trap_dispatch tf k).2.curenv = k.curenv ∧
    (trap_dispatch tf k).2.umem = k.umem ∧
    (trap_dispatch tf k).2.pgdir = k.pgdir ∧
    (∀ i, ((trap_dispatch tf k).2.envs i).env_status = (k.envs i).env_status) := by
  have h1 : ¬ ((rd k tf).tf_trapno = T_PGFLT) := by
    rw [hno]; exact T_SYSCALL_ne_T_PGFLT
  have e : trap_dispatch tf k =
      (Ctl.returned,
        wr (syscall (rd k tf).tf_regs.reg_eax (rd k tf).tf_regs.reg_edx
              (rd k tf).tf_regs.reg_ecx (rd k tf).tf_regs.reg_ebx (rd k tf).tf_regs.reg_edi
              (rd k tf).tf_regs.reg_esi k).2 tf
          { rd k tf with
            tf_regs := { (rd k tf).tf_regs with
              reg_eax := k.sysret [(rd k tf).tf_regs.reg_eax, (rd k tf).tf_regs.reg_edx,
                (rd k tf).tf_regs.reg_ecx, (rd k tf).tf_regs.reg_ebx,
                (rd k tf).tf_regs.reg_edi, (rd k tf).tf_regs.reg_esi] } }) := by
    unfold trap_dispatch
    rw [if_neg h1, if_pos hno]
    cases tf <;> rfl
  rw [e]
  refine ⟨rfl, ?_, rd_wr _ _ _, ?_, ?_, ?_, ?_, ?_, ?_⟩
  · cases tf <;> rfl
  · cases tf <;> rfl
  · cases tf <;> rfl
  · cases tf <;> rfl
  · cases tf <;> rfl
  · cases tf <;> rfl
  · intro i
    cases tf with
    | stack => rfl
    | saved j => by_cases hi : i = j <;> simp [wr, syscall, setEnv, hi]

/-- Witness of C11: the system call of `syscallState` is performed once with call number
4 and arguments 10, 11, 12, 13, 14, and its result 64 is left in eax. -/
theorem trap_dispatch_syscall_witness :
    (rd syscallState TfRef.stack).tf_trapno = T_SYSCALL ∧
    (trap_dispatch TfRef.stack syscallState).1 = Ctl.returned ∧
    (trap_dispatch TfRef.stack syscallState).2.syscalls = [[4, 10, 11, 12, 13, 14]] ∧
    (rd (trap_dispatch TfRef.stack syscallState).2 TfRef.stack).tf_regs.reg_eax = 64 :=
  ⟨by decide,
   (trap_dispatch_syscall syscallState TfRef.stack (by decide)).1,
   (trap_dispatch_syscall syscallState TfRef.stack (by decide)).2.1,
   by decide⟩

/-! ## ipc.c: ipc_find_env -/

/-- The loop either stops at the first slot of the requested type at or after `i`, or
finds none among the `n` slots and gives 0. -/
theorem ipc_find_env_from_spec (envs : Nat → Env) (type : Nat) :
    ∀ (n i : Nat),
      (∃ j, i ≤ j ∧ j < i + n ∧ (envs j).env_type = type ∧
        (∀ j1, i ≤ j1 → j1 < j → (envs j1).env_type ≠ type) ∧
        ipc_find_env_from envs type n i = (envs j).env_id) ∨
      ((∀ j, i ≤ j → j < i + n → (envs j).env_type ≠ type) ∧
        ipc_find_env_from envs type n i = 0) := by
  intro n
  induction n with
  | zero =>
    intro i
    right
    exact ⟨fun j h1 h2 => by omega, rfl⟩
  | succ n ih =>
    intro i
    unfold ipc_find_env_from
    by_cases h : (envs i).env_type = type
    · left
      rw [if_pos h]
      exact ⟨i, Nat.le_refl i, by omega, h, fun j1 h1 h2 => by omega, rfl⟩
    · rw [if_neg h]
      rcases ih (i + 1) with ⟨j, hj1, hj2, hj3, hj4, hj5⟩ | ⟨hnone, h0⟩
      · left
        refine ⟨j, by omega, by omega, hj3, ?_, hj5⟩
        intro j1 h1 h2
        by_cases hji : j1 = i
        · rw [hji]; exact h
        · exact hj4 j1 (by omega) h2
      · right
        refine ⟨?_, h0⟩
        intro j h1 h2
        by_cases hji : j = i
        · rw [hji]; exact h
        · exact hnone j (by omega) (by omega)

/-- C13: for every environment table and requested type, `ipc_find_env` returns the
`env_id` of the lowest-index slot below `NENV` whose `env_type` equals the request;
when no slot below `NENV` has that type it returns 0; so what it returns is either
the identity of a slot of the requested type or the 0 of "none found". -/
theorem ipc_find_env_first (k : Kern) (type : Nat) :
    (∀ i, i < NENV → (k.envs i).env_type = type →
      (∀ j, j < i → (k.envs j).env_type ≠ type) →
      ipc_find_env k type = (k.envs i).env_id) ∧
    ((∀ i, i < NENV → (k.envs i).env_type ≠ type) → ipc_find_env k type = 0) ∧
    ((∃ i, i < NENV ∧ (k.envs i).env_type = type ∧ ipc_find_env k type = (k.envs i).env_id) ∨
      ((∀ i, i < NENV → (k.envs i).env_type ≠ type) ∧ ipc_find_env k type = 0)) := by
  have h := ipc_find_env_from_spec k.envs type NENV 0
  have hres : ipc_find_env k type = ipc_find_env_from k.envs type NENV 0 := rfl
  refine ⟨?_, ?_, ?_⟩
  · intro i hi hm hlow
    rcases h with ⟨j, -, -, hj3, hj4, hj5⟩ | ⟨hnone, -⟩
    · have hij : j = i := by
        rcases Nat.lt_trichotomy j i with hlt | heq | hgt
        · exact absurd hj3 (hlow j hlt)
        · exact heq
        · exact absurd hm (hj4 i (Nat.zero_le i) hgt)
      rw [← hij, hres]; exact hj5
    · exact absurd hm (hnone i (Nat.zero_le i) (by omega))
  · intro hnone
    rcases h with ⟨j, -, hj2, hj3, -, -⟩ | ⟨-, h0⟩
    · exact absurd hj3 (hnone j (by omega))
    · rw [hres]; exact h0
  · rcases h with ⟨j, -, hj2, hj3, -, hj5⟩ | ⟨hnone, h0⟩
    · exact Or.inl ⟨j, by omega, hj3, hj5⟩
    · exact Or.inr ⟨fun i hi => hnone i (Nat.zero_le i) (by omega), h0⟩

set_option maxRecDepth 100000 in
/-- Witness of C13: in `typedKern` the first slot of type 1 is slot 5, and no slot has
type 2. -/
theorem ipc_find_env_first_witness :
    (typedKern.envs 5).env_type = 1 ∧ ipc_find_env typedKern 1 = 0x1005 ∧
    ipc_find_env typedKern 2 = 0 :=
  ⟨by decide,
   (ipc_find_env_first typedKern 1).1 5 (by decide) (by decide) (by decide),
   by decide⟩

/-! ## The gate table built by trap_init -/

theorem SETGATE_gates (t : Idt) (s : SetGate) (i : Nat) (g : Gatedesc)
    (h : (SETGATE t s).gates i = some g) :
    t.gates i = some g ∨ (s.index = i ∧ s.index < IDT_SIZE ∧ g = gate_of s) := by
  unfold SETGATE at h
  by_cases hs : s.index < IDT_SIZE
  · rw [if_pos hs] at h
    by_cases hi : i = s.index
    · simp only [hi, if_true, Option.some.injEq] at h
      exact Or.inr ⟨hi.symm, hs, h.symm⟩
    · simp only [hi, if_false] at h
      exact Or.inl h
  · rw [if_neg hs] at h
    exact Or.inl h

theorem foldl_SETGATE_gates (l : List SetGate) (t : Idt) (i : Nat) (g : Gatedesc)
    (h : (l.foldl SETGATE t).gates i = some g) :
    t.gates i = some g ∨ ∃ s ∈ l, s.index = i ∧ s.index < IDT_SIZE ∧ g = gate_of s := by
  induction l generalizing t with
  | nil => exact Or.inl h
  | cons a l ih =>
    rw [List.foldl_cons] at h
    rcases ih (SETGATE t a) h with h1 | ⟨s, hs, h2⟩
    · rcases SETGATE_gates t a i g h1 with h3 | h3
      · exact Or.inl h3
      · exact Or.inr ⟨a, List.mem_cons_self _ _, h3⟩
    · exact Or.inr ⟨s, List.mem_cons_of_mem _ hs, h2⟩

/-- Every entry of the table after `trap_init` on the zeroed table was written by one of
its `SETGATE` statements, at an index inside the table. -/
theorem trap_init_installed (i : Nat) (g : Gatedesc)
    (h : (trap_init idt_zero).gates i = some g) :
    ∃ s ∈ trap_init_gates, s.index = i ∧ s.index < IDT_SIZE ∧ g = gate_of s := by
  rcases foldl_SETGATE_gates trap_init_gates idt_zero i g h with h1 | h1
  · exact absurd h1 (by simp [idt_zero])
  · exact h1

/-- C12 (the code against the claim): the page-fault gate that `trap_init` installs has
descriptor privilege level 1, not 0. -/
theorem trap_init_pgflt_dpl_is_one :
    ((trap_init idt_zero).gates T_PGFLT).map Gatedesc.gd_dpl = some 1 ∧
    ((trap_init idt_zero).gates T_PGFLT).map Gatedesc.gd_dpl ≠ some 0 := by
  decide

/-- C12 (amended): in the gate table built by `trap_init`, the page-fault gate (vector 14)
has descriptor privilege level 1, the lowest level of any installed gate; it is the only
installed gate that user code (privilege level 3) cannot enter with `int`; every other
installed gate, and every other `SETGATE` statement of `trap_init`, has descriptor
privilege level 3. -/
theorem trap_init_pgflt_most_restrictive :
    (trap_init idt_zero).gates T_PGFLT = some ⟨Handler.PGFLT, 8, 0, 1, 1⟩ ∧
    (∀ i g, (trap_init idt_zero).gates i = some g → 1 ≤ g.gd_dpl) ∧
    (∀ i g, (trap_init idt_zero).gates i = some g →
      (may_int USER_CPL g = false ↔ i = T_PGFLT)) ∧
    (∀ i g, (trap_init idt_zero).gates i = some g → i ≠ T_PGFLT → g.gd_dpl = 3) ∧
    (∀ s ∈ trap_init_gates, s.index ≠ T_PGFLT → s.dpl = 3) := by
  have key : ∀ s ∈ trap_init_gates,
      1 ≤ (gate_of s).gd_dpl ∧ (may_int USER_CPL (gate_of s) = false ↔ s.index = T_PGFLT) ∧
      (s.index ≠ T_PGFLT → (gate_of s).gd_dpl = 3) := by decide
  refine ⟨by decide, ?_, ?_, ?_, by decide⟩
  · intro i g h
    obtain ⟨s, hs, _, _, rfl⟩ := trap_init_installed i g h
    exact (key s hs).1
  · intro i g h
    obtain ⟨s, hs, rfl, _, rfl⟩ := trap_init_installed i g h
    exact (key s hs).2.1
  · intro i g h
    obtain ⟨s, hs, rfl, _, rfl⟩ := trap_init_installed i g h
    exact (key s hs).2.2

theorem trap_init_pgflt_most_restrictive_witness :
    may_int USER_CPL ⟨Handler.PGFLT, 8, 0, 1, 1⟩ = false ∧
    (⟨Handler.SYSCALL, 8, 0, 3, 1⟩ : Gatedesc).gd_dpl = 3 :=
  ⟨(trap_init_pgflt_most_restrictive.2.2.1 14 ⟨Handler.PGFLT, 8, 0, 1, 1⟩ (by decide)).2 rfl,
   trap_init_pgflt_most_restrictive.2.2.2.1 48 ⟨Handler.SYSCALL, 8, 0, 3, 1⟩ (by decide)
     (by decide)⟩

/-- The writes of `trap_init` that land outside the table, from any starting table: the
one at index 500. -/
theorem trap_init_outside (t : Idt) :
    (trap_init t).outside = t.outside ++ [(500, ⟨Handler.DEFAULT, 8, 0, 3, 1⟩)] := by
  simp [trap_init, trap_init_gates, SETGATE, IDT_SIZE, gate_of]

/-- C15 (the code against the claim): the last `SETGATE` statement of `trap_init` has
vector index 500, which is not below the 256 entries of `idt`; executed, it writes
outside the array. Every other statement has an index inside the table. -/
theorem trap_init_writes_outside_idt :
    (⟨500, 0, 0x8, Handler.DEFAULT, 3⟩ : SetGate) ∈ trap_init_gates ∧
    ¬ (500 < IDT_SIZE) ∧
    ¬ (∀ s ∈ trap_init_gates, s.index < IDT_SIZE) ∧
    (trap_init idt_zero).outside = [(500, ⟨Handler.DEFAULT, 8, 0, 3, 1⟩)] ∧
    (∀ s ∈ trap_init_gates, s.index ≠ 500 → s.index < IDT_SIZE) := by
  decide

/-! ## fork.c: the order of the calls of fork -/

theorem Calm.same (k : Kern) (P : Prop) : Calm k k P :=
  ⟨⟨[], by simp⟩, rfl, rfl, rfl, rfl⟩

theorem Calm.chain {a b c : Kern} {P Q : Prop} (h1 : Calm a b P) (hp : P) (h2 : Calm b c Q) :
    Calm a c Q := by
  obtain ⟨l1, e1, p1⟩ := h1.log
  obtain ⟨l2, e2, p2⟩ := h2.log
  refine ⟨⟨l1 ++ l2, by rw [e2, e1, List.append_assoc], ?_⟩, h2.cur.trans h1.cur,
    h2.refuse.trans h1.refuse, h2.envs.trans h1.envs, h2.thisenv.trans h1.thisenv⟩
  intro x hx
  rcases List.mem_append.mp hx with h | h
  · exact ⟨(p1 x h).1, fun _ => (p1 x h).2 hp⟩
  · exact ⟨(p2 x h).1, fun hq => by rw [← h1.refuse]; exact (p2 x h).2 hq⟩

theorem Calm.mono {a b : Kern} {P Q : Prop} (h : Calm a b P) (hq : Q → P) : Calm a b Q := by
  obtain ⟨l, e, p⟩ := h.log
  exact ⟨⟨l, e, fun x hx => ⟨(p x hx).1, fun q => (p x hx).2 (hq q)⟩⟩, h.cur, h.refuse, h.envs,
    h.thisenv⟩

theorem sys_page_map_calm (k : Kern) (se : Int) (sva : Nat) (de : Int) (dva perm : Nat) :
    Calm k (sys_page_map se sva de dva perm k).2 ((sys_page_map se sva de dva perm k).1 = 0) := by
  have hl : ∀ c ∈ [Call.page_map se sva de dva perm],
      isMapping c = true ∧ ((sys_page_map se sva de dva perm k).1 = 0 → k.refuse c = 0) := by
    intro c hc
    rw [List.mem_singleton] at hc
    subst hc
    exact ⟨rfl, fun h => (sys_page_map_zero k se sva de dva perm h).1⟩
  have hf : (sys_page_map se sva de dva perm k).2.log =
        k.log ++ [Call.page_map se sva de dva perm] ∧
      (sys_page_map se sva de dva perm k).2.cur = k.cur ∧
      (sys_page_map se sva de dva perm k).2.refuse = k.refuse ∧
      (sys_page_map se sva de dva perm k).2.envs = k.envs ∧
      (sys_page_map se sva de dva perm k).2.thisenv = k.thisenv := by
    unfold sys_page_map
    by_cases hr : k.refuse (Call.page_map se sva de dva perm) = 0
    · by_cases hp : k.pt (envid2env k se) (sva / PGSIZE) &&& PTE_P = 0
      · simp only [hr, hp, ne_eq, not_true_eq_false, if_false, if_true]
        exact ⟨rfl, rfl, rfl, rfl, rfl⟩
      · simp only [hr, hp, ne_eq, not_true_eq_false, if_false]
        exact ⟨rfl, rfl, rfl, rfl, rfl⟩
    · simp only [hr, ne_eq, not_false_eq_true, if_true]
      exact ⟨rfl, rfl, rfl, rfl, rfl⟩
  exact ⟨⟨_, hf.1, hl⟩, hf.2.1, hf.2.2.1, hf.2.2.2.1, hf.2.2.2.2⟩

theorem sys_page_alloc_calm (k : Kern) (e : Int) (va perm : Nat) :
    Calm k (sys_page_alloc e va perm k).2 ((sys_page_alloc e va perm k).1 = 0) := by
  have hl : ∀ c ∈ [Call.page_alloc e va perm],
      isMapping c = true ∧ ((sys_page_alloc e va perm k).1 = 0 → k.refuse c = 0) := by
    intro c hc
    rw [List.mem_singleton] at hc
    subst hc
    exact ⟨rfl, fun h => (sys_page_alloc_zero k e va perm h).1⟩
  have hf : (sys_page_alloc e va perm k).2.log = k.log ++ [Call.page_alloc e va perm] ∧
      (sys_page_alloc e va perm k).2.cur = k.cur ∧
      (sys_page_alloc e va perm k).2.refuse = k.refuse ∧
      (sys_page_alloc e va perm k).2.envs = k.envs ∧
      (sys_page_alloc e va perm k).2.thisenv = k.thisenv := by
    unfold sys_page_alloc
    by_cases hr : k.refuse (Call.page_alloc e va perm) = 0
    · cases hfree : k.free with
      | nil =>
        simp only [hr, hfree, ne_eq, not_true_eq_false, if_false]
        exact ⟨rfl, rfl, rfl, rfl, rfl⟩
      | cons f rest =>
        simp only [hr, hfree, ne_eq, not_true_eq_false, if_false]
        exact ⟨rfl, rfl, rfl, rfl, rfl⟩
    · simp only [hr, ne_eq, not_false_eq_true, if_true]
      exact ⟨rfl, rfl, rfl, rfl, rfl⟩
  exact ⟨⟨_, hf.1, hl⟩, hf.2.1, hf.2.2.1, hf.2.2.2.1, hf.2.2.2.2⟩

/-- Duplicating a page issues mapping calls only, all accepted when it returns; it returns
or panics. -/
theorem duppage_calm (k : Kern) (envid : Int) (pn : Nat) :
    Calm k (duppage envid pn k).2 (∃ v, (duppage envid pn k).1 = Outcome.ret v) ∧
    (duppage envid pn k).1 ≠ Outcome.blocked := by
  have q1 := fun perm => sys_page_map_calm k 0 ((pn <<< PGSHIFT) % 2 ^ 32) envid
    ((pn <<< PGSHIFT) % 2 ^ 32) perm
  unfold duppage
  by_cases hW : uvpt k pn &&& PTE_W ≠ 0 ∨ uvpt k pn &&& PTE_COW ≠ 0
  · simp only [hW, if_true]
    by_cases h1 : (sys_page_map 0 ((pn <<< PGSHIFT) % 2 ^ 32) envid
        ((pn <<< PGSHIFT) % 2 ^ 32) (PTE_COW ||| PTE_U ||| PTE_P) k).1 = 0
    · simp only [h1, ne_eq, not_true_eq_false, if_false]
      have q2 := sys_page_map_calm (sys_page_map 0 ((pn <<< PGSHIFT) % 2 ^ 32) envid
        ((pn <<< PGSHIFT) % 2 ^ 32) (PTE_COW ||| PTE_U ||| PTE_P) k).2 0
        ((pn <<< PGSHIFT) % 2 ^ 32) 0 ((pn <<< PGSHIFT) % 2 ^ 32)
        (PTE_COW ||| PTE_U ||| PTE_P)
      have q := (q1 _).chain h1 q2
      by_cases h2 : (sys_page_map 0 ((pn <<< PGSHIFT) % 2 ^ 32) 0
          ((pn <<< PGSHIFT) % 2 ^ 32) (PTE_COW ||| PTE_U ||| PTE_P)
          (sys_page_map 0 ((pn <<< PGSHIFT) % 2 ^ 32) envid
            ((pn <<< PGSHIFT) % 2 ^ 32) (PTE_COW ||| PTE_U ||| PTE_P) k).2).1 = 0
      · simp only [h2, ne_eq, not_true_eq_false, if_false]
        exact ⟨q.mono (fun _ => h2), by simp⟩
      · simp only [h2, ne_eq, not_false_eq_true, if_true]
        exact ⟨q.mono (fun h => by simp at h), by simp⟩
    · simp only [h1, ne_eq, not_false_eq_true, if_true]
      exact ⟨(q1 _).mono (fun h => by simp at h), by simp⟩
  · simp only [hW, if_false]
    by_cases h1 : (sys_page_map 0 ((pn <<< PGSHIFT) % 2 ^ 32) envid
        ((pn <<< PGSHIFT) % 2 ^ 32) (PTE_U ||| PTE_P) k).1 = 0
    · simp only [h1, ne_eq, not_true_eq_false, if_false]
      exact ⟨(q1 _).mono (fun _ => h1), by simp⟩
    · simp only [h1, ne_eq, not_false_eq_true, if_true]
      exact ⟨(q1 _).mono (fun h => by simp at h), by simp⟩

/-- The inner loop of `fork` issues mapping calls only, all accepted when it completes; it
completes or panics. -/
theorem fork_pages_calm (envid : Int) (ipd : Nat) :
    ∀ (l : List Nat) (k : Kern),
      Calm k (fork_pages envid ipd l k).2 ((fork_pages envid ipd l k).1 = Outcome.ret ()) ∧
      (fork_pages envid ipd l k).1 ≠ Outcome.blocked := by
  intro l
  induction l with
  | nil => intro k; exact ⟨Calm.same k _, by simp [fork_pages]⟩
  | cons ipt rest ih =>
    intro k
    unfold fork_pages
    by_cases hx : (ipd <<< 10 ||| ipt) = PGNUM (UXSTACKTOP - PGSIZE)
    · rw [if_pos hx]
      have qa := sys_page_alloc_calm k envid (UXSTACKTOP - PGSIZE) (PTE_W ||| PTE_U ||| PTE_P)
      by_cases hr : (sys_page_alloc envid (UXSTACKTOP - PGSIZE) (PTE_W ||| PTE_U ||| PTE_P)
          k).1 = 0
      · simp only [hr, ne_eq, not_true_eq_false, if_false]
        exact ⟨qa.chain hr (ih _).1, (ih _).2⟩
      · simp only [hr, ne_eq, not_false_eq_true, if_true]
        exact ⟨qa.mono (fun h => by simp at h), by simp⟩
    · rw [if_neg hx]
      by_cases hp : uvpt k (ipd <<< 10 ||| ipt) &&& PTE_P ≠ 0
      · rw [if_pos hp]
        have qd := duppage_calm k envid (ipd <<< 10 ||| ipt)
        rcases hdp : duppage envid (ipd <<< 10 ||| ipt) k with ⟨o, k1⟩
        rw [hdp] at qd
        cases o with
        | ret v => exact ⟨qd.1.chain ⟨v, rfl⟩ (ih k1).1, (ih k1).2⟩
        | panic m => exact ⟨qd.1.mono (fun h => by simp at h), by simp⟩
        | blocked => exact absurd rfl qd.2
      · rw [if_neg hp]
        exact ih k

/-- The walk of `fork` issues mapping calls only, all accepted when it completes; it
completes or panics. -/
theorem fork_dirs_calm (envid : Int) :
    ∀ (l : List Nat) (k : Kern),
      Calm k (fork_dirs envid l k).2 ((fork_dirs envid l k).1 = Outcome.ret ()) ∧
      (fork_dirs envid l k).1 ≠ Outcome.blocked := by
  intro l
  induction l with
  | nil => intro k; exact ⟨Calm.same k _, by simp [fork_dirs]⟩
  | cons ipd rest ih =>
    intro k
    unfold fork_dirs
    by_cases hp : uvpd k ipd &&& PTE_P = 0
    · rw [if_pos hp]
      exact ih k
    · rw [if_neg hp]
      have qp := fork_pages_calm envid ipd (List.range NPTENTRIES) k
      rcases hfp : fork_pages envid ipd (List.range NPTENTRIES) k with ⟨o, k1⟩
      rw [hfp] at qp
      cases o with
      | ret v => exact ⟨qp.1.chain rfl (ih k1).1, (ih k1).2⟩
      | panic m => exact ⟨qp.1.mono (fun h => by simp at h), by simp⟩
      | blocked => exact absurd rfl qp.2

/-- The control blocks after the prelude of the parent branch: the child is not runnable,
and the parent's block holds the library's upcall entry point. -/
theorem fork_prelude_envs (k : Kern) (hparent : 0 < k.exofork_ret) :
    (sys_exofork (set_pgfault_handler k)).2.refuse = k.refuse ∧
    (sys_exofork (set_pgfault_handler k)).2.thisenv = k.thisenv ∧
    ((sys_exofork (set_pgfault_handler k)).2.envs (ENVX k.exofork_ret)).env_status =
      ENV_NOT_RUNNABLE ∧
    (ENVX k.exofork_ret ≠ ENVX k.cur →
      ((sys_exofork (set_pgfault_handler k)).2.envs (ENVX k.cur)).env_pgfault_upcall =
        k.upcall_entry) := by
  have h : 0 < (set_pgfault_handler k).exofork_ret := hparent
  have he : (set_pgfault_handler k).exofork_ret = k.exofork_ret := rfl
  unfold sys_exofork
  rw [if_pos h, he]
  refine ⟨rfl, rfl, ?_, ?_⟩
  · simp [setEnv]
  · intro hne
    simp [setEnv, set_pgfault_handler, Ne.symm hne]

theorem sys_env_set_pgfault_upcall_envs (envid : Int) (u : Nat) (k : Kern) (henv : envid ≠ 0) :
    (sys_env_set_pgfault_upcall envid u k).2.refuse = k.refuse ∧
    ((sys_env_set_pgfault_upcall envid u k).2.envs (ENVX envid)).env_status =
      (k.envs (ENVX envid)).env_status ∧
    ((sys_env_set_pgfault_upcall envid u k).1 = 0 →
      k.refuse (Call.env_set_pgfault_upcall envid u) = 0 ∧
      ((sys_env_set_pgfault_upcall envid u k).2.envs (ENVX envid)).env_pgfault_upcall = u) ∧
    ((sys_env_set_pgfault_upcall envid u k).1 ≠ 0 →
      k.refuse (Call.env_set_pgfault_upcall envid u) ≠ 0) := by
  have he : envid2env k envid = envid := by simp [envid2env, henv]
  unfold sys_env_set_pgfault_upcall
  by_cases hr : k.refuse (Call.env_set_pgfault_upcall envid u) = 0
  · simp only [hr, ne_eq, not_true_eq_false, if_false, he]
    exact ⟨rfl, by simp [setEnv], fun _ => ⟨trivial, by simp [setEnv]⟩, fun h => h.elim⟩
  · simp only [hr, ne_eq, not_false_eq_true, if_true]
    exact ⟨rfl, rfl, fun h => absurd h (by omega), fun _ => trivial⟩

theorem noXmap_same (k : Kern) : NoXmap k k := ⟨[], by simp⟩

theorem noXmap_chain {a b c : Kern} (h1 : NoXmap a b) (h2 : NoXmap b c) : NoXmap a c := by
  obtain ⟨l1, e1, p1⟩ := h1
  obtain ⟨l2, e2, p2⟩ := h2
  refine ⟨l1 ++ l2, by rw [e2, e1, List.append_assoc], ?_⟩
  intro x hx
  rcases List.mem_append.mp hx with h | h
  · exact p1 x h
  · exact p2 x h

theorem noXmap_one {k k1 : Kern} (c : Call) (h : k1.log = k.log ++ [c])
    (hc : touchesXstack c = false) : NoXmap k k1 := by
  refine ⟨[c], h, ?_⟩
  intro x hx
  rw [List.mem_singleton] at hx
  rw [hx]
  exact hc

theorem noXmap_of_quiet {k k1 : Kern} (q : Quiet k k1) : NoXmap k k1 := by
  obtain ⟨l, e, p⟩ := q.log
  exact ⟨l, e, fun c hc => (p c hc).2⟩

theorem sys_page_alloc_log (k : Kern) (e : Int) (va perm : Nat) :
    (sys_page_alloc e va perm k).2.log = k.log ++ [Call.page_alloc e va perm] := by
  unfold sys_page_alloc
  by_cases hr : k.refuse (Call.page_alloc e va perm) = 0
  · cases hfree : k.free with
    | nil =>
      simp only [hr, hfree, ne_eq, not_true_eq_false, if_false]
      rfl
    | cons f rest =>
      simp only [hr, hfree, ne_eq, not_true_eq_false, if_false]
      rfl
  · simp only [hr, ne_eq, not_false_eq_true, if_true]
    rfl

/-- The inner loop of `fork`, whatever its outcome, issues no call that maps from or to
the exception-stack page. -/
theorem fork_pages_noXmap (envid : Int) (ipd : Nat) (hipd : ipd < 1024) :
    ∀ (l : List Nat) (k : Kern), (∀ ipt ∈ l, ipt < 1024) →
      NoXmap k (fork_pages envid ipd l k).2 := by
  intro l
  induction l with
  | nil => intro k _; exact noXmap_same k
  | cons ipt rest ih =>
    intro k hl
    have hi := hl ipt (List.mem_cons_self _ _)
    have hrest : ∀ i ∈ rest, i < 1024 := fun i h => hl i (List.mem_cons_of_mem _ h)
    have hpn : (ipd <<< 10) ||| ipt = ipd * 1024 + ipt := mk_pn ipd ipt hi
    have hlt : ipd * 1024 + ipt < 2 ^ 20 := by omega
    unfold fork_pages
    by_cases hx : (ipd <<< 10 ||| ipt) = PGNUM (UXSTACKTOP - PGSIZE)
    · rw [if_pos hx]
      have qa : NoXmap k (sys_page_alloc envid (UXSTACKTOP - PGSIZE)
          (PTE_W ||| PTE_U ||| PTE_P) k).2 :=
        noXmap_one _ (sys_page_alloc_log k envid _ _) rfl
      by_cases hr : (sys_page_alloc envid (UXSTACKTOP - PGSIZE) (PTE_W ||| PTE_U ||| PTE_P)
          k).1 = 0
      · simp only [hr, ne_eq, not_true_eq_false, if_false]
        exact noXmap_chain qa (ih _ hrest)
      · simp only [hr, ne_eq, not_false_eq_true, if_true]
        exact qa
    · rw [if_neg hx]
      by_cases hp : uvpt k (ipd <<< 10 ||| ipt) &&& PTE_P ≠ 0
      · rw [if_pos hp]
        have qd := noXmap_of_quiet (duppage_quiet k envid (ipd <<< 10 ||| ipt)
          (by rw [hpn]; exact hlt) hx)
        rcases hdp : duppage envid (ipd <<< 10 ||| ipt) k with ⟨o, k1⟩
        rw [hdp] at qd
        cases o with
        | ret v => exact noXmap_chain qd (ih k1 hrest)
        | panic m => exact qd
        | blocked => exact qd
      · rw [if_neg hp]
        exact ih k hrest

/-- The walk of `fork`, whatever its outcome, issues no call that maps from or to the
exception-stack page. -/
theorem fork_dirs_noXmap (envid : Int) :
    ∀ (l : List Nat) (k : Kern), (∀ ipd ∈ l, ipd < 1024) →
      NoXmap k (fork_dirs envid l k).2 := by
  intro l
  induction l with
  | nil => intro k _; exact noXmap_same k
  | cons ipd rest ih =>
    intro k hl
    have hi := hl ipd (List.mem_cons_self _ _)
    have hrest : ∀ i ∈ rest, i < 1024 := fun i h => hl i (List.mem_cons_of_mem _ h)
    unfold fork_dirs
    by_cases hp : uvpd k ipd &&& PTE_P = 0
    · rw [if_pos hp]
      exact ih k hrest
    · rw [if_neg hp]
      have qp := fork_pages_noXmap envid ipd hi (List.range NPTENTRIES) k (by
        intro ipt hipt
        simpa [NPTENTRIES] using List.mem_range.mp hipt)
      rcases hfp : fork_pages envid ipd (List.range NPTENTRIES) k with ⟨o, k1⟩
      rw [hfp] at qp
      cases o with
      | ret v => exact noXmap_chain qp (ih k1 hrest)
      | panic m => exact qp
      | blocked => exact qp

theorem sys_exofork_log (k : Kern) : (sys_exofork k).2.log = k.log ++ [Call.exofork] := by
  unfold sys_exofork
  split <;> rfl

/-- No call of `fork`, in any branch and whatever its outcome, maps from or to the
exception-stack page. -/
theorem fork_noXmap (k : Kern) : NoXmap k (fork k).2 := by
  have p1 : NoXmap k (set_pgfault_handler k) :=
    noXmap_one (Call.env_set_pgfault_upcall 0 k.upcall_entry) rfl rfl
  have p2 : NoXmap (set_pgfault_handler k) (sys_exofork (set_pgfault_handler k)).2 :=
    noXmap_one Call.exofork (sys_exofork_log _) rfl
  have p := noXmap_chain p1 p2
  unfold fork
  rcases hE : sys_exofork (set_pgfault_handler k) with ⟨envid, k1⟩
  rw [hE] at p
  dsimp only at p ⊢
  by_cases h1 : envid < 0
  · rw [if_pos h1]
    exact p
  · rw [if_neg h1]
    by_cases h2 : envid = 0
    · rw [if_pos h2]
      exact noXmap_chain p (noXmap_one Call.getenvid rfl rfl)
    · rw [if_neg h2]
      have qw := fork_dirs_noXmap envid (List.range (PDX UTOP)) k1 (by
        intro ipd hipd
        have h := List.mem_range.mp hipd
        have hn : PDX UTOP = 955 := by decide
        omega)
      rcases hW : fork_dirs envid (List.range (PDX UTOP)) k1 with ⟨o, k2⟩
      rw [hW] at qw
      cases o with
      | panic m => exact noXmap_chain p qw
      | blocked => exact noXmap_chain p qw
      | ret w =>
        dsimp only
        have fu := sys_env_set_pgfault_upcall_frame envid
          (k2.envs k2.thisenv).env_pgfault_upcall k2
        have fs := sys_env_set_status_frame envid ENV_RUNNABLE
          (sys_env_set_pgfault_upcall envid (k2.envs k2.thisenv).env_pgfault_upcall k2).2
        have pu := noXmap_chain (noXmap_chain p qw) (noXmap_one _ fu.1 rfl)
        have ps := noXmap_chain pu (noXmap_one _ fs.1 rfl)
        by_cases hr : (sys_env_set_pgfault_upcall envid
            (k2.envs k2.thisenv).env_pgfault_upcall k2).1 = 0
        · rw [if_neg (not_not.mpr hr)]
          by_cases hr2 : (sys_env_set_status envid ENV_RUNNABLE
              (sys_env_set_pgfault_upcall envid
                (k2.envs k2.thisenv).env_pgfault_upcall k2).2).1 = 0
          · rw [if_neg (not_not.mpr hr2)]
            exact ps
          · rw [if_pos hr2]
            exact ps
        · rw [if_pos hr]
          exact pu

/-- A map-existing-page call with the present bit among its permissions leaves every
present entry present. -/
theorem sys_page_map_present (k : Kern) (se : Int) (sva : Nat) (de : Int) (dva perm : Nat)
    (hperm : PTE_FLAGS perm &&& PTE_P ≠ 0) (e : Int) (n : Nat) (h : k.pt e n &&& PTE_P ≠ 0) :
    (sys_page_map se sva de dva perm k).2.pt e n &&& PTE_P ≠ 0 := by
  unfold sys_page_map
  by_cases hr : k.refuse (Call.page_map se sva de dva perm) = 0
  · by_cases hp : k.pt (envid2env k se) (sva / PGSIZE) &&& PTE_P = 0
    · simp only [hr, hp, ne_eq, not_true_eq_false, if_false, if_true]
      exact h
    · simp only [hr, hp, ne_eq, not_true_eq_false, if_false]
      rw [install_pt]
      split
      · apply present_of_flags
        rw [PTE_FLAGS_remap]
        exact hperm
      · exact h
  · simp only [hr, ne_eq, not_false_eq_true, if_true]
    exact h

/-- Under a kernel that refuses nothing, duplicating a present page returns. -/
theorem duppage_ret (k : Kern) (envid : Int) (pn : Nat) (hpn : pn < 2 ^ 20)
    (hP : uvpt k pn &&& PTE_P ≠ 0) (href : ∀ c, k.refuse c = 0) :
    (duppage envid pn k).1 = Outcome.ret 0 := by
  have hva := pn_of_va pn hpn
  have hsrc : ∀ k1 : Kern, k1.cur = k.cur → k1.pt k.cur pn &&& PTE_P ≠ 0 →
      k1.pt (envid2env k1 0) ((pn <<< PGSHIFT) % 2 ^ 32 / PGSIZE) &&& PTE_P ≠ 0 := by
    intro k1 hc h
    rw [hva]
    simpa [envid2env, hc] using h
  have m1 : ∀ perm, (sys_page_map 0 ((pn <<< PGSHIFT) % 2 ^ 32) envid
      ((pn <<< PGSHIFT) % 2 ^ 32) perm k).1 = 0 := by
    intro perm
    rw [sys_page_map_ok k 0 _ envid _ perm (href _) (hsrc k rfl hP)]
  unfold duppage
  by_cases hW : uvpt k pn &&& PTE_W ≠ 0 ∨ uvpt k pn &&& PTE_COW ≠ 0
  · simp only [hW, if_true, m1, ne_eq, not_true_eq_false, if_false]
    have q := sys_page_map_calm k 0 ((pn <<< PGSHIFT) % 2 ^ 32) envid
      ((pn <<< PGSHIFT) % 2 ^ 32) (PTE_COW ||| PTE_U ||| PTE_P)
    have hp2 := sys_page_map_present k 0 ((pn <<< PGSHIFT) % 2 ^ 32) envid
      ((pn <<< PGSHIFT) % 2 ^ 32) (PTE_COW ||| PTE_U ||| PTE_P) (by decide) k.cur pn hP
    have m2 : (sys_page_map 0 ((pn <<< PGSHIFT) % 2 ^ 32) 0
        ((pn <<< PGSHIFT) % 2 ^ 32) (PTE_COW ||| PTE_U ||| PTE_P)
        (sys_page_map 0 ((pn <<< PGSHIFT) % 2 ^ 32) envid
          ((pn <<< PGSHIFT) % 2 ^ 32) (PTE_COW ||| PTE_U ||| PTE_P) k).2).1 = 0 := by
      rw [sys_page_map_ok _ 0 _ 0 _ _ (by rw [q.refuse]; exact href _) (hsrc _ q.cur hp2)]
    simp only [m2, ne_eq, not_true_eq_false, if_false]
  · simp only [hW, if_false, m1, ne_eq, not_true_eq_false]

/-- Under a kernel that refuses nothing, the inner loop of `fork` completes over pages
other than the exception-stack page. -/
theorem fork_pages_ret (envid : Int) (ipd : Nat) (hipd : ipd < 1024) :
    ∀ (l : List Nat) (k : Kern),
      (∀ ipt ∈ l, ipt < 1024 ∧ ipd * 1024 + ipt ≠ PGNUM (UXSTACKTOP - PGSIZE)) →
      (∀ c, k.refuse c = 0) →
      (fork_pages envid ipd l k).1 = Outcome.ret () := by
  intro l
  induction l with
  | nil => intro k _ _; rfl
  | cons ipt rest ih =>
    intro k hl href
    have hi := hl ipt (List.mem_cons_self _ _)
    have hrest : ∀ i ∈ rest, i < 1024 ∧ ipd * 1024 + i ≠ PGNUM (UXSTACKTOP - PGSIZE) :=
      fun i h => hl i (List.mem_cons_of_mem _ h)
    have hpn : (ipd <<< 10) ||| ipt = ipd * 1024 + ipt := mk_pn ipd ipt hi.1
    have hlt : ipd * 1024 + ipt < 2 ^ 20 := by omega
    unfold fork_pages
    simp only [hpn, hi.2, if_false]
    by_cases hp : uvpt k (ipd * 1024 + ipt) &&& PTE_P ≠ 0
    · rw [if_pos hp]
      have hd := duppage_ret k envid (ipd * 1024 + ipt) hlt hp href
      have qd := duppage_quiet k envid (ipd * 1024 + ipt) hlt hi.2
      rcases hdp : duppage envid (ipd * 1024 + ipt) k with ⟨o, k1⟩
      rw [hdp] at hd qd
      simp only at hd
      subst hd
      exact ih k1 hrest (fun c => by rw [qd.refuse]; exact href c)
    · rw [if_neg hp]
      exact ih k hrest href

/-- Under a kernel that refuses nothing, the walk of `fork` completes over the directory
slots below the one of the exception stack. -/
theorem fork_dirs_ret (envid : Int) :
    ∀ (l : List Nat) (k : Kern), (∀ ipd ∈ l, ipd < 954) → (∀ c, k.refuse c = 0) →
      (fork_dirs envid l k).1 = Outcome.ret () := by
  intro l
  induction l with
  | nil => intro k _ _; rfl
  | cons ipd rest ih =>
    intro k hl href
    have hi := hl ipd (List.mem_cons_self _ _)
    have hrest : ∀ i ∈ rest, i < 954 := fun i h => hl i (List.mem_cons_of_mem _ h)
    have hr : ∀ ipt ∈ List.range NPTENTRIES,
        ipt < 1024 ∧ ipd * 1024 + ipt ≠ PGNUM (UXSTACKTOP - PGSIZE) := by
      intro ipt hipt
      have : ipt < 1024 := by simpa [NPTENTRIES] using List.mem_range.mp hipt
      refine ⟨this, ?_⟩
      rw [xstack_pn]
      omega
    unfold fork_dirs
    by_cases hp : uvpd k ipd &&& PTE_P = 0
    · rw [if_pos hp]
      exact ih k hrest href
    · rw [if_neg hp]
      have rp := fork_pages_ret envid ipd (by omega) (List.range NPTENTRIES) k hr href
      have qp := fork_pages_quiet envid ipd (by omega) (List.range NPTENTRIES) k hr
      rcases hfp : fork_pages envid ipd (List.range NPTENTRIES) k with ⟨o, k1⟩
      rw [hfp] at rp qp
      simp only at rp
      subst rp
      exact ih k1 hrest (fun c => by rw [qp.refuse]; exact href c)

/-- Under a kernel that refuses nothing and with a free frame, the whole walk of `fork`
completes. -/
theorem fork_walk_total (envid : Int) (k1 : Kern) (href : ∀ c, k1.refuse c = 0)
    (hfree : k1.free ≠ []) :
    (fork_dirs envid (List.range (PDX UTOP)) k1).1 = Outcome.ret () := by
  rw [range_PDX_UTOP, fork_dirs_append]
  have ra := fork_dirs_ret envid (List.range 954) k1 (fun i hi => List.mem_range.mp hi) href
  have qa := fork_dirs_quiet envid (List.range 954) k1 (fun i hi => List.mem_range.mp hi)
  rcases hA : fork_dirs envid (List.range 954) k1 with ⟨oa, ka⟩
  rw [hA] at ra qa
  simp only at ra qa
  subst ra
  dsimp only
  by_cases hpa : uvpd ka 954 &&& PTE_P = 0
  · unfold fork_dirs
    rw [if_pos hpa]
    rfl
  · rw [fork_dirs_one envid 954 ka hpa, range_NPTENTRIES, fork_pages_append]
    have hr : ∀ ipt ∈ List.range 1023,
        ipt < 1024 ∧ 954 * 1024 + ipt ≠ PGNUM (UXSTACKTOP - PGSIZE) := by
      intro ipt hipt
      have : ipt < 1023 := List.mem_range.mp hipt
      rw [xstack_pn]
      omega
    have hrefa : ∀ c, ka.refuse c = 0 := fun c => by rw [qa.refuse]; exact href c
    have rc := fork_pages_ret envid 954 (by omega) (List.range 1023) ka hr hrefa
    have qc := fork_pages_quiet envid 954 (by omega) (List.range 1023) ka hr
    rcases hC : fork_pages envid 954 (List.range 1023) ka with ⟨oc, kc⟩
    rw [hC] at rc qc
    simp only at rc qc
    subst rc
    have hx : (954 <<< 10 ||| 1023) = PGNUM (UXSTACKTOP - PGSIZE) :=
      (mk_pn 954 1023 (by omega)).trans xstack_pn.symm
    dsimp only
    rw [fork_pages_xstack envid 954 1023 kc hx]
    have hfc : kc.free ≠ [] := by rw [qc.free, qa.free]; exact hfree
    obtain ⟨f, rest, hf⟩ : ∃ f rest, kc.free = f :: rest := by
      cases hk : kc.free with
      | nil => exact absurd hk hfc
      | cons f rest => exact ⟨f, rest, rfl⟩
    have e := sys_page_alloc_ok kc envid (UXSTACKTOP - PGSIZE) (PTE_W ||| PTE_U ||| PTE_P)
      f rest (by rw [qc.refuse, qa.refuse]; exact href _) hf
    rw [e]
    rfl

theorem sys_env_set_pgfault_upcall_accept (envid : Int) (u : Nat) (k : Kern)
    (h : k.refuse (Call.env_set_pgfault_upcall envid u) = 0) :
    (sys_env_set_pgfault_upcall envid u k).1 = 0 := by
  unfold sys_env_set_pgfault_upcall
  simp only [h, ne_eq, not_true_eq_false, if_false]

theorem sys_env_set_status_accept (envid : Int) (st : Nat) (k : Kern)
    (h : k.refuse (Call.env_set_status envid st) = 0) :
    (sys_env_set_status envid st k).1 = 0 := by
  unfold sys_env_set_status
  simp only [h, ne_eq, not_true_eq_false, if_false]

/-- The parent branch of `fork` returns the child's identity when the kernel refuses
nothing and a frame is free. -/
theorem fork_returns (k : Kern) (hparent : 0 < k.exofork_ret) (href : ∀ c, k.refuse c = 0)
    (hfree : k.free ≠ []) : (fork k).1 = Outcome.ret k.exofork_ret := by
  obtain ⟨hp, -, pfree, -, -, -⟩ := fork_prelude k hparent
  obtain ⟨pref, -, -, -⟩ := fork_prelude_envs k hparent
  rcases hE : sys_exofork (set_pgfault_handler k) with ⟨envid, k1⟩
  rw [hE] at hp pfree pref
  simp only at hp pfree pref
  subst hp
  have h1 : ¬ (k.exofork_ret < 0) := by omega
  have h2 : ¬ (k.exofork_ret = 0) := by omega
  have href1 : ∀ c, k1.refuse c = 0 := fun c => by rw [pref]; exact href c
  have rw1 := fork_walk_total k.exofork_ret k1 href1 (by rw [pfree]; exact hfree)
  have qw := (fork_dirs_calm k.exofork_ret (List.range (PDX UTOP)) k1).1
  rcases hW : fork_dirs k.exofork_ret (List.range (PDX UTOP)) k1 with ⟨o, k2⟩
  rw [hW] at rw1 qw
  simp only at rw1 qw
  subst rw1
  have href2 : ∀ c, k2.refuse c = 0 := fun c => by rw [qw.refuse]; exact href1 c
  have hr := sys_env_set_pgfault_upcall_accept k.exofork_ret
    (k2.envs k2.thisenv).env_pgfault_upcall k2 (href2 _)
  have uref := (sys_env_set_pgfault_upcall_envs k.exofork_ret
    (k2.envs k2.thisenv).env_pgfault_upcall k2 h2).1
  have hr2 := sys_env_set_status_accept k.exofork_ret ENV_RUNNABLE
    (sys_env_set_pgfault_upcall k.exofork_ret (k2.envs k2.thisenv).env_pgfault_upcall k2).2
    (by rw [uref]; exact href2 _)
  unfold fork
  rw [hE]
  dsimp only
  rw [if_neg h1, if_neg h2, hW]
  dsimp only
  rw [if_neg (not_not.mpr hr), if_neg (not_not.mpr hr2)]

theorem sys_page_map_log (k : Kern) (se : Int) (sva : Nat) (de : Int) (dva perm : Nat) :
    (sys_page_map se sva de dva perm k).2.log =
      k.log ++ [Call.page_map se sva de dva perm] := by
  unfold sys_page_map
  by_cases hr : k.refuse (Call.page_map se sva de dva perm) = 0
  · by_cases hp : k.pt (envid2env k se) (sva / PGSIZE) &&& PTE_P = 0
    · simp only [hr, hp, ne_eq, not_true_eq_false, if_false, if_true]
      rfl
    · simp only [hr, hp, ne_eq, not_true_eq_false, if_false]
      rfl
  · simp only [hr, ne_eq, not_false_eq_true, if_true]
    rfl

/-- Whatever its outcome, `duppage envid pn` first issues a map-existing-page call whose
source is the address of page `pn`: a call of `duppage` always shows in the log. -/
theorem duppage_logs_map (k : Kern) (envid : Int) (pn : Nat) :
    ∃ perm rest, (duppage envid pn k).2.log =
      k.log ++ Call.page_map 0 ((pn <<< PGSHIFT) % 2 ^ 32) envid
        ((pn <<< PGSHIFT) % 2 ^ 32) perm :: rest := by
  have l1 := fun perm => sys_page_map_log k 0 ((pn <<< PGSHIFT) % 2 ^ 32) envid
    ((pn <<< PGSHIFT) % 2 ^ 32) perm
  unfold duppage
  by_cases hW : uvpt k pn &&& PTE_W ≠ 0 ∨ uvpt k pn &&& PTE_COW ≠ 0
  · simp only [hW, if_true]
    by_cases h1 : (sys_page_map 0 ((pn <<< PGSHIFT) % 2 ^ 32) envid
        ((pn <<< PGSHIFT) % 2 ^ 32) (PTE_COW ||| PTE_U ||| PTE_P) k).1 = 0
    · simp only [h1, ne_eq, not_true_eq_false, if_false]
      have l2 := sys_page_map_log (sys_page_map 0 ((pn <<< PGSHIFT) % 2 ^ 32) envid
        ((pn <<< PGSHIFT) % 2 ^ 32) (PTE_COW ||| PTE_U ||| PTE_P) k).2 0
        ((pn <<< PGSHIFT) % 2 ^ 32) 0 ((pn <<< PGSHIFT) % 2 ^ 32)
        (PTE_COW ||| PTE_U ||| PTE_P)
      rw [l1] at l2
      refine ⟨PTE_COW ||| PTE_U ||| PTE_P,
        [Call.page_map 0 ((pn <<< PGSHIFT) % 2 ^ 32) 0 ((pn <<< PGSHIFT) % 2 ^ 32)
          (PTE_COW ||| PTE_U ||| PTE_P)], ?_⟩
      split <;> simpa using l2
    · simp only [h1, ne_eq, not_false_eq_true, if_true]
      exact ⟨_, [], l1 _⟩
  · simp only [hW, if_false]
    refine ⟨PTE_U ||| PTE_P, [], ?_⟩
    split <;> exact l1 _

/-- C8: the exception stack in `fork`. No call issued by `fork`, in any branch and
whatever its outcome, maps from or to the exception-stack page (page number
`PGNUM (UXSTACKTOP - PGSIZE)`), while `duppage` on that page would issue such a call: the
page is never passed to `duppage` and never mapped from the parent into the child. In the
parent branch `fork` returns the child's identity when the kernel refuses nothing and a
frame is free; and whenever it returns for a parent whose page table covering the
exception stack is present (as it is when the parent has an exception stack), exactly one
page allocation was issued, for the child at `UXSTACKTOP - PGSIZE` with present | user |
writable; the child's entry for that page is the first free frame with exactly those flags
(not copy-on-write); the parent's own entry is untouched, so the two exception stacks are
on different frames whenever the allocated frame is not the parent's. -/
theorem fork_xstack_fresh (k : Kern) :
    (∀ c ∈ (fork k).2.log.drop k.log.length, touchesXstack c = false) ∧
    (∀ (k0 : Kern) (envid : Int),
      ∃ c ∈ (duppage envid (PGNUM (UXSTACKTOP - PGSIZE)) k0).2.log.drop k0.log.length,
        touchesXstack c = true) ∧
    (0 < k.exofork_ret → (∀ c, k.refuse c = 0) → k.free ≠ [] →
      (fork k).1 = Outcome.ret k.exofork_ret) ∧
    (0 < k.exofork_ret → k.exofork_ret ≠ k.cur →
      uvpd k (PDX (UXSTACKTOP - PGSIZE)) &&& PTE_P ≠ 0 →
      ∀ v, (fork k).1 = Outcome.ret v →
        v = k.exofork_ret ∧
        ((fork k).2.log.drop k.log.length).filter isAlloc =
          [Call.page_alloc k.exofork_ret (UXSTACKTOP - PGSIZE) (PTE_W ||| PTE_U ||| PTE_P)] ∧
        (∃ f rest, k.free = f :: rest ∧ (fork k).2.free = rest ∧
          pte_frame ((fork k).2.pt k.exofork_ret (PGNUM (UXSTACKTOP - PGSIZE))) = f ∧
          (f ≠ pte_frame (uvpt k (PGNUM (UXSTACKTOP - PGSIZE))) →
            pte_frame ((fork k).2.pt k.exofork_ret (PGNUM (UXSTACKTOP - PGSIZE))) ≠
              pte_frame (uvpt (fork k).2 (PGNUM (UXSTACKTOP - PGSIZE))))) ∧
        PTE_FLAGS ((fork k).2.pt k.exofork_ret (PGNUM (UXSTACKTOP - PGSIZE))) =
          PTE_P ||| PTE_U ||| PTE_W ∧
        (fork k).2.pt k.exofork_ret (PGNUM (UXSTACKTOP - PGSIZE)) &&& PTE_COW = 0 ∧
        uvpt (fork k).2 (PGNUM (UXSTACKTOP - PGSIZE)) =
          uvpt k (PGNUM (UXSTACKTOP - PGSIZE))) := by
  refine ⟨?_, ?_, fork_returns k, ?_⟩
  · obtain ⟨l, e, p⟩ := fork_noXmap k
    rw [e, List.drop_left]
    exact p
  · intro k0 envid
    obtain ⟨perm, rest, e⟩ := duppage_logs_map k0 envid (PGNUM (UXSTACKTOP - PGSIZE))
    rw [e, List.drop_left]
    refine ⟨_, List.mem_cons_self _ _, ?_⟩
    have hv : PGNUM ((PGNUM (UXSTACKTOP - PGSIZE) <<< PGSHIFT) % 2 ^ 32) =
        PGNUM (UXSTACKTOP - PGSIZE) := PGNUM_va _ (by decide)
    show (decide (PGNUM ((PGNUM (UXSTACKTOP - PGSIZE) <<< PGSHIFT) % 2 ^ 32) =
        PGNUM (UXSTACKTOP - PGSIZE)) ||
      decide (PGNUM ((PGNUM (UXSTACKTOP - PGSIZE) <<< PGSHIFT) % 2 ^ 32) =
        PGNUM (UXSTACKTOP - PGSIZE))) = true
    rw [hv]
    simp
  · intro hparent hnew hpd v hret
    obtain ⟨h1, -, h3, h4, h5, h6, h7⟩ := fork_xstack_alloc k v hparent hnew hpd hret
    exact ⟨h1, h3, h4, h5, h6, h7⟩

set_option maxRecDepth 100000 in
/-- Witness of C8: the parent `forkKern` has its exception stack mapped and refuses
nothing; `fork` returns the child 0x1002, and its only page allocation is the child's
exception stack. -/
theorem fork_xstack_fresh_witness :
    0 < forkKern.exofork_ret ∧ forkKern.exofork_ret ≠ forkKern.cur ∧
    uvpd forkKern (PDX (UXSTACKTOP - PGSIZE)) &&& PTE_P ≠ 0 ∧
    uvpt forkKern (PGNUM (UXSTACKTOP - PGSIZE)) &&& PTE_P ≠ 0 ∧
    (fork forkKern).1 = Outcome.ret 0x1002 ∧
    ((fork forkKern).2.log.drop forkKern.log.length).filter isAlloc =
      [Call.page_alloc forkKern.exofork_ret (UXSTACKTOP - PGSIZE)
        (PTE_W ||| PTE_U ||| PTE_P)] :=
  ⟨by decide, by decide, by decide, by decide,
   (fork_xstack_fresh forkKern).2.2.1 (by decide) (fun _ => rfl) (by decide),
   ((fork_xstack_fresh forkKern).2.2.2 (by decide) (by decide) (by decide) 0x1002
      (by decide)).2.1⟩

end JOS
